import Mathlib

/-! MSM PCIe controller IRQ driver (`arch/arm/mach-msm/pcie_irq.c`).

A shallow embedding of the MSI slot allocator, the MSI status scanner, the
link-down interrupt handler, the link recovery and notification protocol and
the deferred wake and link-down handlers of the driver, followed by the
properties proved about them.

Conventions of the embedding.

* The allocation bitmap `msi_irq_in_use` is the function giving the value of
  each bit; only the bits below `PCIE_MSI_NR_IRQS` belong to the array.
* C `int` values that carry either an interrupt number or a negative errno are
  `Int`; interrupt numbers themselves (`unsigned int`) are `Nat`.  Linux
  interrupt numbers index the descriptor table and stay far below `2 ^ 31`, so
  the conversions between `unsigned int` and `int` are the identity on them.
* A `goto again` / `while` loop whose exit depends on the environment takes a
  fuel argument and returns `none` when the fuel is used up.
* The link handlers return the device afterwards together with the list of the
  calls they make, in order; the primitives of `pcie.c` and the callback of the
  client are functions on the device supplied from outside.
* For the recovery mutex the link handlers are given a second time step by step
  (the definitions named `_steps`): one step per call and per assignment, each
  with the device as it leaves it.  Their calls and results are proved to be
  those of the handlers.
-/

namespace PcieIrq

/-! ## Constants -/

/-- Modelled from the spec: the constant `PCIE_MSI_NR_IRQS` of `pcie.h`, a header
that is not part of the sources at hand.  The spec gives the capacity of the
bitmap as 8 banks of 32 bits, 256 slots. -/
def PCIE_MSI_NR_IRQS : Nat := 256

/-- Number of MSI status banks, `#define PCIE20_MSI_CTRL_MAX 8`. -/
def PCIE20_MSI_CTRL_MAX : Nat := 8

/-- Any address will do, `#define MSM_PCIE_MSI_PHY 0xa0000000`. -/
def MSM_PCIE_MSI_PHY : Nat := 0xa0000000

/-- The errno `ENOSPC`. -/
def ENOSPC : Int := 28

/-- The errno `EINVAL`. -/
def EINVAL : Int := 22

/-- The capability id `PCI_CAP_ID_MSI`. -/
def PCI_CAP_ID_MSI : Nat := 5

/-- Value stored in a `u32` when the integer `z` is assigned to it. -/
def to_u32 (z : Int) : Nat := (z % 4294967296).toNat

/-! ## Data model -/

/-- Modelled from the spec: `link_status` ranges over Enabled and Disabled; the
enumeration itself is declared in a header that is not part of the sources. -/
inductive msm_pcie_link_status where
  | MSM_PCIE_LINK_ENABLED
  | MSM_PCIE_LINK_DISABLED
  deriving DecidableEq

open msm_pcie_link_status

/-- The fields of `struct msm_pcie_dev_t` that `pcie_irq.c` reads or writes in
the functions embedded below.  `irq_domain` is the map of the linear interrupt
domain, from a slot (hardware interrupt number) to its virtual interrupt
number, with `0` for a slot whose mapping cannot be created.  The two `gpio`
fields are `gpio[MSM_PCIE_GPIO_PERST].num` and `.on`.  The event counters are
unbounded naturals. -/
structure msm_pcie_dev_t where
  msi_gicm_addr : Nat
  msi_gicm_base : Nat
  irq_domain : Nat → Nat
  msi_irq_in_use : Nat → Bool
  use_msi : Bool
  link_status : msm_pcie_link_status
  enumerated : Bool
  suspending : Bool
  user_suspend : Bool
  recovery_pending : Bool
  shadow_en : Bool
  handling_linkdown : Int
  linkdown_counter : Nat
  wake_counter : Nat
  gpio_perst_num : Nat
  gpio_perst_on : Nat

/-- The message of `struct msi_msg`. -/
structure msi_msg where
  address_lo : Nat
  address_hi : Nat
  data : Nat
  deriving DecidableEq

/-- The fields of `struct msi_desc` used by the driver: the interrupt recorded
by `irq_set_msi_desc`, `msi_attrib.multiple` (a 3 bit field) and the message
last written by `write_msi_msg`. -/
structure msi_desc where
  irq : Nat
  multiple : Nat
  msg : msi_msg
  deriving DecidableEq

/-- The `msi_list` of a `struct pci_dev`. -/
structure pci_dev where
  msi_list : List msi_desc
  deriving DecidableEq

/-! ## Bit operations -/

/-- Least index `k` with `i ≤ k < i + n` and `p k`, or `i + n` when there is
none: the scan shared by `find_first_zero_bit` and `find_first_bit`. -/
def find_first_from (p : Nat → Bool) : Nat → Nat → Nat
  | 0, i => i
  | n + 1, i => if p i then i else find_first_from p n (i + 1)

/-- The kernel call `find_first_zero_bit(addr, size)`. -/
def find_first_zero_bit (addr : Nat → Bool) (size : Nat) : Nat :=
  find_first_from (fun i => !addr i) size 0

/-- The kernel call `find_first_bit(&word, size)` on a single word. -/
def find_first_bit (word : Nat) (size : Nat) : Nat :=
  find_first_from (fun i => word.testBit i) size 0

/-- The kernel call `test_and_set_bit(nr, addr)`: the old value of the bit and
the new contents. -/
def test_and_set_bit (nr : Nat) (addr : Nat → Bool) : Bool × (Nat → Bool) :=
  (addr nr, Function.update addr nr true)

/-- The kernel call `clear_bit(nr, addr)`. -/
def clear_bit (nr : Nat) (addr : Nat → Bool) : Nat → Bool :=
  Function.update addr nr false

/-- The kernel call `irq_create_mapping(dev->irq_domain, hwirq)`. -/
def irq_create_mapping (dev : msm_pcie_dev_t) (hwirq : Nat) : Nat :=
  dev.irq_domain hwirq

/-- The kernel call `irq_find_mapping(dev->irq_domain, hwirq)`. -/
def irq_find_mapping (dev : msm_pcie_dev_t) (hwirq : Nat) : Nat :=
  dev.irq_domain hwirq

/-! ## Slot allocation -/

/-- The function `msm_pcie_create_irq`.  The fuel bounds the passes through
the label `again`. -/
def msm_pcie_create_irq : Nat → msm_pcie_dev_t → Option (Int × msm_pcie_dev_t)
  | 0, _ => none
  | fuel + 1, dev =>
    let pos := find_first_zero_bit dev.msi_irq_in_use PCIE_MSI_NR_IRQS
    if pos ≥ PCIE_MSI_NR_IRQS then some (-ENOSPC, dev)
    else
      let r := test_and_set_bit pos dev.msi_irq_in_use
      let dev1 := { dev with msi_irq_in_use := r.2 }
      if r.1 then msm_pcie_create_irq fuel dev1
      else
        let irq : Int := (irq_create_mapping dev1 pos : Nat)
        if irq = 0 then some (-EINVAL, dev1) else some (irq, dev1)

/-- The function `msm_pcie_create_irq_qgic`. -/
def msm_pcie_create_irq_qgic : Nat → msm_pcie_dev_t → Option (Int × msm_pcie_dev_t)
  | 0, _ => none
  | fuel + 1, dev =>
    let pos := find_first_zero_bit dev.msi_irq_in_use PCIE_MSI_NR_IRQS
    if pos ≥ PCIE_MSI_NR_IRQS then some (-ENOSPC, dev)
    else
      let r := test_and_set_bit pos dev.msi_irq_in_use
      let dev1 := { dev with msi_irq_in_use := r.2 }
      if r.1 then msm_pcie_create_irq_qgic fuel dev1
      else
        let irq : Int := (dev1.msi_gicm_base + pos : Nat)
        if irq = 0 then some (-EINVAL, dev1) else some (irq, dev1)

/-- The function `msm_pcie_destroy_irq(irq, pcie_dev)` with a device given.
The result is `none` when `pos` falls outside the bitmap, where `clear_bit`
writes outside the array.  The call `dynamic_irq_cleanup(irq)` of the
domain-mapped policy touches no field of the model. -/
def msm_pcie_destroy_irq (irq : Nat) (dev : msm_pcie_dev_t) : Option msm_pcie_dev_t :=
  let pos : Int :=
    if dev.msi_gicm_addr ≠ 0 then (irq : Int) - (dev.msi_gicm_base : Nat)
    else (irq : Int) - (irq_find_mapping dev 0 : Nat)
  if 0 ≤ pos ∧ pos < (PCIE_MSI_NR_IRQS : Nat) then
    some { dev with msi_irq_in_use := clear_bit pos.toNat dev.msi_irq_in_use }
  else none

/-! ## Hook-up to the PCI MSI framework -/

/-- The function `arch_setup_msi_irq_default`.  The kernel call
`irq_set_msi_desc(irq, desc)` records `irq` in the descriptor and
`write_msi_msg` stores the message in it. -/
def arch_setup_msi_irq_default (fuel : Nat) (dev : msm_pcie_dev_t) (desc : msi_desc)
    (_nvec : Nat) : Option (Int × msm_pcie_dev_t × msi_desc) :=
  match msm_pcie_create_irq fuel dev with
  | none => none
  | some (irq, dev1) =>
    if irq < 0 then some (irq, dev1, desc)
    else
      let desc1 := { desc with irq := irq.toNat }
      let msg : msi_msg :=
        { address_hi := 0
          address_lo := MSM_PCIE_MSI_PHY
          data := to_u32 (irq - (irq_find_mapping dev1 0 : Nat)) }
      some (0, dev1, { desc1 with msg := msg })

/-- The `for (index = 0; index < nvec; index++)` loop of
`arch_setup_msi_irq_qgic`, with `n` iterations left.  The result is
`Except.error irq` when the loop returns early and `Except.ok firstirq`
when it runs to its end. -/
def arch_setup_msi_irq_qgic_loop (fuel : Nat) :
    Nat → Nat → Int → msm_pcie_dev_t → Option (Except Int Int × msm_pcie_dev_t)
  | 0, _, firstirq, dev => some (Except.ok firstirq, dev)
  | n + 1, index, firstirq, dev =>
    match msm_pcie_create_irq_qgic fuel dev with
    | none => none
    | some (irq, dev1) =>
      if irq < 0 then some (Except.error irq, dev1)
      else
        arch_setup_msi_irq_qgic_loop fuel n (index + 1)
          (if index = 0 then irq else firstirq) dev1

/-- The function `arch_setup_msi_irq_qgic`.  The call
`irq_set_irq_type(irq, IRQ_TYPE_EDGE_RISING)` inside the loop touches no field
of the model. -/
def arch_setup_msi_irq_qgic (fuel : Nat) (dev : msm_pcie_dev_t) (desc : msi_desc)
    (nvec : Nat) : Option (Int × msm_pcie_dev_t × msi_desc) :=
  match arch_setup_msi_irq_qgic_loop fuel nvec 0 0 dev with
  | none => none
  | some (Except.error irq, dev1) => some (irq, dev1, desc)
  | some (Except.ok firstirq, dev1) =>
    let desc1 := { desc with irq := firstirq.toNat }
    let msg : msi_msg :=
      { address_hi := 0
        address_lo := dev1.msi_gicm_addr
        data := to_u32 firstirq }
    some (0, dev1, { desc1 with msg := msg })

/-- The function `arch_setup_msi_irq`. -/
def arch_setup_msi_irq (fuel : Nat) (dev : msm_pcie_dev_t) (desc : msi_desc) :
    Option (Int × msm_pcie_dev_t × msi_desc) :=
  if dev.msi_gicm_addr ≠ 0 then arch_setup_msi_irq_qgic fuel dev desc 1
  else arch_setup_msi_irq_default fuel dev desc 1

/-- The `while (nvec)` loop of `msm_pcie_get_msi_multiple`. -/
def msm_pcie_get_msi_multiple_loop (nvec : Nat) (msi_multiple : Int) : Int :=
  if h : nvec = 0 then msi_multiple
  else msm_pcie_get_msi_multiple_loop (nvec >>> 1) (msi_multiple + 1)
termination_by nvec
decreasing_by
  rw [Nat.shiftRight_eq_div_pow]
  exact Nat.div_lt_self (Nat.pos_of_ne_zero h) (by decide)

/-- The function `msm_pcie_get_msi_multiple`. -/
def msm_pcie_get_msi_multiple (nvec : Nat) : Int :=
  msm_pcie_get_msi_multiple_loop nvec 0 - 1

/-- The `list_for_each_entry` loop of `arch_setup_msi_irqs`.  The first
component is `some ret` when the loop returns early. -/
def arch_setup_msi_irqs_entries (fuel nvec : Nat) :
    List msi_desc → msm_pcie_dev_t → Option (Option Int × msm_pcie_dev_t × List msi_desc)
  | [], dev => some (none, dev, [])
  | entry :: rest, dev =>
    let entry1 := { entry with multiple := (msm_pcie_get_msi_multiple nvec % 8).toNat }
    match (if dev.msi_gicm_addr ≠ 0 then arch_setup_msi_irq_qgic fuel dev entry1 nvec
           else arch_setup_msi_irq_default fuel dev entry1 nvec) with
    | none => none
    | some (ret, dev1, entry2) =>
      if ret < 0 then some (some ret, dev1, entry2 :: rest)
      else if ret > 0 then some (some (-ENOSPC), dev1, entry2 :: rest)
      else
        match arch_setup_msi_irqs_entries fuel nvec rest dev1 with
        | none => none
        | some (r, dev2, rest2) => some (r, dev2, entry2 :: rest2)

/-- The function `arch_setup_msi_irqs(dev, nvec, type)`. -/
def arch_setup_msi_irqs (fuel : Nat) (pcie_dev : msm_pcie_dev_t) (dev : pci_dev)
    (nvec : Nat) (type : Nat) : Option (Int × msm_pcie_dev_t × pci_dev) :=
  if type ≠ PCI_CAP_ID_MSI ∨ nvec > 32 then some (-ENOSPC, pcie_dev, dev)
  else
    match arch_setup_msi_irqs_entries fuel nvec dev.msi_list pcie_dev with
    | none => none
    | some (some ret, dev1, l) => some (ret, dev1, { msi_list := l })
    | some (none, dev1, l) => some (0, { dev1 with use_msi := true }, { msi_list := l })

/-- The `for (i = 0; i < nvec; i++)` loop of `arch_teardown_msi_irqs`, with `n`
iterations left. -/
def arch_teardown_msi_irqs_loop (irq : Nat) :
    Nat → Nat → msm_pcie_dev_t → Option msm_pcie_dev_t
  | 0, _, dev => some dev
  | n + 1, i, dev =>
    match msm_pcie_destroy_irq (irq + i) dev with
    | none => none
    | some dev1 => arch_teardown_msi_irqs_loop irq n (i + 1) dev1

/-- The `list_for_each_entry` loop of `arch_teardown_msi_irqs`. -/
def arch_teardown_msi_irqs_entries : List msi_desc → msm_pcie_dev_t → Option msm_pcie_dev_t
  | [], dev => some dev
  | entry :: rest, dev =>
    if entry.irq = 0 then arch_teardown_msi_irqs_entries rest dev
    else
      match arch_teardown_msi_irqs_loop entry.irq (1 <<< entry.multiple) 0 dev with
      | none => none
      | some dev1 => arch_teardown_msi_irqs_entries rest dev1

/-- The function `arch_teardown_msi_irqs`. -/
def arch_teardown_msi_irqs (pcie_dev : msm_pcie_dev_t) (dev : pci_dev) :
    Option msm_pcie_dev_t :=
  arch_teardown_msi_irqs_entries dev.msi_list { pcie_dev with use_msi := false }

/-! ## Sequences of allocations and frees -/

/-- Allocation under the policy of the device, as `arch_setup_msi_irq` selects
it: `msm_pcie_create_irq_qgic` when a GICM address is configured and
`msm_pcie_create_irq` otherwise. -/
def msm_pcie_alloc (fuel : Nat) (dev : msm_pcie_dev_t) : Option (Int × msm_pcie_dev_t) :=
  if dev.msi_gicm_addr ≠ 0 then msm_pcie_create_irq_qgic fuel dev
  else msm_pcie_create_irq fuel dev

/-- The interrupt that an allocation returns for slot `p`: `msi_gicm_base + p`
under the direct GICM policy, the domain mapping of `p` otherwise. -/
def slot_irq (dev : msm_pcie_dev_t) (p : Nat) : Nat :=
  if dev.msi_gicm_addr ≠ 0 then dev.msi_gicm_base + p else irq_create_mapping dev p

/-- The interrupt domain numbers the slots consecutively from the interrupt of
slot 0.  The driver relies on this when it turns an interrupt back into a slot
by subtracting `irq_find_mapping(dev->irq_domain, 0)`. -/
def domain_linear (dev : msm_pcie_dev_t) : Prop :=
  ∀ p, p < PCIE_MSI_NR_IRQS → irq_find_mapping dev p = irq_find_mapping dev 0 + p

/-- An operation on the allocator: an allocation, or a free of an interrupt. -/
inductive msi_op where
  | alloc
  | free (irq : Nat)
  deriving DecidableEq

/-- The allocator during a run: the device, the interrupts returned by an
allocation and not freed since (`live`), and all interrupts ever returned. -/
structure msi_state where
  dev : msm_pcie_dev_t
  live : List Nat
  returned : List Nat

/-- One operation.  A failed allocation returns no interrupt.  A free is an
operation of the run only for an interrupt that an allocation returned before;
otherwise, and when the code itself gives no result, the step is `none`. -/
def msi_step (fuel : Nat) (s : msi_state) : msi_op → Option msi_state
  | msi_op.alloc =>
    match msm_pcie_alloc fuel s.dev with
    | none => none
    | some (ret, dev1) =>
      if ret < 0 then some { s with dev := dev1 }
      else some { dev := dev1, live := ret.toNat :: s.live, returned := ret.toNat :: s.returned }
  | msi_op.free irq =>
    if irq ∈ s.returned then
      match msm_pcie_destroy_irq irq s.dev with
      | none => none
      | some dev1 => some { s with dev := dev1, live := s.live.filter (fun x => x ≠ irq) }
    else none

/-- A sequence of operations, from left to right. -/
def msi_run (fuel : Nat) : List msi_op → msi_state → Option msi_state
  | [], s => some s
  | op :: ops, s =>
    match msi_step fuel s op with
    | none => none
    | some s1 => msi_run fuel ops s1

/-- What holds of the allocator throughout a run that starts at the device
`dev0`: the configuration of the device is that of `dev0`, every interrupt
ever returned is the interrupt of a slot, and every live interrupt is the
interrupt of a slot whose bit is set. -/
structure msi_inv (dev0 : msm_pcie_dev_t) (s : msi_state) : Prop where
  gicm_addr : s.dev.msi_gicm_addr = dev0.msi_gicm_addr
  gicm_base : s.dev.msi_gicm_base = dev0.msi_gicm_base
  domain : s.dev.irq_domain = dev0.irq_domain
  returned_slot : ∀ irq, irq ∈ s.returned → ∃ q, q < PCIE_MSI_NR_IRQS ∧ irq = slot_irq dev0 q
  live_set : ∀ irq, irq ∈ s.live →
    ∃ q, q < PCIE_MSI_NR_IRQS ∧ irq = slot_irq dev0 q ∧ s.dev.msi_irq_in_use q = true

/-! ## MSI status scanner -/

/-- Access to the MSI status registers `PCIE20_MSI_CTRL_INTR_STATUS + i * 12`,
addressed by the bank `i`, over a hardware state `H`: what a read returns (and
the state after it), and the state after a write. -/
structure msi_regs (H : Type) where
  readl_relaxed : H → Nat → Nat × H
  writel_relaxed : Nat → H → Nat → H

/-- What `handle_msi_irq` does to the outside, in order. -/
inductive msi_event where
  | readl (bank : Nat) (val : Nat)
  | writel (val : Nat) (bank : Nat)
  | generic_handle_irq (irq : Nat)
  deriving DecidableEq

/-- The macro `BIT(nr)`. -/
def BIT (nr : Nat) : Nat := 1 <<< nr

/-- The `while (val)` loop of `handle_msi_irq` for bank `i`; the fuel bounds the
number of times the loop condition is evaluated.  A value read is a `u32`. -/
def handle_msi_irq_while {H : Type} (io : msi_regs H) (dev : msm_pcie_dev_t) (i : Nat) :
    Nat → Nat → H → Option (H × List msi_event)
  | 0, _, _ => none
  | fuel + 1, val, hw =>
    if val = 0 then some (hw, [])
    else
      let j := find_first_bit val 32
      let hw1 := io.writel_relaxed (BIT j) hw i
      let r := io.readl_relaxed hw1 i
      match handle_msi_irq_while io dev i fuel (r.1 % 4294967296) r.2 with
      | none => none
      | some (hw2, evs) =>
        some (hw2,
          msi_event.writel (BIT j) i ::
          msi_event.generic_handle_irq (irq_find_mapping dev (j + 32 * i)) ::
          msi_event.readl i (r.1 % 4294967296) :: evs)

/-- The `for (i = 0; i < PCIE20_MSI_CTRL_MAX; i++)` loop of `handle_msi_irq`, with
`n` banks left. -/
def handle_msi_irq_for {H : Type} (io : msi_regs H) (dev : msm_pcie_dev_t) (fuel : Nat) :
    Nat → Nat → H → Option (H × List msi_event)
  | 0, _, hw => some (hw, [])
  | n + 1, i, hw =>
    let r := io.readl_relaxed hw i
    match handle_msi_irq_while io dev i fuel (r.1 % 4294967296) r.2 with
    | none => none
    | some (hw1, evs) =>
      match handle_msi_irq_for io dev fuel n (i + 1) hw1 with
      | none => none
      | some (hw2, evs2) => some (hw2, msi_event.readl i (r.1 % 4294967296) :: evs ++ evs2)

/-- The function `handle_msi_irq`: the hardware state and the events, in
order. -/
def handle_msi_irq {H : Type} (io : msi_regs H) (dev : msm_pcie_dev_t) (fuel : Nat) (hw : H) :
    Option (H × List msi_event) :=
  handle_msi_irq_for io dev fuel PCIE20_MSI_CTRL_MAX 0 hw

/-- Status registers that are write-1-to-clear, with no interrupt arriving: the
state is the word of each bank, a read returns it, and a write clears the bits
that are set in the value written. -/
def w1c_regs : msi_regs (Nat → Nat) where
  readl_relaxed := fun hw i => (hw i, hw)
  writel_relaxed := fun val hw i => Function.update hw i (hw i ^^^ (hw i &&& val))

/-- The interrupts dispatched, in order. -/
def dispatched : List msi_event → List Nat
  | [] => []
  | msi_event.generic_handle_irq irq :: evs => irq :: dispatched evs
  | _ :: evs => dispatched evs

/-- The bits set in a 32 bit status word, in ascending order. -/
def set_bits (word : Nat) : List Nat :=
  (List.range 32).filter fun j => word.testBit j

/-- The slots whose status bit is set, in ascending bank order and ascending
bit order within a bank. -/
def pending_slots (hw : Nat → Nat) : List Nat :=
  (List.range PCIE20_MSI_CTRL_MAX).flatMap fun i =>
    (set_bits (hw i)).map fun j => j + 32 * i

/-- Status words with bits 3, 9 and 31 of bank 0 set and nothing else. -/
def hw_3_9_31 : Nat → Nat := fun i => if i = 0 then 2 ^ 3 + 2 ^ 9 + 2 ^ 31 else 0

/-! ## Link-down interrupt -/

/-- Modelled from the spec: the event kinds of a subscription, LinkDown, LinkUp
and Wakeup.  The header that gives them their bit values is not among the
sources; a mask of events is the list of its bits. -/
inductive msm_pcie_event where
  | MSM_PCIE_EVENT_LINKDOWN
  | MSM_PCIE_EVENT_LINKUP
  | MSM_PCIE_EVENT_WAKEUP
  deriving DecidableEq

/-- Modelled from the spec: the option bit of a subscription, "client owns
recovery".  A mask of options is the list of its bits. -/
inductive msm_pcie_config where
  | MSM_PCIE_CONFIG_NO_RECOVERY
  deriving DecidableEq

/-- The power flags named in `pcie_irq.c`; a mask of flags is the list of its
bits, in the order in which the source writes them. -/
inductive pm_flag where
  | PM_EXPT
  | PM_PIPE_CLK
  | PM_CLK
  | PM_VREG
  deriving DecidableEq

/-- The error messages of `PCIE_ERR` in the functions embedded here. -/
inductive pcie_err_msg where
  | link_is_down
  | no_registration
  | failed_to_enumerate
  | linkdown_not_finished
  | link_actually_down
  | failed_to_enable_link (retries : Nat)
  | no_wake_callback
  | handling_linkdown_negative (value : Int)
  deriving DecidableEq

/-- Calls into the rest of the kernel made by the link handlers. -/
inductive ext_call where
  | PCIE_ERR (msg : pcie_err_msg)
  | gpio_set_value (num : Nat) (value : Nat)
  | schedule_handle_linkdown_work
  | schedule_handle_wake_work
  | callback (event : msm_pcie_event) (user : Nat)
  | msm_pcie_enable (options : List pm_flag)
  | msm_pcie_disable (options : List pm_flag)
  | msm_pcie_cfg_recover (rc : Bool)
  | msm_pcie_confirm_linkup (check_sw_stts : Bool) (check_ep : Bool)
  | msm_pcie_enumerate
  | mutex_lock_recovery_lock
  | mutex_unlock_recovery_lock
  | usleep_range (min : Nat) (max : Nat)
  deriving DecidableEq

/-- The function `handle_linkdown_irq`: the device afterwards and the calls
made, in order. -/
def handle_linkdown_irq (dev : msm_pcie_dev_t) : msm_pcie_dev_t × List ext_call :=
  let dev1 := { dev with linkdown_counter := dev.linkdown_counter + 1 }
  let dev2 := { dev1 with handling_linkdown := dev1.handling_linkdown + 1 }
  if !dev2.enumerated || dev2.link_status ≠ MSM_PCIE_LINK_ENABLED then (dev2, [])
  else if dev2.suspending then (dev2, [])
  else
    let dev3 := { dev2 with link_status := MSM_PCIE_LINK_DISABLED }
    let dev4 := { dev3 with shadow_en := false }
    (dev4,
      [ext_call.gpio_set_value dev4.gpio_perst_num dev4.gpio_perst_on,
       ext_call.PCIE_ERR pcie_err_msg.link_is_down,
       ext_call.schedule_handle_linkdown_work])

/-- The initial state at controller bring-up: link disabled, all flags clear,
counters zero, not enumerated, nothing allocated. -/
def dev_init : msm_pcie_dev_t :=
  { msi_gicm_addr := 0
    msi_gicm_base := 0
    irq_domain := fun p => 500 + p
    msi_irq_in_use := fun _ => false
    use_msi := false
    link_status := MSM_PCIE_LINK_DISABLED
    enumerated := false
    suspending := false
    user_suspend := false
    recovery_pending := false
    shadow_en := false
    handling_linkdown := 0
    linkdown_counter := 0
    wake_counter := 0
    gpio_perst_num := 7
    gpio_perst_on := 0 }

/-! ## Link recovery, notification and the deferred handlers -/

open msm_pcie_event msm_pcie_config pm_flag

/-- The constant `LINKDOWN_INIT_WAITING_US_MIN`. -/
def LINKDOWN_INIT_WAITING_US_MIN : Nat := 995

/-- The constant `LINKDOWN_INIT_WAITING_US_MAX`. -/
def LINKDOWN_INIT_WAITING_US_MAX : Nat := 1005

/-- The constant `LINKDOWN_WAITING_US_MIN`. -/
def LINKDOWN_WAITING_US_MIN : Nat := 4900

/-- The constant `LINKDOWN_WAITING_US_MAX`. -/
def LINKDOWN_WAITING_US_MAX : Nat := 5100

/-- The constant `LINKDOWN_WAITING_COUNT`. -/
def LINKDOWN_WAITING_COUNT : Nat := 200

/-- The notification of `struct msm_pcie_notify` handed to a callback. -/
structure msm_pcie_notify where
  event : msm_pcie_event
  user : Nat
  deriving DecidableEq

/-- The registration `struct msm_pcie_register_event` of a client: the events
it wants, its token, its callback (`none` for a NULL pointer) and its options.
A callback acts on the device. -/
structure msm_pcie_register_event where
  events : List msm_pcie_event
  user : Nat
  callback : Option (msm_pcie_notify → msm_pcie_dev_t → msm_pcie_dev_t)
  options : List msm_pcie_config

/-- What surrounds the link handlers: the primitives of `pcie.c` they call, the
registration `dev->event_reg` (`none` for a NULL pointer), and what the other
contexts do to the device while `handle_wake_func` sleeps (`usleep_range k` is
the `k`-th sleep of the wait, the initial short sleep being number 0).  The
primitive `msm_pcie_cfg_recover` writes the shadow back to the hardware and
touches no field of the model; `msm_pcie_confirm_linkup` reads the link state
and returns its answer. -/
structure pcie_env where
  msm_pcie_enable : List pm_flag → msm_pcie_dev_t → Int × msm_pcie_dev_t
  msm_pcie_disable : List pm_flag → msm_pcie_dev_t → msm_pcie_dev_t
  msm_pcie_confirm_linkup : msm_pcie_dev_t → Bool → Bool → Bool
  msm_pcie_enumerate : msm_pcie_dev_t → Int × msm_pcie_dev_t
  event_reg : Option msm_pcie_register_event
  usleep_range : Nat → msm_pcie_dev_t → msm_pcie_dev_t

/-- The test `dev->event_reg && dev->event_reg->callback &&
(dev->event_reg->events & event)`: the registration and its callback when the
test holds. -/
def event_callback (env : pcie_env) (event : msm_pcie_event) :
    Option (msm_pcie_register_event × (msm_pcie_notify → msm_pcie_dev_t → msm_pcie_dev_t)) :=
  match env.event_reg with
  | none => none
  | some reg =>
    match reg.callback with
    | none => none
    | some cb => if event ∈ reg.events then some (reg, cb) else none

/-- The function `msm_pcie_recover_link`: the value returned, the device
afterwards and the calls made, in order. -/
def msm_pcie_recover_link (env : pcie_env) (dev : msm_pcie_dev_t) :
    Int × msm_pcie_dev_t × List ext_call :=
  let r := env.msm_pcie_enable [PM_PIPE_CLK, PM_CLK, PM_VREG] dev
  let ret := r.1
  if ret = 0 then
    let dev1 := { r.2 with shadow_en := true }
    if dev1.link_status = MSM_PCIE_LINK_ENABLED then
      match event_callback env MSM_PCIE_EVENT_LINKUP with
      | some (reg, cb) =>
        (ret, cb { event := MSM_PCIE_EVENT_LINKUP, user := reg.user } dev1,
          [ext_call.msm_pcie_enable [PM_PIPE_CLK, PM_CLK, PM_VREG],
           ext_call.msm_pcie_cfg_recover true, ext_call.msm_pcie_cfg_recover false,
           ext_call.callback MSM_PCIE_EVENT_LINKUP reg.user])
      | none =>
        (ret, dev1,
          [ext_call.msm_pcie_enable [PM_PIPE_CLK, PM_CLK, PM_VREG],
           ext_call.msm_pcie_cfg_recover true, ext_call.msm_pcie_cfg_recover false])
    else
      (ret, dev1,
        [ext_call.msm_pcie_enable [PM_PIPE_CLK, PM_CLK, PM_VREG],
         ext_call.msm_pcie_cfg_recover true, ext_call.msm_pcie_cfg_recover false])
  else (ret, r.2, [ext_call.msm_pcie_enable [PM_PIPE_CLK, PM_CLK, PM_VREG]])

/-- The function `msm_pcie_notify_linkdown`: the device afterwards and the
calls made, in order. -/
def msm_pcie_notify_linkdown (env : pcie_env) (dev : msm_pcie_dev_t) :
    msm_pcie_dev_t × List ext_call :=
  match event_callback env MSM_PCIE_EVENT_LINKDOWN with
  | some (reg, cb) =>
    let dev1 := cb { event := MSM_PCIE_EVENT_LINKDOWN, user := reg.user } dev
    if MSM_PCIE_CONFIG_NO_RECOVERY ∈ reg.options then
      ({ dev1 with user_suspend := true },
        [ext_call.callback MSM_PCIE_EVENT_LINKDOWN reg.user])
    else if dev1.link_status = MSM_PCIE_LINK_DISABLED then
      let dev2 := { dev1 with recovery_pending := true }
      (env.msm_pcie_disable [PM_EXPT, PM_PIPE_CLK, PM_CLK, PM_VREG] dev2,
        [ext_call.callback MSM_PCIE_EVENT_LINKDOWN reg.user,
         ext_call.msm_pcie_disable [PM_EXPT, PM_PIPE_CLK, PM_CLK, PM_VREG]])
    else
      let dev2 := { dev1 with recovery_pending := false }
      let dev3 := { dev2 with shadow_en := true }
      if dev3.link_status = MSM_PCIE_LINK_ENABLED then
        match event_callback env MSM_PCIE_EVENT_LINKUP with
        | some (reg1, cb1) =>
          (cb1 { event := MSM_PCIE_EVENT_LINKUP, user := reg1.user } dev3,
            [ext_call.callback MSM_PCIE_EVENT_LINKDOWN reg.user,
             ext_call.msm_pcie_cfg_recover true, ext_call.msm_pcie_cfg_recover false,
             ext_call.callback MSM_PCIE_EVENT_LINKUP reg1.user])
        | none =>
          (dev3,
            [ext_call.callback MSM_PCIE_EVENT_LINKDOWN reg.user,
             ext_call.msm_pcie_cfg_recover true, ext_call.msm_pcie_cfg_recover false])
      else
        (dev3,
          [ext_call.callback MSM_PCIE_EVENT_LINKDOWN reg.user,
           ext_call.msm_pcie_cfg_recover true, ext_call.msm_pcie_cfg_recover false])
  | none => (dev, [ext_call.PCIE_ERR pcie_err_msg.no_registration])

/-- The function `handle_linkdown_func`: the device afterwards and the calls
made, in order. -/
def handle_linkdown_func (env : pcie_env) (dev : msm_pcie_dev_t) :
    msm_pcie_dev_t × List ext_call :=
  let r : msm_pcie_dev_t × List ext_call :=
    if env.msm_pcie_confirm_linkup dev true true then (dev, [])
    else msm_pcie_notify_linkdown env dev
  let dev1 := { r.1 with handling_linkdown := r.1.handling_linkdown - 1 }
  (dev1,
    [ext_call.mutex_lock_recovery_lock, ext_call.msm_pcie_confirm_linkup true true] ++ r.2 ++
    (if dev1.handling_linkdown < 0 then
      [ext_call.PCIE_ERR (pcie_err_msg.handling_linkdown_negative dev1.handling_linkdown)]
     else []) ++
    [ext_call.mutex_unlock_recovery_lock])

/-- The `while` loop of the wait in `handle_wake_func`, entered with the value
of `waiting_cycle`: the value of `waiting_cycle` after the loop, the device and
the sleeps made.  The increment `waiting_cycle++` is evaluated only when
`handling_linkdown > 0` holds. -/
def handle_wake_func_wait (env : pcie_env) (waiting_cycle : Nat) (dev : msm_pcie_dev_t) :
    Nat × msm_pcie_dev_t × List ext_call :=
  if dev.handling_linkdown > 0 then
    if h : waiting_cycle < LINKDOWN_WAITING_COUNT then
      let r := handle_wake_func_wait env (waiting_cycle + 1)
        (env.usleep_range (waiting_cycle + 1) dev)
      (r.1, r.2.1,
        ext_call.usleep_range LINKDOWN_WAITING_US_MIN LINKDOWN_WAITING_US_MAX :: r.2.2)
    else (waiting_cycle + 1, dev, [])
  else (waiting_cycle, dev, [])
termination_by LINKDOWN_WAITING_COUNT - waiting_cycle
decreasing_by omega

/-- The wait of `handle_wake_func` on an enumerated controller, up to the
report of the time-out: the device when the wait is over and the calls made. -/
def handle_wake_func_drain (env : pcie_env) (dev : msm_pcie_dev_t) :
    msm_pcie_dev_t × List ext_call :=
  let w := handle_wake_func_wait env 0 (env.usleep_range 0 dev)
  (w.2.1,
    ext_call.usleep_range LINKDOWN_INIT_WAITING_US_MIN LINKDOWN_INIT_WAITING_US_MAX :: w.2.2 ++
    (if w.1 = LINKDOWN_WAITING_COUNT then
      [ext_call.PCIE_ERR pcie_err_msg.linkdown_not_finished]
     else []))

/-- The part of `handle_wake_func` on an enumerated controller that runs with
the recovery lock held, from after `mutex_lock` to before the `mutex_unlock` at
`out`: the device, the static counter `retries` and the calls made. -/
def handle_wake_func_locked (env : pcie_env) (dev : msm_pcie_dev_t) (retries : Nat) :
    msm_pcie_dev_t × Nat × List ext_call :=
  if dev.link_status = MSM_PCIE_LINK_ENABLED then
    if env.msm_pcie_confirm_linkup dev false true then
      (dev, retries, [ext_call.msm_pcie_confirm_linkup false true])
    else
      let dev1 := { dev with link_status := MSM_PCIE_LINK_DISABLED }
      let dev2 := { dev1 with shadow_en := false }
      let r := msm_pcie_notify_linkdown env dev2
      (r.1, retries,
        [ext_call.msm_pcie_confirm_linkup false true,
         ext_call.gpio_set_value dev2.gpio_perst_num dev2.gpio_perst_on,
         ext_call.PCIE_ERR pcie_err_msg.link_actually_down] ++ r.2)
  else if dev.recovery_pending then
    let r := msm_pcie_recover_link env dev
    if r.1 ≠ 0 then
      (r.2.1, retries + 1,
        r.2.2 ++ [ext_call.PCIE_ERR (pcie_err_msg.failed_to_enable_link retries)])
    else ({ r.2.1 with recovery_pending := false }, 1, r.2.2)
  else if dev.user_suspend then
    match event_callback env MSM_PCIE_EVENT_WAKEUP with
    | some (reg, cb) =>
      (cb { event := MSM_PCIE_EVENT_WAKEUP, user := reg.user } dev, retries,
        [ext_call.callback MSM_PCIE_EVENT_WAKEUP reg.user])
    | none => (dev, retries, [ext_call.PCIE_ERR pcie_err_msg.no_wake_callback])
  else (dev, retries, [])

/-- The function `handle_wake_func`, with the value of its static counter
`retries` before the call: the device afterwards, the value of `retries`
afterwards and the calls made, in order. -/
def handle_wake_func (env : pcie_env) (dev : msm_pcie_dev_t) (retries : Nat) :
    msm_pcie_dev_t × Nat × List ext_call :=
  if !dev.enumerated then
    let r := env.msm_pcie_enumerate dev
    if r.1 ≠ 0 then
      (r.2, retries,
        [ext_call.mutex_lock_recovery_lock, ext_call.msm_pcie_enumerate,
         ext_call.mutex_unlock_recovery_lock,
         ext_call.PCIE_ERR pcie_err_msg.failed_to_enumerate])
    else if r.2.link_status = MSM_PCIE_LINK_ENABLED then
      match event_callback env MSM_PCIE_EVENT_LINKUP with
      | some (reg, cb) =>
        (cb { event := MSM_PCIE_EVENT_LINKUP, user := reg.user } r.2, retries,
          [ext_call.mutex_lock_recovery_lock, ext_call.msm_pcie_enumerate,
           ext_call.mutex_unlock_recovery_lock,
           ext_call.callback MSM_PCIE_EVENT_LINKUP reg.user])
      | none =>
        (r.2, retries,
          [ext_call.mutex_lock_recovery_lock, ext_call.msm_pcie_enumerate,
           ext_call.mutex_unlock_recovery_lock])
    else
      (r.2, retries,
        [ext_call.mutex_lock_recovery_lock, ext_call.msm_pcie_enumerate,
         ext_call.mutex_unlock_recovery_lock])
  else
    let w := handle_wake_func_drain env dev
    let r := handle_wake_func_locked env w.1 retries
    (r.1, r.2.1,
      w.2 ++ [ext_call.mutex_lock_recovery_lock] ++ r.2.2 ++
      [ext_call.mutex_unlock_recovery_lock])

/-- Whether a call is a call of the enable primitive. -/
def is_msm_pcie_enable : ext_call → Bool
  | ext_call.msm_pcie_enable _ => true
  | _ => false

/-- Whether a call is a call of the power-down primitive. -/
def is_msm_pcie_disable : ext_call → Bool
  | ext_call.msm_pcie_disable _ => true
  | _ => false

/-- Whether a call is a callback of the client. -/
def is_callback : ext_call → Bool
  | ext_call.callback _ _ => true
  | _ => false

/-! ## The link-down interrupt and its deferred work as a system -/

/-- The device together with the number of runs of the deferred link-down work
that are scheduled and have not run yet. -/
structure linkdown_sys where
  dev : msm_pcie_dev_t
  pending : Nat

/-- A step of the system: a link-down interrupt, a run of the deferred work, or
any other activity `f` on the device that does not write the counter
`handling_linkdown` (enumeration, a resume by the client, a wake). -/
inductive linkdown_step where
  | irq
  | work
  | other (f : msm_pcie_dev_t → msm_pcie_dev_t)

/-- One step.  An interrupt runs `handle_linkdown_irq` and adds the work it
schedules; the work runs `handle_linkdown_func`, only when a run is pending,
and takes one pending run away; another activity is a step only when it leaves
the counter alone. -/
def linkdown_sys_step (env : pcie_env) (s : linkdown_sys) : linkdown_step → Option linkdown_sys
  | linkdown_step.irq =>
    some { dev := (handle_linkdown_irq s.dev).1
           pending := s.pending +
             (handle_linkdown_irq s.dev).2.count ext_call.schedule_handle_linkdown_work }
  | linkdown_step.work =>
    if s.pending = 0 then none
    else some { dev := (handle_linkdown_func env s.dev).1, pending := s.pending - 1 }
  | linkdown_step.other f =>
    if (f s.dev).handling_linkdown = s.dev.handling_linkdown then some { s with dev := f s.dev }
    else none

/-- A sequence of steps, from left to right. -/
def linkdown_sys_run (env : pcie_env) : List linkdown_step → linkdown_sys → Option linkdown_sys
  | [], s => some s
  | step :: steps, s =>
    match linkdown_sys_step env s step with
    | none => none
    | some s1 => linkdown_sys_run env steps s1

/-- The power-down primitive and the callback of the client do not write the
counter `handling_linkdown`, which belongs to the interrupt handler and its
deferred work. -/
def env_keeps_handling_linkdown (env : pcie_env) : Prop :=
  (∀ flags d, (env.msm_pcie_disable flags d).handling_linkdown = d.handling_linkdown) ∧
  (∀ reg cb, env.event_reg = some reg → reg.callback = some cb →
    ∀ n d, (cb n d).handling_linkdown = d.handling_linkdown)

/-! ## The events of the MSI status scanner, also when it has not ended -/

/-- The `while (val)` loop of `handle_msi_irq` for bank `i` as
`handle_msi_irq_while`, keeping the events emitted when the fuel runs out: the
hardware state when the loop has ended (`none` when it has not) and the events
so far. -/
def handle_msi_irq_while_trace {H : Type} (io : msi_regs H) (dev : msm_pcie_dev_t) (i : Nat) :
    Nat → Nat → H → Option H × List msi_event
  | 0, _, _ => (none, [])
  | fuel + 1, val, hw =>
    if val = 0 then (some hw, [])
    else
      let j := find_first_bit val 32
      let hw1 := io.writel_relaxed (BIT j) hw i
      let r := io.readl_relaxed hw1 i
      let t := handle_msi_irq_while_trace io dev i fuel (r.1 % 4294967296) r.2
      (t.1,
        msi_event.writel (BIT j) i ::
        msi_event.generic_handle_irq (irq_find_mapping dev (j + 32 * i)) ::
        msi_event.readl i (r.1 % 4294967296) :: t.2)

/-- The `for` loop of `handle_msi_irq` as `handle_msi_irq_for`, keeping the
events emitted when the fuel runs out in some bank. -/
def handle_msi_irq_for_trace {H : Type} (io : msi_regs H) (dev : msm_pcie_dev_t) (fuel : Nat) :
    Nat → Nat → H → Option H × List msi_event
  | 0, _, hw => (some hw, [])
  | n + 1, i, hw =>
    let r := io.readl_relaxed hw i
    let t := handle_msi_irq_while_trace io dev i fuel (r.1 % 4294967296) r.2
    match t.1 with
    | none => (none, msi_event.readl i (r.1 % 4294967296) :: t.2)
    | some hw1 =>
      let t2 := handle_msi_irq_for_trace io dev fuel n (i + 1) hw1
      (t2.1, msi_event.readl i (r.1 % 4294967296) :: t.2 ++ t2.2)

/-- The events of `handle_msi_irq` within the fuel, whether or not the scan has
ended. -/
def handle_msi_irq_trace {H : Type} (io : msi_regs H) (dev : msm_pcie_dev_t) (fuel : Nat)
    (hw : H) : Option H × List msi_event :=
  handle_msi_irq_for_trace io dev fuel PCIE20_MSI_CTRL_MAX 0 hw

/-- Where the scanner stands between two events: about to read a bank for the
first time, having read a non-zero word from a bank, having written a bit back
to a bank, or having dispatched an interrupt of a bank. -/
inductive scan_state where
  | start (bank : Nat)
  | read (bank : Nat) (val : Nat)
  | acked (bank : Nat) (bit : Nat)
  | dispatched (bank : Nat)
  deriving DecidableEq

/-- The state after a read of `val` from bank `i`: the next bank when the word
is zero. -/
def scan_after_read (i val : Nat) : scan_state :=
  if val = 0 then scan_state.start (i + 1) else scan_state.read i val

/-- The events the discipline of the scanner allows in a state, and the state
each leads to: a read of the bank at hand; after a non-zero word, the write of
its lowest set bit to the same bank; after the write, the dispatch of the
interrupt of that bit; after the dispatch, a read of the same bank. -/
def scan_next (dev : msm_pcie_dev_t) : scan_state → msi_event → Option scan_state
  | scan_state.start i, msi_event.readl b v =>
    if b = i ∧ i < PCIE20_MSI_CTRL_MAX ∧ v < 4294967296 then some (scan_after_read i v)
    else none
  | scan_state.dispatched i, msi_event.readl b v =>
    if b = i ∧ i < PCIE20_MSI_CTRL_MAX ∧ v < 4294967296 then some (scan_after_read i v)
    else none
  | scan_state.read i v, msi_event.writel val b =>
    if b = i ∧ val = BIT (find_first_bit v 32) then
      some (scan_state.acked i (find_first_bit v 32))
    else none
  | scan_state.acked i j, msi_event.generic_handle_irq irq =>
    if irq = irq_find_mapping dev (j + 32 * i) then some (scan_state.dispatched i) else none
  | _, _ => none

/-- The state after a list of events, `none` when an event is not allowed. -/
def scan_run (dev : msm_pcie_dev_t) : scan_state → List msi_event → Option scan_state
  | s, [] => some s
  | s, e :: evs =>
    match scan_next dev s e with
    | none => none
    | some s1 => scan_run dev s1 evs

/-! ## The recovery mutex as a flag -/

/-- Whether a call takes or releases the recovery mutex. -/
def is_mutex_call : ext_call → Bool
  | ext_call.mutex_lock_recovery_lock => true
  | ext_call.mutex_unlock_recovery_lock => true
  | _ => false

/-- One step of a handler, with the device as the step leaves it: a call, or
an assignment of the handler to a field of the device. -/
inductive lock_event where
  | call (c : ext_call) (dev : msm_pcie_dev_t)
  | assign (dev : msm_pcie_dev_t)

/-- The call made by a step, if it is a call. -/
def lock_event.called : lock_event → Option ext_call
  | lock_event.call c _ => some c
  | lock_event.assign _ => none

/-- The calls made by a sequence of steps, in order. -/
def steps_calls (evs : List lock_event) : List ext_call :=
  evs.filterMap lock_event.called

/-- The function `handle_linkdown_irq`, step by step. -/
def handle_linkdown_irq_steps (dev : msm_pcie_dev_t) : msm_pcie_dev_t × List lock_event :=
  let dev1 := { dev with linkdown_counter := dev.linkdown_counter + 1 }
  let dev2 := { dev1 with handling_linkdown := dev1.handling_linkdown + 1 }
  if !dev2.enumerated || dev2.link_status ≠ MSM_PCIE_LINK_ENABLED then
    (dev2, [lock_event.assign dev1, lock_event.assign dev2])
  else if dev2.suspending then (dev2, [lock_event.assign dev1, lock_event.assign dev2])
  else
    let dev3 := { dev2 with link_status := MSM_PCIE_LINK_DISABLED }
    let dev4 := { dev3 with shadow_en := false }
    (dev4,
      [lock_event.assign dev1, lock_event.assign dev2, lock_event.assign dev3,
       lock_event.assign dev4,
       lock_event.call (ext_call.gpio_set_value dev4.gpio_perst_num dev4.gpio_perst_on) dev4,
       lock_event.call (ext_call.PCIE_ERR pcie_err_msg.link_is_down) dev4,
       lock_event.call ext_call.schedule_handle_linkdown_work dev4])

/-- The function `msm_pcie_recover_link`, step by step. -/
def msm_pcie_recover_link_steps (env : pcie_env) (dev : msm_pcie_dev_t) :
    Int × msm_pcie_dev_t × List lock_event :=
  let r := env.msm_pcie_enable [PM_PIPE_CLK, PM_CLK, PM_VREG] dev
  let ret := r.1
  if ret = 0 then
    let dev1 := { r.2 with shadow_en := true }
    let evs :=
      [lock_event.call (ext_call.msm_pcie_enable [PM_PIPE_CLK, PM_CLK, PM_VREG]) r.2,
       lock_event.call (ext_call.msm_pcie_cfg_recover true) r.2,
       lock_event.call (ext_call.msm_pcie_cfg_recover false) r.2,
       lock_event.assign dev1]
    if dev1.link_status = MSM_PCIE_LINK_ENABLED then
      match event_callback env MSM_PCIE_EVENT_LINKUP with
      | some (reg, cb) =>
        let dev2 := cb { event := MSM_PCIE_EVENT_LINKUP, user := reg.user } dev1
        (ret, dev2, evs ++ [lock_event.call (ext_call.callback MSM_PCIE_EVENT_LINKUP reg.user) dev2])
      | none => (ret, dev1, evs)
    else (ret, dev1, evs)
  else
    (ret, r.2, [lock_event.call (ext_call.msm_pcie_enable [PM_PIPE_CLK, PM_CLK, PM_VREG]) r.2])

/-- The function `msm_pcie_notify_linkdown`, step by step. -/
def msm_pcie_notify_linkdown_steps (env : pcie_env) (dev : msm_pcie_dev_t) :
    msm_pcie_dev_t × List lock_event :=
  match event_callback env MSM_PCIE_EVENT_LINKDOWN with
  | some (reg, cb) =>
    let dev1 := cb { event := MSM_PCIE_EVENT_LINKDOWN, user := reg.user } dev
    let down := lock_event.call (ext_call.callback MSM_PCIE_EVENT_LINKDOWN reg.user) dev1
    if MSM_PCIE_CONFIG_NO_RECOVERY ∈ reg.options then
      let dev2 := { dev1 with user_suspend := true }
      (dev2, [down, lock_event.assign dev2])
    else if dev1.link_status = MSM_PCIE_LINK_DISABLED then
      let dev2 := { dev1 with recovery_pending := true }
      let dev3 := env.msm_pcie_disable [PM_EXPT, PM_PIPE_CLK, PM_CLK, PM_VREG] dev2
      (dev3,
        [down, lock_event.assign dev2,
         lock_event.call (ext_call.msm_pcie_disable [PM_EXPT, PM_PIPE_CLK, PM_CLK, PM_VREG]) dev3])
    else
      let dev2 := { dev1 with recovery_pending := false }
      let dev3 := { dev2 with shadow_en := true }
      let evs :=
        [down, lock_event.assign dev2,
         lock_event.call (ext_call.msm_pcie_cfg_recover true) dev2,
         lock_event.call (ext_call.msm_pcie_cfg_recover false) dev2,
         lock_event.assign dev3]
      if dev3.link_status = MSM_PCIE_LINK_ENABLED then
        match event_callback env MSM_PCIE_EVENT_LINKUP with
        | some (reg1, cb1) =>
          let dev4 := cb1 { event := MSM_PCIE_EVENT_LINKUP, user := reg1.user } dev3
          (dev4,
            evs ++ [lock_event.call (ext_call.callback MSM_PCIE_EVENT_LINKUP reg1.user) dev4])
        | none => (dev3, evs)
      else (dev3, evs)
  | none => (dev, [lock_event.call (ext_call.PCIE_ERR pcie_err_msg.no_registration) dev])

/-- The function `handle_linkdown_func`, step by step. -/
def handle_linkdown_func_steps (env : pcie_env) (dev : msm_pcie_dev_t) :
    msm_pcie_dev_t × List lock_event :=
  let r : msm_pcie_dev_t × List lock_event :=
    if env.msm_pcie_confirm_linkup dev true true then (dev, [])
    else msm_pcie_notify_linkdown_steps env dev
  let dev1 := { r.1 with handling_linkdown := r.1.handling_linkdown - 1 }
  (dev1,
    [lock_event.call ext_call.mutex_lock_recovery_lock dev,
     lock_event.call (ext_call.msm_pcie_confirm_linkup true true) dev] ++ r.2 ++
    [lock_event.assign dev1] ++
    (if dev1.handling_linkdown < 0 then
      [lock_event.call
        (ext_call.PCIE_ERR (pcie_err_msg.handling_linkdown_negative dev1.handling_linkdown)) dev1]
     else []) ++
    [lock_event.call ext_call.mutex_unlock_recovery_lock dev1])

/-- The `while` loop of the wait in `handle_wake_func`, step by step: a sleep
leaves the device as the other contexts changed it meanwhile. -/
def handle_wake_func_wait_steps (env : pcie_env) (waiting_cycle : Nat) (dev : msm_pcie_dev_t) :
    Nat × msm_pcie_dev_t × List lock_event :=
  if dev.handling_linkdown > 0 then
    if h : waiting_cycle < LINKDOWN_WAITING_COUNT then
      let dev1 := env.usleep_range (waiting_cycle + 1) dev
      let r := handle_wake_func_wait_steps env (waiting_cycle + 1) dev1
      (r.1, r.2.1,
        lock_event.call (ext_call.usleep_range LINKDOWN_WAITING_US_MIN LINKDOWN_WAITING_US_MAX)
          dev1 :: r.2.2)
    else (waiting_cycle + 1, dev, [])
  else (waiting_cycle, dev, [])
termination_by LINKDOWN_WAITING_COUNT - waiting_cycle
decreasing_by omega

/-- The wait of `handle_wake_func` on an enumerated controller, up to the
report of the time-out, step by step. -/
def handle_wake_func_drain_steps (env : pcie_env) (dev : msm_pcie_dev_t) :
    msm_pcie_dev_t × List lock_event :=
  let dev0 := env.usleep_range 0 dev
  let w := handle_wake_func_wait_steps env 0 dev0
  (w.2.1,
    lock_event.call
      (ext_call.usleep_range LINKDOWN_INIT_WAITING_US_MIN LINKDOWN_INIT_WAITING_US_MAX) dev0 ::
      w.2.2 ++
    (if w.1 = LINKDOWN_WAITING_COUNT then
      [lock_event.call (ext_call.PCIE_ERR pcie_err_msg.linkdown_not_finished) w.2.1]
     else []))

/-- The part of `handle_wake_func` on an enumerated controller between
`mutex_lock` and the `mutex_unlock` at `out`, step by step. -/
def handle_wake_func_locked_steps (env : pcie_env) (dev : msm_pcie_dev_t) (retries : Nat) :
    msm_pcie_dev_t × Nat × List lock_event :=
  if dev.link_status = MSM_PCIE_LINK_ENABLED then
    if env.msm_pcie_confirm_linkup dev false true then
      (dev, retries, [lock_event.call (ext_call.msm_pcie_confirm_linkup false true) dev])
    else
      let dev1 := { dev with link_status := MSM_PCIE_LINK_DISABLED }
      let dev2 := { dev1 with shadow_en := false }
      let r := msm_pcie_notify_linkdown_steps env dev2
      (r.1, retries,
        [lock_event.call (ext_call.msm_pcie_confirm_linkup false true) dev,
         lock_event.assign dev1, lock_event.assign dev2,
         lock_event.call (ext_call.gpio_set_value dev2.gpio_perst_num dev2.gpio_perst_on) dev2,
         lock_event.call (ext_call.PCIE_ERR pcie_err_msg.link_actually_down) dev2] ++ r.2)
  else if dev.recovery_pending then
    let r := msm_pcie_recover_link_steps env dev
    if r.1 ≠ 0 then
      (r.2.1, retries + 1,
        r.2.2 ++
        [lock_event.call (ext_call.PCIE_ERR (pcie_err_msg.failed_to_enable_link retries)) r.2.1])
    else
      let dev1 := { r.2.1 with recovery_pending := false }
      (dev1, 1, r.2.2 ++ [lock_event.assign dev1])
  else if dev.user_suspend then
    match event_callback env MSM_PCIE_EVENT_WAKEUP with
    | some (reg, cb) =>
      let dev1 := cb { event := MSM_PCIE_EVENT_WAKEUP, user := reg.user } dev
      (dev1, retries, [lock_event.call (ext_call.callback MSM_PCIE_EVENT_WAKEUP reg.user) dev1])
    | none =>
      (dev, retries, [lock_event.call (ext_call.PCIE_ERR pcie_err_msg.no_wake_callback) dev])
  else (dev, retries, [])

/-- The function `handle_wake_func`, step by step. -/
def handle_wake_func_steps (env : pcie_env) (dev : msm_pcie_dev_t) (retries : Nat) :
    msm_pcie_dev_t × Nat × List lock_event :=
  if !dev.enumerated then
    let r := env.msm_pcie_enumerate dev
    let evs :=
      [lock_event.call ext_call.mutex_lock_recovery_lock dev,
       lock_event.call ext_call.msm_pcie_enumerate r.2,
       lock_event.call ext_call.mutex_unlock_recovery_lock r.2]
    if r.1 ≠ 0 then
      (r.2, retries,
        evs ++ [lock_event.call (ext_call.PCIE_ERR pcie_err_msg.failed_to_enumerate) r.2])
    else if r.2.link_status = MSM_PCIE_LINK_ENABLED then
      match event_callback env MSM_PCIE_EVENT_LINKUP with
      | some (reg, cb) =>
        let dev1 := cb { event := MSM_PCIE_EVENT_LINKUP, user := reg.user } r.2
        (dev1, retries,
          evs ++ [lock_event.call (ext_call.callback MSM_PCIE_EVENT_LINKUP reg.user) dev1])
      | none => (r.2, retries, evs)
    else (r.2, retries, evs)
  else
    let w := handle_wake_func_drain_steps env dev
    let r := handle_wake_func_locked_steps env w.1 retries
    (r.1, r.2.1,
      w.2 ++ [lock_event.call ext_call.mutex_lock_recovery_lock w.1] ++ r.2.2 ++
      [lock_event.call ext_call.mutex_unlock_recovery_lock r.1])

/-- The device together with the recovery mutex as a flag, held or not. -/
structure lock_sys where
  dev : msm_pcie_dev_t
  held : Bool

/-- A step that is not a call on the mutex and not a sleep, under the rule
"`link_status` changes only while the mutex is held": `none` when the step
changes `link_status` while the mutex is not held. -/
def lock_sys_write (s : lock_sys) (d : msm_pcie_dev_t) : Option lock_sys :=
  if d.link_status = s.dev.link_status ∨ s.held = true then some { s with dev := d }
  else none

/-- One step of a handler on the device with the flag.  `mutex_lock` sets the
flag and `mutex_unlock` clears it; `none` when the mutex is taken while it is
held or released while it is not held.  What happens to the device during a
sleep is the work of other contexts and is not checked.  Every other step,
and the device at `mutex_lock`, is checked by `lock_sys_write`. -/
def lock_sys_step (s : lock_sys) : lock_event → Option lock_sys
  | lock_event.assign d => lock_sys_write s d
  | lock_event.call c d =>
    if c = ext_call.mutex_lock_recovery_lock then
      if s.held then none
      else
        match lock_sys_write s d with
        | none => none
        | some s1 => some { s1 with held := true }
    else if c = ext_call.mutex_unlock_recovery_lock then
      if s.held then some { dev := d, held := false } else none
    else
      match c with
      | ext_call.usleep_range _ _ => some { s with dev := d }
      | _ => lock_sys_write s d

/-- A sequence of steps, from left to right. -/
def lock_sys_run : lock_sys → List lock_event → Option lock_sys
  | s, [] => some s
  | s, e :: evs =>
    match lock_sys_step s e with
    | none => none
    | some s1 => lock_sys_run s1 evs

/-! ## Concrete devices used as examples -/

/-- A device under the direct GICM policy: interrupt base 100, slot 1 in use,
link disabled, nothing enumerated. -/
def dev_qgic : msm_pcie_dev_t :=
  { msi_gicm_addr := 1
    msi_gicm_base := 100
    irq_domain := fun p => 500 + p
    msi_irq_in_use := fun i => decide (i = 1)
    use_msi := false
    link_status := MSM_PCIE_LINK_DISABLED
    enumerated := false
    suspending := false
    user_suspend := false
    recovery_pending := false
    shadow_en := false
    handling_linkdown := 0
    linkdown_counter := 0
    wake_counter := 0
    gpio_perst_num := 7
    gpio_perst_on := 0 }

/-- The same device under the domain-mapped policy (no GICM address); slot `p`
is mapped to interrupt `500 + p`. -/
def dev_default : msm_pcie_dev_t := { dev_qgic with msi_gicm_addr := 0 }

/-- A fresh MSI descriptor: no interrupt recorded yet. -/
def desc0 : msi_desc :=
  { irq := 0, multiple := 0, msg := { address_lo := 0, address_hi := 0, data := 0 } }

/-- A PCI device with the single MSI descriptor `desc0`. -/
def pdev0 : pci_dev := { msi_list := [desc0] }

/-- The example device under the direct GICM policy with every slot but slot 0
in use. -/
def dev_one_free : msm_pcie_dev_t := { dev_qgic with msi_irq_in_use := fun i => decide (i ≠ 0) }

/-- A device under the domain-mapped policy, nothing allocated, on which the
creation of an interrupt mapping fails. -/
def dev_nomap : msm_pcie_dev_t := { dev_init with irq_domain := fun _ => 0 }

/-- A device whose link is enabled before the enumeration has been recorded. -/
def dev_enabled_early : msm_pcie_dev_t :=
  { dev_init with link_status := MSM_PCIE_LINK_ENABLED }

/-- An enumerated device with the link enabled and no suspend in progress. -/
def dev_enabled : msm_pcie_dev_t :=
  { dev_init with link_status := MSM_PCIE_LINK_ENABLED, enumerated := true, shadow_en := true }

/-- A client callback that brings the link up again when it is told that the
link is down, and does nothing on the other events. -/
def cb_resume : msm_pcie_notify → msm_pcie_dev_t → msm_pcie_dev_t := fun n d =>
  match n.event with
  | MSM_PCIE_EVENT_LINKDOWN => { d with link_status := MSM_PCIE_LINK_ENABLED }
  | _ => d

/-- A client callback that leaves the device alone. -/
def cb_idle : msm_pcie_notify → msm_pcie_dev_t → msm_pcie_dev_t := fun _ d => d

/-- A registration for all three events with token 42. -/
def reg_example (cb : msm_pcie_notify → msm_pcie_dev_t → msm_pcie_dev_t)
    (options : List msm_pcie_config) : msm_pcie_register_event :=
  { events := [MSM_PCIE_EVENT_LINKDOWN, MSM_PCIE_EVENT_LINKUP, MSM_PCIE_EVENT_WAKEUP]
    user := 42
    callback := some cb
    options := options }

/-- Surroundings for the examples: enabling the link returns `enable_ret` and
brings the link up when that is 0, disabling takes the link down, the probe
answers from `link_status`, and nothing happens during a sleep. -/
def env_example (reg : Option msm_pcie_register_event) (enable_ret : Int) : pcie_env :=
  { msm_pcie_enable := fun _ d =>
      if enable_ret = 0 then (0, { d with link_status := MSM_PCIE_LINK_ENABLED })
      else (enable_ret, d)
    msm_pcie_disable := fun _ d => { d with link_status := MSM_PCIE_LINK_DISABLED }
    msm_pcie_confirm_linkup := fun d _ _ => decide (d.link_status = MSM_PCIE_LINK_ENABLED)
    msm_pcie_enumerate := fun d =>
      (0, { d with enumerated := true, link_status := MSM_PCIE_LINK_ENABLED })
    event_reg := reg
    usleep_range := fun _ d => d }

/-- An enumerated device whose link is down. -/
def dev_down : msm_pcie_dev_t := { dev_init with enumerated := true }

/-- An enumerated device whose link is down and waits for recovery. -/
def dev_recovering : msm_pcie_dev_t := { dev_down with recovery_pending := true }

/-- An enumerated device whose link is down and which the client suspended. -/
def dev_user_suspended : msm_pcie_dev_t := { dev_down with user_suspend := true }

/-- An enumerated device with the link down and one link-down handling in
flight. -/
def dev_busy : msm_pcie_dev_t := { dev_down with handling_linkdown := 1 }

/-- Surroundings in which the link-down handling in flight ends during the
200th long sleep of the wait: that sleep sets `handling_linkdown` to 0, the
other sleeps change nothing. -/
def env_late : pcie_env :=
  { env_example none 0 with
    usleep_range := fun k d => if k = 200 then { d with handling_linkdown := 0 } else d }

/-- Status registers on which new bits arrive between reads: the state is the
list of the words that the coming reads of bank 0 return, whatever is written
back; the other banks read zero. -/
def scripted_regs : msi_regs (List Nat) where
  readl_relaxed := fun hw i => if i = 0 then (hw.headD 0, hw.tail) else (0, hw)
  writel_relaxed := fun _ hw _ => hw

/-- A client callback that takes the link down again when it is told that the
link is up, and does nothing on the other events. -/
def cb_suspend : msm_pcie_notify → msm_pcie_dev_t → msm_pcie_dev_t := fun n d =>
  match n.event with
  | MSM_PCIE_EVENT_LINKUP => { d with link_status := MSM_PCIE_LINK_DISABLED }
  | _ => d

/-- A device under the domain-mapped policy, nothing allocated, whose domain
does not number the slots consecutively: slot 0 has interrupt 500 and slot `p`
above it has interrupt `501 + p`. -/
def dev_gap : msm_pcie_dev_t :=
  { dev_init with irq_domain := fun p => if p = 0 then 500 else 501 + p }

/-- The device `dev_gap` with slots 0, 1 and 2 allocated. -/
def dev_gap_three : msm_pcie_dev_t :=
  { dev_gap with msi_irq_in_use := fun i => decide (i < 3) }

/-! ## Lemmas on the bit scan -/

theorem find_first_from_ge (p : Nat → Bool) (n i : Nat) : i ≤ find_first_from p n i := by
  induction n generalizing i with
  | zero => simp [find_first_from]
  | succ n ih =>
    simp only [find_first_from]
    split
    · exact le_rfl
    · exact le_trans (Nat.le_succ i) (ih (i + 1))

theorem find_first_from_le (p : Nat → Bool) (n i : Nat) : find_first_from p n i ≤ i + n := by
  induction n generalizing i with
  | zero => simp [find_first_from]
  | succ n ih =>
    simp only [find_first_from]
    split
    · omega
    · have := ih (i + 1); omega

theorem find_first_from_below (p : Nat → Bool) (n i j : Nat) (hij : i ≤ j)
    (hj : j < find_first_from p n i) : p j = false := by
  induction n generalizing i with
  | zero => simp [find_first_from] at hj; omega
  | succ n ih =>
    simp only [find_first_from] at hj
    split at hj
    · omega
    · rename_i hp
      rcases Nat.eq_or_lt_of_le hij with h | h
      · subst h; simpa using hp
      · exact ih (i + 1) h hj

theorem find_first_from_hit (p : Nat → Bool) (n i : Nat)
    (h : find_first_from p n i < i + n) : p (find_first_from p n i) = true := by
  induction n generalizing i with
  | zero => simp [find_first_from] at h
  | succ n ih =>
    simp only [find_first_from] at h ⊢
    split
    · assumption
    · rename_i hp
      rw [if_neg hp] at h
      exact ih (i + 1) (by omega)

theorem find_first_from_lt_of_exists (p : Nat → Bool) (n i j : Nat) (hij : i ≤ j)
    (hjn : j < i + n) (hp : p j = true) : find_first_from p n i < i + n := by
  by_contra hcon
  have hle := find_first_from_le p n i
  have : j < find_first_from p n i := by omega
  have := find_first_from_below p n i j hij this
  simp [hp] at this

theorem find_first_zero_bit_le (addr : Nat → Bool) (size : Nat) :
    find_first_zero_bit addr size ≤ size := by
  have := find_first_from_le (fun i => !addr i) size 0
  simpa [find_first_zero_bit] using this

theorem find_first_zero_bit_clear (addr : Nat → Bool) (size : Nat)
    (h : find_first_zero_bit addr size < size) :
    addr (find_first_zero_bit addr size) = false := by
  have := find_first_from_hit (fun i => !addr i) size 0 (by simpa [find_first_zero_bit] using h)
  simpa [find_first_zero_bit] using this

theorem find_first_zero_bit_below (addr : Nat → Bool) (size i : Nat)
    (h : i < find_first_zero_bit addr size) : addr i = true := by
  have := find_first_from_below (fun i => !addr i) size 0 i (Nat.zero_le i) h
  simpa using this

theorem find_first_zero_bit_lt_iff (addr : Nat → Bool) (size : Nat) :
    find_first_zero_bit addr size < size ↔ ∃ i, i < size ∧ addr i = false := by
  constructor
  · intro h
    exact ⟨_, h, find_first_zero_bit_clear addr size h⟩
  · rintro ⟨i, hi, hc⟩
    have := find_first_from_lt_of_exists (fun i => !addr i) size 0 i (Nat.zero_le i)
      (by omega) (by simp [hc])
    simpa [find_first_zero_bit] using this

/-- One pass of `msm_pcie_create_irq` in a sequential run: the bit found by the
scan is clear, so `test_and_set_bit` succeeds at once. -/
theorem msm_pcie_create_irq_eq (fuel : Nat) (dev : msm_pcie_dev_t) :
    msm_pcie_create_irq (fuel + 1) dev =
      if find_first_zero_bit dev.msi_irq_in_use PCIE_MSI_NR_IRQS ≥ PCIE_MSI_NR_IRQS then
        some (-ENOSPC, dev)
      else
        some (if dev.irq_domain (find_first_zero_bit dev.msi_irq_in_use PCIE_MSI_NR_IRQS) = 0
                then -EINVAL
                else (dev.irq_domain
                  (find_first_zero_bit dev.msi_irq_in_use PCIE_MSI_NR_IRQS) : Int),
              { dev with
                msi_irq_in_use :=
                  Function.update dev.msi_irq_in_use
                    (find_first_zero_bit dev.msi_irq_in_use PCIE_MSI_NR_IRQS) true }) := by
  simp only [msm_pcie_create_irq]
  split
  · rfl
  · rename_i h
    have hc := find_first_zero_bit_clear dev.msi_irq_in_use PCIE_MSI_NR_IRQS (by omega)
    simp [test_and_set_bit, hc, irq_create_mapping]
    split <;> simp_all

/-- One pass of `msm_pcie_create_irq_qgic` in a sequential run. -/
theorem msm_pcie_create_irq_qgic_eq (fuel : Nat) (dev : msm_pcie_dev_t) :
    msm_pcie_create_irq_qgic (fuel + 1) dev =
      if find_first_zero_bit dev.msi_irq_in_use PCIE_MSI_NR_IRQS ≥ PCIE_MSI_NR_IRQS then
        some (-ENOSPC, dev)
      else
        some (if dev.msi_gicm_base +
                  find_first_zero_bit dev.msi_irq_in_use PCIE_MSI_NR_IRQS = 0
                then -EINVAL
                else ((dev.msi_gicm_base +
                  find_first_zero_bit dev.msi_irq_in_use PCIE_MSI_NR_IRQS : Nat) : Int),
              { dev with
                msi_irq_in_use :=
                  Function.update dev.msi_irq_in_use
                    (find_first_zero_bit dev.msi_irq_in_use PCIE_MSI_NR_IRQS) true }) := by
  simp only [msm_pcie_create_irq_qgic]
  split
  · rfl
  · rename_i h
    have hc := find_first_zero_bit_clear dev.msi_irq_in_use PCIE_MSI_NR_IRQS (by omega)
    simp only [test_and_set_bit, hc, Bool.false_eq_true, if_false]
    split <;> rename_i h0
    · have : dev.msi_gicm_base +
          find_first_zero_bit dev.msi_irq_in_use PCIE_MSI_NR_IRQS = 0 := by exact_mod_cast h0
      simp [this]
    · have : ¬ dev.msi_gicm_base +
          find_first_zero_bit dev.msi_irq_in_use PCIE_MSI_NR_IRQS = 0 := by
        intro h1; apply h0; exact_mod_cast h1
      simp [this]

/-! ## Allocation of a slot -/

/-- C1: for every bitmap with a clear bit among the `PCIE_MSI_NR_IRQS` slots, a
sequential call of `msm_pcie_create_irq` and of `msm_pcie_create_irq_qgic`
reserves the lowest clear slot `p`: the call returns, the device afterwards is
the device before with bit `p` set and every other bit unchanged, and the value
returned is the interrupt of the slot, the domain mapping of `p` resp.
`msi_gicm_base + p` (or `-EINVAL` when that interrupt number is 0).  When slot 0
is clear, as on the empty bitmap left after freeing everything, the slot
reserved is slot 0. -/
theorem msm_pcie_create_irq_lowest_clear (dev : msm_pcie_dev_t) (fuel : Nat)
    (h : ∃ i, i < PCIE_MSI_NR_IRQS ∧ dev.msi_irq_in_use i = false) :
    ∃ p, p < PCIE_MSI_NR_IRQS ∧ dev.msi_irq_in_use p = false ∧
      (∀ i, i < p → dev.msi_irq_in_use i = true) ∧
      (dev.msi_irq_in_use 0 = false → p = 0) ∧
      (∃ dev1,
        msm_pcie_create_irq (fuel + 1) dev =
          some (if irq_create_mapping dev p = 0 then -EINVAL
                else (irq_create_mapping dev p : Int), dev1) ∧
        dev1 = { dev with msi_irq_in_use := Function.update dev.msi_irq_in_use p true } ∧
        dev1.msi_irq_in_use p = true ∧
        ∀ i, i ≠ p → dev1.msi_irq_in_use i = dev.msi_irq_in_use i) ∧
      (∃ dev1,
        msm_pcie_create_irq_qgic (fuel + 1) dev =
          some (if dev.msi_gicm_base + p = 0 then -EINVAL
                else ((dev.msi_gicm_base + p : Nat) : Int), dev1) ∧
        dev1 = { dev with msi_irq_in_use := Function.update dev.msi_irq_in_use p true } ∧
        dev1.msi_irq_in_use p = true ∧
        ∀ i, i ≠ p → dev1.msi_irq_in_use i = dev.msi_irq_in_use i) := by
  have hlt := (find_first_zero_bit_lt_iff dev.msi_irq_in_use PCIE_MSI_NR_IRQS).2 h
  have hnot : ¬ find_first_zero_bit dev.msi_irq_in_use PCIE_MSI_NR_IRQS ≥ PCIE_MSI_NR_IRQS := by
    omega
  refine ⟨find_first_zero_bit dev.msi_irq_in_use PCIE_MSI_NR_IRQS, hlt,
    find_first_zero_bit_clear _ _ hlt, fun i hi => find_first_zero_bit_below _ _ i hi, ?_, ?_, ?_⟩
  · intro h0
    by_contra hne
    have := find_first_zero_bit_below dev.msi_irq_in_use PCIE_MSI_NR_IRQS 0
      (Nat.pos_of_ne_zero hne)
    simp [h0] at this
  · refine ⟨_, ?_, rfl, ?_, ?_⟩
    · rw [msm_pcie_create_irq_eq, if_neg hnot]; rfl
    · simp
    · intro i hi; simp [Function.update, hi]
  · refine ⟨_, ?_, rfl, ?_, ?_⟩
    · rw [msm_pcie_create_irq_qgic_eq, if_neg hnot]
    · simp
    · intro i hi; simp [Function.update, hi]

/-- C1 at a concrete device: slot 1 is in use, slots 0 and 2 are clear.  And the
scenario of the claim under the domain-mapped policy: from the empty bitmap,
four allocations and the four frees of their interrupts leave the bitmap
empty, and the next allocation returns the interrupt of slot 0. -/
theorem msm_pcie_create_irq_lowest_clear_witness :
    (∃ i, i < PCIE_MSI_NR_IRQS ∧ dev_qgic.msi_irq_in_use i = false) ∧
    (∃ p, p < PCIE_MSI_NR_IRQS ∧ dev_qgic.msi_irq_in_use p = false ∧
      (∀ i, i < p → dev_qgic.msi_irq_in_use i = true) ∧
      (dev_qgic.msi_irq_in_use 0 = false → p = 0) ∧
      (∃ dev1,
        msm_pcie_create_irq (0 + 1) dev_qgic =
          some (if irq_create_mapping dev_qgic p = 0 then -EINVAL
                else (irq_create_mapping dev_qgic p : Int), dev1) ∧
        dev1 = { dev_qgic with
                  msi_irq_in_use := Function.update dev_qgic.msi_irq_in_use p true } ∧
        dev1.msi_irq_in_use p = true ∧
        ∀ i, i ≠ p → dev1.msi_irq_in_use i = dev_qgic.msi_irq_in_use i) ∧
      (∃ dev1,
        msm_pcie_create_irq_qgic (0 + 1) dev_qgic =
          some (if dev_qgic.msi_gicm_base + p = 0 then -EINVAL
                else ((dev_qgic.msi_gicm_base + p : Nat) : Int), dev1) ∧
        dev1 = { dev_qgic with
                  msi_irq_in_use := Function.update dev_qgic.msi_irq_in_use p true } ∧
        dev1.msi_irq_in_use p = true ∧
        ∀ i, i ≠ p → dev1.msi_irq_in_use i = dev_qgic.msi_irq_in_use i)) ∧
    (∃ s, msi_run 1 [msi_op.alloc, msi_op.alloc, msi_op.alloc, msi_op.alloc,
          msi_op.free 500, msi_op.free 501, msi_op.free 502, msi_op.free 503]
          { dev := dev_init, live := [], returned := [] } = some s ∧
      s.returned = [503, 502, 501, 500] ∧ s.live = [] ∧
      (∀ i, s.dev.msi_irq_in_use i = false) ∧
      ∃ dev1, msm_pcie_create_irq 1 s.dev =
        some (((irq_create_mapping s.dev 0 : Nat) : Int), dev1)) := by
  refine ⟨⟨0, by decide, by decide⟩,
    msm_pcie_create_irq_lowest_clear dev_qgic 0 ⟨0, by decide, by decide⟩,
    _, rfl, rfl, rfl, ?_, _, rfl⟩
  intro i
  show (Function.update (Function.update (Function.update (Function.update
    (Function.update (Function.update (Function.update (Function.update
      (fun _ => false) 0 true) 1 true) 2 true) 3 true) 0 false) 1 false) 2 false) 3 false) i
    = false
  simp only [Function.update_apply]
  split_ifs <;> rfl

/-- C2: when all `PCIE_MSI_NR_IRQS` bits are set, `msm_pcie_create_irq` and
`msm_pcie_create_irq_qgic` return `-ENOSPC` in their first pass (one unit of
fuel is enough, the label `again` is not reached a second time) and leave the
device, hence the bitmap, unchanged; and whenever either of them returns
`-ENOSPC`, all `PCIE_MSI_NR_IRQS` bits were set. -/
theorem msm_pcie_create_irq_enospc (dev : msm_pcie_dev_t) :
    ((∀ i, i < PCIE_MSI_NR_IRQS → dev.msi_irq_in_use i = true) →
      ∀ fuel, msm_pcie_create_irq (fuel + 1) dev = some (-ENOSPC, dev) ∧
        msm_pcie_create_irq_qgic (fuel + 1) dev = some (-ENOSPC, dev)) ∧
    (∀ fuel dev1, (msm_pcie_create_irq fuel dev = some (-ENOSPC, dev1) ∨
        msm_pcie_create_irq_qgic fuel dev = some (-ENOSPC, dev1)) →
      (∀ i, i < PCIE_MSI_NR_IRQS → dev.msi_irq_in_use i = true) ∧ dev1 = dev) := by
  constructor
  · intro hall fuel
    have hge : find_first_zero_bit dev.msi_irq_in_use PCIE_MSI_NR_IRQS ≥ PCIE_MSI_NR_IRQS := by
      by_contra hlt
      obtain ⟨i, hi, hc⟩ :=
        (find_first_zero_bit_lt_iff dev.msi_irq_in_use PCIE_MSI_NR_IRQS).1 (by omega)
      simp [hall i hi] at hc
    constructor
    · rw [msm_pcie_create_irq_eq, if_pos hge]
    · rw [msm_pcie_create_irq_qgic_eq, if_pos hge]
  · intro fuel dev1 hret
    have hfull : find_first_zero_bit dev.msi_irq_in_use PCIE_MSI_NR_IRQS ≥ PCIE_MSI_NR_IRQS →
        ∀ i, i < PCIE_MSI_NR_IRQS → dev.msi_irq_in_use i = true := by
      intro hge i hi
      exact find_first_zero_bit_below dev.msi_irq_in_use PCIE_MSI_NR_IRQS i (by omega)
    cases fuel with
    | zero => simp [msm_pcie_create_irq, msm_pcie_create_irq_qgic] at hret
    | succ fuel =>
      rw [msm_pcie_create_irq_eq, msm_pcie_create_irq_qgic_eq] at hret
      by_cases hge : find_first_zero_bit dev.msi_irq_in_use PCIE_MSI_NR_IRQS ≥ PCIE_MSI_NR_IRQS
      · simp only [if_pos hge, Option.some.injEq, Prod.mk.injEq, true_and, or_self] at hret
        exact ⟨hfull hge, hret.symm⟩
      · simp only [if_neg hge, Option.some.injEq, Prod.mk.injEq] at hret
        exfalso
        rcases hret with h | h
        · have h1 := h.1
          split at h1
          · simp [EINVAL, ENOSPC] at h1
          · simp only [ENOSPC] at h1; omega
        · have h1 := h.1
          split at h1
          · simp [EINVAL, ENOSPC] at h1
          · simp only [ENOSPC] at h1; omega

/-- C2 at the device whose bitmap is full. -/
theorem msm_pcie_create_irq_enospc_witness :
    (∀ i, i < PCIE_MSI_NR_IRQS →
      ({ dev_qgic with msi_irq_in_use := fun _ => true } : msm_pcie_dev_t).msi_irq_in_use i
        = true) ∧
    msm_pcie_create_irq 1 { dev_qgic with msi_irq_in_use := fun _ => true } =
      some (-ENOSPC, { dev_qgic with msi_irq_in_use := fun _ => true }) ∧
    msm_pcie_create_irq_qgic 1 { dev_qgic with msi_irq_in_use := fun _ => true } =
      some (-ENOSPC, { dev_qgic with msi_irq_in_use := fun _ => true }) :=
  ⟨fun _ _ => rfl,
   (msm_pcie_create_irq_enospc { dev_qgic with msi_irq_in_use := fun _ => true }).1
     (fun _ _ => rfl) 0⟩

/-! ## Freeing a slot -/

/-- The driver's way back from an interrupt to its slot, on the interrupt of
slot `q`. -/
theorem msm_pcie_destroy_irq_slot (dev : msm_pcie_dev_t) (q : Nat)
    (hq : q < PCIE_MSI_NR_IRQS) (hlin : dev.msi_gicm_addr = 0 → domain_linear dev) :
    msm_pcie_destroy_irq (slot_irq dev q) dev =
      some { dev with msi_irq_in_use := Function.update dev.msi_irq_in_use q false } := by
  unfold msm_pcie_destroy_irq slot_irq
  by_cases hg : dev.msi_gicm_addr = 0
  · have hl := hlin hg q hq
    simp only [irq_find_mapping] at hl
    simp only [hg, ne_eq, not_true_eq_false, if_false, irq_create_mapping, irq_find_mapping, hl]
    have e : ((dev.irq_domain 0 + q : Nat) : Int) - (dev.irq_domain 0 : Nat) = (q : Nat) := by
      push_cast; ring
    rw [e]
    have hq2 : (0 : Int) ≤ (q : Nat) ∧ ((q : Nat) : Int) < (PCIE_MSI_NR_IRQS : Nat) :=
      ⟨Int.ofNat_nonneg q, by exact_mod_cast hq⟩
    rw [if_pos hq2]
    simp [clear_bit]
  · simp only [hg, ne_eq, not_false_eq_true, if_true]
    have e : ((dev.msi_gicm_base + q : Nat) : Int) - (dev.msi_gicm_base : Nat) = (q : Nat) := by
      push_cast; ring
    rw [e]
    have hq2 : (0 : Int) ≤ (q : Nat) ∧ ((q : Nat) : Int) < (PCIE_MSI_NR_IRQS : Nat) :=
      ⟨Int.ofNat_nonneg q, by exact_mod_cast hq⟩
    rw [if_pos hq2]
    simp [clear_bit]

/-- C7, amended: under the direct GICM policy, and under the domain-mapped
policy when the domain numbers the slots consecutively from the interrupt of
slot 0, `msm_pcie_destroy_irq` on the interrupt of slot `p`, `p` below
`PCIE_MSI_NR_IRQS`, gives a result (nothing is signalled), the device afterwards
is the device before with bit `p` cleared and every other bit unchanged, and
when bit `p` was clear already the device is unchanged.  The interrupt of a
slot is `msi_gicm_base + p` under the direct GICM policy and the domain mapping
of `p` otherwise. -/
theorem msm_pcie_destroy_irq_clears (dev : msm_pcie_dev_t) (p : Nat)
    (hp : p < PCIE_MSI_NR_IRQS) (hlin : dev.msi_gicm_addr = 0 → domain_linear dev) :
    ∃ dev1, msm_pcie_destroy_irq (slot_irq dev p) dev = some dev1 ∧
      dev1 = { dev with msi_irq_in_use := Function.update dev.msi_irq_in_use p false } ∧
      dev1.msi_irq_in_use p = false ∧
      (∀ i, i ≠ p → dev1.msi_irq_in_use i = dev.msi_irq_in_use i) ∧
      (dev.msi_irq_in_use p = false → dev1 = dev) := by
  refine ⟨_, msm_pcie_destroy_irq_slot dev p hp hlin, rfl, ?_, ?_, ?_⟩
  · simp
  · intro i hi; simp [Function.update, hi]
  · intro hc
    have : Function.update dev.msi_irq_in_use p false = dev.msi_irq_in_use := by
      rw [← hc]; exact Function.update_eq_self p dev.msi_irq_in_use
    rw [this]

/-- C7 at slot 1 of the example device under the direct GICM policy, where the
hypothesis on the domain is void, and at slot 1 of the example device under
the domain-mapped policy, whose domain maps slot `p` to `500 + p`. -/
theorem msm_pcie_destroy_irq_clears_witness :
    (1 < PCIE_MSI_NR_IRQS ∧ (dev_qgic.msi_gicm_addr = 0 → domain_linear dev_qgic) ∧
      ∃ dev1, msm_pcie_destroy_irq (slot_irq dev_qgic 1) dev_qgic = some dev1 ∧
        dev1 = { dev_qgic with
                  msi_irq_in_use := Function.update dev_qgic.msi_irq_in_use 1 false } ∧
        dev1.msi_irq_in_use 1 = false ∧
        (∀ i, i ≠ 1 → dev1.msi_irq_in_use i = dev_qgic.msi_irq_in_use i) ∧
        (dev_qgic.msi_irq_in_use 1 = false → dev1 = dev_qgic)) ∧
    (1 < PCIE_MSI_NR_IRQS ∧ (dev_default.msi_gicm_addr = 0 → domain_linear dev_default) ∧
      ∃ dev1, msm_pcie_destroy_irq (slot_irq dev_default 1) dev_default = some dev1 ∧
        dev1 = { dev_default with
                  msi_irq_in_use := Function.update dev_default.msi_irq_in_use 1 false } ∧
        dev1.msi_irq_in_use 1 = false ∧
        (∀ i, i ≠ 1 → dev1.msi_irq_in_use i = dev_default.msi_irq_in_use i) ∧
        (dev_default.msi_irq_in_use 1 = false → dev1 = dev_default)) :=
  ⟨⟨by decide, fun h => absurd h (by decide),
     msm_pcie_destroy_irq_clears dev_qgic 1 (by decide) (fun h => absurd h (by decide))⟩,
   ⟨by decide, fun _ p _ => by simp [irq_find_mapping, dev_default, dev_qgic],
     msm_pcie_destroy_irq_clears dev_default 1 (by decide)
       (fun _ p _ => by simp [irq_find_mapping, dev_default, dev_qgic])⟩⟩

/-! ## Runs of the allocator -/

/-- One pass of the allocation selected by the policy, in a sequential run. -/
theorem msm_pcie_alloc_eq (fuel : Nat) (dev : msm_pcie_dev_t) :
    msm_pcie_alloc (fuel + 1) dev =
      if find_first_zero_bit dev.msi_irq_in_use PCIE_MSI_NR_IRQS ≥ PCIE_MSI_NR_IRQS then
        some (-ENOSPC, dev)
      else
        some (if slot_irq dev (find_first_zero_bit dev.msi_irq_in_use PCIE_MSI_NR_IRQS) = 0
                then -EINVAL
                else (slot_irq dev
                  (find_first_zero_bit dev.msi_irq_in_use PCIE_MSI_NR_IRQS) : Int),
              { dev with
                msi_irq_in_use :=
                  Function.update dev.msi_irq_in_use
                    (find_first_zero_bit dev.msi_irq_in_use PCIE_MSI_NR_IRQS) true }) := by
  unfold msm_pcie_alloc slot_irq
  by_cases hg : dev.msi_gicm_addr ≠ 0
  · simp only [if_pos hg]
    exact msm_pcie_create_irq_qgic_eq fuel dev
  · simp only [if_neg hg, irq_create_mapping]
    exact msm_pcie_create_irq_eq fuel dev

theorem slot_irq_inj (dev : msm_pcie_dev_t) (hlin : dev.msi_gicm_addr = 0 → domain_linear dev)
    (q q1 : Nat) (hq : q < PCIE_MSI_NR_IRQS) (hq1 : q1 < PCIE_MSI_NR_IRQS)
    (h : slot_irq dev q = slot_irq dev q1) : q = q1 := by
  unfold slot_irq at h
  by_cases hg : dev.msi_gicm_addr = 0
  · have e := hlin hg q hq
    have e1 := hlin hg q1 hq1
    simp only [irq_find_mapping] at e e1
    simp only [hg, ne_eq, not_true_eq_false, if_false, irq_create_mapping] at h
    omega
  · simp only [hg, ne_eq, not_false_eq_true, if_true] at h
    omega

theorem slot_irq_config (dev dev0 : msm_pcie_dev_t) (ha : dev.msi_gicm_addr = dev0.msi_gicm_addr)
    (hb : dev.msi_gicm_base = dev0.msi_gicm_base) (hd : dev.irq_domain = dev0.irq_domain)
    (q : Nat) : slot_irq dev q = slot_irq dev0 q := by
  simp [slot_irq, irq_create_mapping, ha, hb, hd]

theorem domain_linear_config (dev dev0 : msm_pcie_dev_t)
    (hd : dev.irq_domain = dev0.irq_domain) (h : domain_linear dev0) : domain_linear dev := by
  intro q hq
  have := h q hq
  simpa [irq_find_mapping, hd] using this

/-- The invariant of a run is kept by every operation. -/
theorem msi_inv_step (dev0 : msm_pcie_dev_t)
    (hlin : dev0.msi_gicm_addr = 0 → domain_linear dev0) (fuel : Nat) (s s1 : msi_state)
    (op : msi_op) (hinv : msi_inv dev0 s) (hstep : msi_step fuel s op = some s1) :
    msi_inv dev0 s1 := by
  obtain ⟨ha, hb, hd, hret, hlive⟩ := hinv
  have hcfg : ∀ q, slot_irq s.dev q = slot_irq dev0 q := slot_irq_config s.dev dev0 ha hb hd
  cases op with
  | alloc =>
    cases fuel with
    | zero =>
      simp [msi_step, msm_pcie_alloc, msm_pcie_create_irq, msm_pcie_create_irq_qgic] at hstep
    | succ fuel =>
      simp only [msi_step, msm_pcie_alloc_eq] at hstep
      by_cases hge :
          find_first_zero_bit s.dev.msi_irq_in_use PCIE_MSI_NR_IRQS ≥ PCIE_MSI_NR_IRQS
      · simp only [if_pos hge, ENOSPC] at hstep
        simp at hstep
        subst hstep
        exact ⟨ha, hb, hd, hret, hlive⟩
      · simp only [if_neg hge] at hstep
        have hlt : find_first_zero_bit s.dev.msi_irq_in_use PCIE_MSI_NR_IRQS
            < PCIE_MSI_NR_IRQS := by omega
        have hkeep : ∀ irq, irq ∈ s.live → ∃ q, q < PCIE_MSI_NR_IRQS ∧ irq = slot_irq dev0 q ∧
            Function.update s.dev.msi_irq_in_use
              (find_first_zero_bit s.dev.msi_irq_in_use PCIE_MSI_NR_IRQS) true q = true := by
          intro irq hirq
          obtain ⟨q, hq, he, hbit⟩ := hlive irq hirq
          refine ⟨q, hq, he, ?_⟩
          by_cases hqp : q = find_first_zero_bit s.dev.msi_irq_in_use PCIE_MSI_NR_IRQS
          · rw [hqp]; exact Function.update_same _ _ _
          · rw [Function.update_noteq hqp]; exact hbit
        by_cases hz :
            slot_irq s.dev (find_first_zero_bit s.dev.msi_irq_in_use PCIE_MSI_NR_IRQS) = 0
        · simp only [if_pos hz, EINVAL] at hstep
          simp at hstep
          subst hstep
          exact ⟨ha, hb, hd, hret, hkeep⟩
        · simp only [if_neg hz] at hstep
          have hnn : ¬ ((slot_irq s.dev
              (find_first_zero_bit s.dev.msi_irq_in_use PCIE_MSI_NR_IRQS) : Nat) : Int) < 0 := by
            omega
          simp only [if_neg hnn, Option.some.injEq, Int.toNat_ofNat] at hstep
          subst hstep
          refine ⟨ha, hb, hd, ?_, ?_⟩
          · intro irq hirq
            simp only [List.mem_cons] at hirq
            rcases hirq with h | h
            · exact ⟨_, hlt, by rw [h, hcfg]⟩
            · exact hret irq h
          · intro irq hirq
            simp only [List.mem_cons] at hirq
            rcases hirq with h | h
            · exact ⟨_, hlt, by rw [h, hcfg], by simp⟩
            · exact hkeep irq h
  | free irq =>
    simp only [msi_step] at hstep
    by_cases hmem : irq ∈ s.returned
    · simp only [if_pos hmem] at hstep
      obtain ⟨q, hq, he⟩ := hret irq hmem
      have hlin1 : s.dev.msi_gicm_addr = 0 → domain_linear s.dev := fun h =>
        domain_linear_config s.dev dev0 hd (hlin (by rw [← ha]; exact h))
      have hd1 := msm_pcie_destroy_irq_slot s.dev q hq hlin1
      rw [hcfg, ← he] at hd1
      rw [hd1] at hstep
      simp only [Option.some.injEq] at hstep
      subst hstep
      refine ⟨ha, hb, hd, hret, ?_⟩
      intro irq1 hirq1
      simp only [List.mem_filter, decide_eq_true_eq] at hirq1
      obtain ⟨q1, hq1, he1, hb1⟩ := hlive irq1 hirq1.1
      refine ⟨q1, hq1, he1, ?_⟩
      have hne : q1 ≠ q := by
        intro h; apply hirq1.2; rw [he1, he, h]
      simp [Function.update, hne, hb1]
    · simp [if_neg hmem] at hstep

/-- The invariant of a run holds after every sequence of operations. -/
theorem msi_inv_run (dev0 : msm_pcie_dev_t)
    (hlin : dev0.msi_gicm_addr = 0 → domain_linear dev0) (fuel : Nat) (ops : List msi_op)
    (s s1 : msi_state) (hinv : msi_inv dev0 s) (hrun : msi_run fuel ops s = some s1) :
    msi_inv dev0 s1 := by
  induction ops generalizing s with
  | nil =>
    simp only [msi_run, Option.some.injEq] at hrun
    subst hrun; exact hinv
  | cons op ops ih =>
    simp only [msi_run] at hrun
    cases hstep : msi_step fuel s op with
    | none => simp [hstep] at hrun
    | some s2 =>
      simp only [hstep] at hrun
      exact ih s2 (msi_inv_step dev0 hlin fuel s s2 op hinv hstep) hrun

/-- C3, amended: under the direct GICM policy, and under the domain-mapped
policy when the domain numbers the slots consecutively from the interrupt of
slot 0: in the state reached by any sequence of allocations (under the policy
of the device) and frees of previously returned interrupts, from the empty
bitmap as from any other, every live interrupt (returned by an allocation and
not freed since) is the interrupt of a slot whose bit is set, and the next
allocation returns and, when it succeeds, returns the interrupt of a slot whose
bit is clear, which is none of the live interrupts.  Every such operation
gives a result, so the run never stops short. -/
theorem msi_alloc_never_live (dev0 : msm_pcie_dev_t)
    (hlin : dev0.msi_gicm_addr = 0 → domain_linear dev0)
    (fuel : Nat) (ops : List msi_op) (s : msi_state)
    (hrun : msi_run (fuel + 1) ops { dev := dev0, live := [], returned := [] } = some s) :
    (∀ irq, irq ∈ s.live →
      ∃ q, q < PCIE_MSI_NR_IRQS ∧ irq = slot_irq s.dev q ∧ s.dev.msi_irq_in_use q = true) ∧
    (∃ r, msm_pcie_alloc (fuel + 1) s.dev = some r ∧
      (0 ≤ r.1 →
        r.1.toNat ∉ s.live ∧
        ∃ p, p < PCIE_MSI_NR_IRQS ∧ r.1.toNat = slot_irq s.dev p ∧
          s.dev.msi_irq_in_use p = false ∧ r.2.msi_irq_in_use p = true)) ∧
    (∃ s1, msi_step (fuel + 1) s msi_op.alloc = some s1) ∧
    (∀ irq, irq ∈ s.returned → ∃ s1, msi_step (fuel + 1) s (msi_op.free irq) = some s1) := by
  have hinv0 : msi_inv dev0 { dev := dev0, live := [], returned := [] } :=
    ⟨rfl, rfl, rfl, fun _ h => by simp at h, fun _ h => by simp at h⟩
  obtain ⟨ha, hb, hd, hret, hlive⟩ := msi_inv_run dev0 hlin (fuel + 1) ops _ s hinv0 hrun
  have hcfg : ∀ q, slot_irq s.dev q = slot_irq dev0 q := slot_irq_config s.dev dev0 ha hb hd
  have hlin1 : s.dev.msi_gicm_addr = 0 → domain_linear s.dev := fun h =>
    domain_linear_config s.dev dev0 hd (hlin (by rw [← ha]; exact h))
  refine ⟨?_, ?_, ?_, ?_⟩
  · intro irq hirq
    obtain ⟨q, hq, he, hbit⟩ := hlive irq hirq
    exact ⟨q, hq, by rw [hcfg]; exact he, hbit⟩
  · rw [msm_pcie_alloc_eq]
    by_cases hge : find_first_zero_bit s.dev.msi_irq_in_use PCIE_MSI_NR_IRQS ≥ PCIE_MSI_NR_IRQS
    · rw [if_pos hge]
      refine ⟨_, rfl, ?_⟩
      intro h; simp [ENOSPC] at h
    · rw [if_neg hge]
      refine ⟨_, rfl, ?_⟩
      have hlt : find_first_zero_bit s.dev.msi_irq_in_use PCIE_MSI_NR_IRQS
          < PCIE_MSI_NR_IRQS := by omega
      have hclr := find_first_zero_bit_clear s.dev.msi_irq_in_use PCIE_MSI_NR_IRQS hlt
      by_cases hz :
          slot_irq s.dev (find_first_zero_bit s.dev.msi_irq_in_use PCIE_MSI_NR_IRQS) = 0
      · simp only [if_pos hz]
        intro h; simp [EINVAL] at h
      · simp only [if_neg hz, Int.toNat_ofNat]
        intro _
        refine ⟨?_, _, hlt, rfl, hclr, by simp⟩
        intro hmem
        obtain ⟨q, hq, he, hbit⟩ := hlive _ hmem
        rw [hcfg] at he
        have := slot_irq_inj dev0 hlin _ _ hlt hq he
        rw [← this, hclr] at hbit
        exact absurd hbit (by decide)
  · simp only [msi_step, msm_pcie_alloc_eq]
    by_cases hge : find_first_zero_bit s.dev.msi_irq_in_use PCIE_MSI_NR_IRQS ≥ PCIE_MSI_NR_IRQS
    · simp only [if_pos hge]
      split <;> exact ⟨_, rfl⟩
    · simp only [if_neg hge]
      split <;> exact ⟨_, rfl⟩
  · intro irq hirq
    obtain ⟨q, hq, he⟩ := hret irq hirq
    have hd1 := msm_pcie_destroy_irq_slot s.dev q hq hlin1
    rw [hcfg, ← he] at hd1
    simp [msi_step, hirq, hd1]

/-- C3 on a run of the example device under the domain-mapped policy from the
empty bitmap: allocate twice, free the first interrupt, allocate again. -/
theorem msi_alloc_never_live_witness :
    (dev_init.msi_gicm_addr = 0 → domain_linear dev_init) ∧
    (∃ s, msi_run (0 + 1) [msi_op.alloc, msi_op.alloc, msi_op.free 500, msi_op.alloc]
        { dev := dev_init, live := [], returned := [] } = some s ∧
      (∃ r, msm_pcie_alloc (0 + 1) s.dev = some r ∧
        (0 ≤ r.1 →
          r.1.toNat ∉ s.live ∧
          ∃ p, p < PCIE_MSI_NR_IRQS ∧ r.1.toNat = slot_irq s.dev p ∧
            s.dev.msi_irq_in_use p = false ∧ r.2.msi_irq_in_use p = true))) := by
  have hlin : dev_init.msi_gicm_addr = 0 → domain_linear dev_init :=
    fun _ p _ => by simp [irq_find_mapping, dev_init]
  refine ⟨hlin, ?_⟩
  cases hrun : msi_run (0 + 1) [msi_op.alloc, msi_op.alloc, msi_op.free 500, msi_op.alloc]
      { dev := dev_init, live := [], returned := [] } with
  | none =>
    exfalso
    revert hrun
    simp [msi_run, msi_step, msm_pcie_alloc, msm_pcie_create_irq, msm_pcie_destroy_irq,
      dev_init, find_first_zero_bit, find_first_from, PCIE_MSI_NR_IRQS, test_and_set_bit,
      irq_create_mapping, irq_find_mapping, clear_bit, Function.update]
  | some s =>
    exact ⟨s, rfl, (msi_alloc_never_live dev_init hlin 0 _ s hrun).2.1⟩

/-! ## Set-up and tear-down on a fragmented or nearly full bitmap -/

theorem msm_pcie_get_msi_multiple_two : msm_pcie_get_msi_multiple 2 = 1 := by
  simp [msm_pcie_get_msi_multiple, msm_pcie_get_msi_multiple_loop]

/-- C4, the code at two failing inputs, a request for 2 vectors while slot 1 is
in use by another device and slots 0 and 2 are free.  Under the direct GICM
policy the set-up succeeds and reserves slots 0 and 2, and the tear-down
releases slots 0 and 1: afterwards slot 1, which was in use before, is clear,
and slot 2, which was free before, is still reserved.  Under the domain-mapped
policy the set-up succeeds and reserves slot 0 only, and the tear-down releases
slots 0 and 1: afterwards slot 1 is clear. -/
theorem arch_setup_teardown_not_inverse :
    (∃ dev1 pdev1 dev2,
      arch_setup_msi_irqs 1 dev_qgic pdev0 2 PCI_CAP_ID_MSI = some (0, dev1, pdev1) ∧
      arch_teardown_msi_irqs dev1 pdev1 = some dev2 ∧
      dev_qgic.msi_irq_in_use 1 = true ∧ dev2.msi_irq_in_use 1 = false ∧
      dev_qgic.msi_irq_in_use 2 = false ∧ dev2.msi_irq_in_use 2 = true) ∧
    (∃ dev1 pdev1 dev2,
      arch_setup_msi_irqs 1 dev_default pdev0 2 PCI_CAP_ID_MSI = some (0, dev1, pdev1) ∧
      arch_teardown_msi_irqs dev1 pdev1 = some dev2 ∧
      dev1.msi_irq_in_use 0 = true ∧ dev1.msi_irq_in_use 2 = false ∧
      dev_default.msi_irq_in_use 1 = true ∧ dev2.msi_irq_in_use 1 = false) := by
  constructor
  · refine ⟨{ dev_qgic with
        msi_irq_in_use := Function.update (Function.update dev_qgic.msi_irq_in_use 0 true) 2 true
        use_msi := true },
      { msi_list := [{ irq := 100, multiple := 1,
                       msg := { address_lo := 1, address_hi := 0, data := 100 } }] },
      _, ?_, rfl, rfl, rfl, rfl, rfl⟩
    simp [arch_setup_msi_irqs, arch_setup_msi_irqs_entries, msm_pcie_get_msi_multiple_two,
      PCI_CAP_ID_MSI, dev_qgic, pdev0, desc0, arch_setup_msi_irq_qgic,
      arch_setup_msi_irq_qgic_loop, msm_pcie_create_irq_qgic, find_first_zero_bit,
      find_first_from, PCIE_MSI_NR_IRQS, test_and_set_bit, to_u32]
  · refine ⟨{ dev_default with
        msi_irq_in_use := Function.update dev_default.msi_irq_in_use 0 true
        use_msi := true },
      { msi_list := [{ irq := 500, multiple := 1,
                       msg := { address_lo := MSM_PCIE_MSI_PHY, address_hi := 0, data := 0 } }] },
      _, ?_, rfl, rfl, rfl, rfl, rfl⟩
    simp [arch_setup_msi_irqs, arch_setup_msi_irqs_entries, msm_pcie_get_msi_multiple_two,
      PCI_CAP_ID_MSI, dev_default, dev_qgic, pdev0, desc0, arch_setup_msi_irq_default,
      msm_pcie_create_irq, find_first_zero_bit, irq_create_mapping, irq_find_mapping,
      find_first_from, PCIE_MSI_NR_IRQS, test_and_set_bit, to_u32]

/-- C5, the code at the failing input, a request for 2 vectors under the direct
GICM policy while slot 1 is in use and slots 0 and 2 are free: the set-up
succeeds, the interrupt recorded in the descriptor and written as the message
data is `msi_gicm_base + 0`, and the newly set bits are 0 and 2, not the run 0
and 1 (bit 1 was set before, bit 2 is set by the call). -/
theorem arch_setup_msi_irq_qgic_fragmented :
    ∃ dev1 desc1, arch_setup_msi_irq_qgic 1 dev_qgic desc0 2 = some (0, dev1, desc1) ∧
      desc1.irq = dev_qgic.msi_gicm_base + 0 ∧
      desc1.msg.data = dev_qgic.msi_gicm_base + 0 ∧
      dev_qgic.msi_irq_in_use 0 = false ∧ dev1.msi_irq_in_use 0 = true ∧
      dev_qgic.msi_irq_in_use 1 = true ∧
      dev_qgic.msi_irq_in_use 2 = false ∧ dev1.msi_irq_in_use 2 = true :=
  ⟨_, _, rfl, rfl, rfl, rfl, rfl, rfl, rfl, rfl⟩

set_option maxRecDepth 100000 in
theorem arch_setup_msi_irq_qgic_one_free (d : msi_desc) :
    arch_setup_msi_irq_qgic 1 dev_one_free d 2 =
      some (-ENOSPC,
        { dev_one_free with
          msi_irq_in_use := Function.update dev_one_free.msi_irq_in_use 0 true }, d) :=
  rfl

set_option maxRecDepth 100000 in
/-- C6, the code at two failing inputs.  A request for 2 vectors under the
direct GICM policy when slot 0 is the only free slot: `arch_setup_msi_irqs`
returns `-ENOSPC`, records no interrupt in the descriptor, and leaves slot 0,
free before the call, reserved.  A request for one vector under the
domain-mapped policy when the interrupt mapping cannot be created:
`arch_setup_msi_irq` returns `-EINVAL`, records no interrupt, and leaves slot 0
reserved. -/
theorem arch_setup_failure_keeps_slot :
    (∃ dev1 pdev1,
      arch_setup_msi_irqs 1 dev_one_free pdev0 2 PCI_CAP_ID_MSI = some (-ENOSPC, dev1, pdev1) ∧
      (∀ entry, entry ∈ pdev1.msi_list → entry.irq = 0) ∧
      dev_one_free.msi_irq_in_use 0 = false ∧ dev1.msi_irq_in_use 0 = true) ∧
    (∃ dev1 desc1,
      arch_setup_msi_irq 1 dev_nomap desc0 = some (-EINVAL, dev1, desc1) ∧
      desc1.irq = 0 ∧
      dev_nomap.msi_irq_in_use 0 = false ∧ dev1.msi_irq_in_use 0 = true) := by
  constructor
  · have hg : dev_one_free.msi_gicm_addr ≠ 0 := by decide
    refine ⟨{ dev_one_free with
        msi_irq_in_use := Function.update dev_one_free.msi_irq_in_use 0 true },
      { msi_list := [{ desc0 with multiple := 1 }] }, ?_, ?_, rfl, rfl⟩
    · simp only [arch_setup_msi_irqs, pdev0, arch_setup_msi_irqs_entries,
        msm_pcie_get_msi_multiple_two, if_pos hg, arch_setup_msi_irq_qgic_one_free]
      simp [PCI_CAP_ID_MSI, ENOSPC]
    · intro entry hentry
      simp only [List.mem_singleton] at hentry
      rw [hentry]; rfl
  · exact ⟨_, _, rfl, rfl, rfl, rfl⟩

/-! ## The MSI status scanner on write-1-to-clear registers -/

theorem find_first_bit_spec (val : Nat) (hval : val ≠ 0) (h32 : val < 2 ^ 32) :
    find_first_bit val 32 < 32 ∧ val.testBit (find_first_bit val 32) = true ∧
      ∀ k, k < find_first_bit val 32 → val.testBit k = false := by
  obtain ⟨k, hk⟩ := Nat.ne_zero_implies_bit_true hval
  have hk32 : k < 32 := by
    by_contra hge
    have hle : 2 ^ 32 ≤ 2 ^ k := Nat.pow_le_pow_right (by decide) (by omega)
    have := Nat.testBit_lt_two_pow (lt_of_lt_of_le h32 hle)
    simp [hk] at this
  have hlt : find_first_from (fun i => val.testBit i) 32 0 < 0 + 32 :=
    find_first_from_lt_of_exists (fun i => val.testBit i) 32 0 k (Nat.zero_le k) (by omega) hk
  refine ⟨by simpa [find_first_bit] using hlt, ?_, ?_⟩
  · exact find_first_from_hit (fun i => val.testBit i) 32 0 hlt
  · intro j hj
    exact find_first_from_below (fun i => val.testBit i) 32 0 j (Nat.zero_le j) hj

/-- Bit `k` of a word after the bit `j` is written back to a write-1-to-clear
register. -/
theorem w1c_testBit (x j k : Nat) :
    (x ^^^ (x &&& BIT j)).testBit k = (x.testBit k && decide (k ≠ j)) := by
  rw [Nat.testBit_xor, Nat.testBit_and, BIT, Nat.one_shiftLeft, Nat.testBit_two_pow]
  by_cases h : j = k
  · subst h; cases x.testBit j <;> simp
  · have h1 : ¬ k = j := fun e => h e.symm
    cases x.testBit k <;> simp [h, h1]

theorem w1c_lt (x j : Nat) (hx : x < 2 ^ 32) : x ^^^ (x &&& BIT j) < 2 ^ 32 := by
  apply Nat.lt_pow_two_of_testBit
  intro i hi
  rw [w1c_testBit]
  have : x.testBit i = false :=
    Nat.testBit_lt_two_pow (lt_of_lt_of_le hx (Nat.pow_le_pow_right (by decide) hi))
  simp [this]

/-- Filtering an ascending list by `p` when `j` is its first member with `p`:
the head is `j` and the rest is the list filtered by `p` without `j`. -/
theorem filter_lowest (l : List Nat) (p q : Nat → Bool) (j : Nat)
    (hsorted : l.Pairwise (fun a b => a < b)) (hmem : j ∈ l) (hpj : p j = true)
    (hlow : ∀ k, k < j → p k = false) (hq : ∀ k, q k = (p k && decide (k ≠ j))) :
    l.filter p = j :: l.filter q := by
  induction l with
  | nil => simp at hmem
  | cons a t ih =>
    rw [List.pairwise_cons] at hsorted
    by_cases haj : a = j
    · subst haj
      have hqa : q a = false := by rw [hq]; simp
      rw [List.filter_cons_of_pos hpj, List.filter_cons_of_neg (by simp [hqa])]
      congr 1
      apply List.filter_congr
      intro x hx
      have := hsorted.1 x hx
      rw [hq]
      have hne : x ≠ a := by omega
      simp [hne]
    · have hjt : j ∈ t := by
        rcases List.mem_cons.1 hmem with h | h
        · exact absurd h.symm haj
        · exact h
      have haltj : a < j := hsorted.1 j hjt
      have hpa : p a = false := hlow a haltj
      have hqa : q a = false := by rw [hq, hpa]; simp
      rw [List.filter_cons_of_neg (by simp [hpa]), List.filter_cons_of_neg (by simp [hqa])]
      exact ih hsorted.2 hjt

theorem set_bits_lowest (val : Nat) (hval : val ≠ 0) (h32 : val < 2 ^ 32) :
    set_bits val =
      find_first_bit val 32 :: set_bits (val ^^^ (val &&& BIT (find_first_bit val 32))) := by
  obtain ⟨hj, hset, hlow⟩ := find_first_bit_spec val hval h32
  unfold set_bits
  exact filter_lowest (List.range 32) _ _ (find_first_bit val 32) (List.pairwise_lt_range 32)
    (List.mem_range.2 hj) hset hlow (fun k => w1c_testBit val _ k)

theorem set_bits_length (val : Nat) : (set_bits val).length ≤ 32 := by
  unfold set_bits
  exact le_trans (List.length_filter_le _ _) (by simp)

theorem set_bits_zero : set_bits 0 = [] := by
  unfold set_bits
  simp

/-- The `while (val)` loop on a write-1-to-clear register without arrivals:
with fuel beyond the number of set bits it ends, leaves the word of the bank
zero and every other word as it was, and dispatches the set bits in ascending
order. -/
theorem handle_msi_irq_while_w1c (dev : msm_pcie_dev_t) (i : Nat) (fuel : Nat) :
    ∀ (val : Nat) (hw : Nat → Nat), hw i = val → val < 2 ^ 32 →
      (set_bits val).length < fuel →
      ∃ evs, handle_msi_irq_while w1c_regs dev i fuel val hw =
          some (Function.update hw i 0, evs) ∧
        dispatched evs = (set_bits val).map fun j => irq_find_mapping dev (j + 32 * i) := by
  induction fuel with
  | zero => intro val hw _ _ hlen; omega
  | succ fuel ih =>
    intro val hw hval h32 hlen
    by_cases hz : val = 0
    · subst hz
      refine ⟨[], ?_, ?_⟩
      · simp only [handle_msi_irq_while, if_true]
        rw [← hval, Function.update_eq_self]
      · simp [set_bits_zero, dispatched]
    · have hsb := set_bits_lowest val hz h32
      have hlt := w1c_lt val (find_first_bit val 32) h32
      have hread : (w1c_regs.readl_relaxed
          (w1c_regs.writel_relaxed (BIT (find_first_bit val 32)) hw i) i) =
          (val ^^^ (val &&& BIT (find_first_bit val 32)),
            Function.update hw i (val ^^^ (val &&& BIT (find_first_bit val 32)))) := by
        simp [w1c_regs, hval]
      have hmod : (val ^^^ (val &&& BIT (find_first_bit val 32))) % 4294967296 =
          val ^^^ (val &&& BIT (find_first_bit val 32)) := Nat.mod_eq_of_lt hlt
      obtain ⟨evs, hrun, hdisp⟩ := ih (val ^^^ (val &&& BIT (find_first_bit val 32)))
        (Function.update hw i (val ^^^ (val &&& BIT (find_first_bit val 32))))
        (by simp) hlt (by rw [hsb] at hlen; simpa using hlen)
      refine ⟨msi_event.writel (BIT (find_first_bit val 32)) i ::
          msi_event.generic_handle_irq (irq_find_mapping dev (find_first_bit val 32 + 32 * i)) ::
          msi_event.readl i (val ^^^ (val &&& BIT (find_first_bit val 32))) :: evs, ?_, ?_⟩
      · simp only [handle_msi_irq_while, if_neg hz, hread, hmod, hrun, Function.update_idem]
      · rw [hsb]
        simp [dispatched, hdisp]

theorem dispatched_append (a b : List msi_event) :
    dispatched (a ++ b) = dispatched a ++ dispatched b := by
  induction a with
  | nil => rfl
  | cons e t ih => cases e <;> simp [dispatched, ih]

/-- The `for` loop over `n` banks from bank `i` on write-1-to-clear registers
without arrivals. -/
theorem handle_msi_irq_for_w1c (dev : msm_pcie_dev_t) (fuel : Nat) (hfuel : 33 ≤ fuel)
    (n : Nat) :
    ∀ (i : Nat) (hw : Nat → Nat), (∀ b, i ≤ b → b < i + n → hw b < 2 ^ 32) →
      ∃ evs, handle_msi_irq_for w1c_regs dev fuel n i hw =
          some ((fun b => if i ≤ b ∧ b < i + n then 0 else hw b), evs) ∧
        dispatched evs = (List.range' i n).flatMap fun b =>
          (set_bits (hw b)).map fun j => irq_find_mapping dev (j + 32 * b) := by
  induction n with
  | zero =>
    intro i hw _
    refine ⟨[], ?_, by simp [dispatched]⟩
    simp only [handle_msi_irq_for]
    congr 2
    funext b
    have : ¬ (i ≤ b ∧ b < i) := by omega
    simp [this]
  | succ n ih =>
    intro i hw h32
    have hi32 : hw i < 2 ^ 32 := h32 i le_rfl (by omega)
    obtain ⟨evs1, hrun1, hdisp1⟩ := handle_msi_irq_while_w1c dev i fuel (hw i) hw rfl hi32
      (lt_of_le_of_lt (set_bits_length (hw i)) (by omega))
    obtain ⟨evs2, hrun2, hdisp2⟩ := ih (i + 1) (Function.update hw i 0) (by
      intro b hb1 hb2
      rw [Function.update_noteq (by omega)]
      exact h32 b (by omega) (by omega))
    refine ⟨msi_event.readl i (hw i) :: evs1 ++ evs2, ?_, ?_⟩
    · have hread : w1c_regs.readl_relaxed hw i = (hw i, hw) := rfl
      have hmod : hw i % 4294967296 = hw i := Nat.mod_eq_of_lt hi32
      simp only [handle_msi_irq_for, hread, hmod, hrun1, hrun2]
      congr 3
      funext b
      by_cases hb : b = i
      · subst hb; simp
      · have e : (i ≤ b ∧ b < i + (n + 1)) ↔ (i + 1 ≤ b ∧ b < i + 1 + n) := by omega
        simp [Function.update_noteq hb, e]
    · show dispatched (evs1 ++ evs2) = _
      rw [dispatched_append, hdisp1, hdisp2, List.range'_succ, List.flatMap_cons]
      congr 1
      apply List.flatMap_congr
      intro b hb
      have : i + 1 ≤ b := (List.mem_range'_1.1 hb).1
      rw [Function.update_noteq (by omega)]

theorem set_bits_mem (val j : Nat) : j ∈ set_bits val ↔ j < 32 ∧ val.testBit j = true := by
  simp [set_bits]

theorem pending_slots_mem (hw : Nat → Nat) (s : Nat) :
    s ∈ pending_slots hw ↔
      ∃ i j, i < PCIE20_MSI_CTRL_MAX ∧ j < 32 ∧ (hw i).testBit j = true ∧ s = j + 32 * i := by
  unfold pending_slots
  simp only [List.mem_flatMap, List.mem_range, List.mem_map, set_bits_mem]
  constructor
  · rintro ⟨i, hi, j, ⟨hj, hb⟩, rfl⟩
    exact ⟨i, j, hi, hj, hb, rfl⟩
  · rintro ⟨i, j, hi, hj, hb, rfl⟩
    exact ⟨i, hi, j, ⟨hj, hb⟩, rfl⟩

theorem pending_slots_sorted (hw : Nat → Nat) :
    (pending_slots hw).Pairwise (fun a b => a < b) := by
  unfold pending_slots
  rw [List.pairwise_flatMap]
  constructor
  · intro i _
    rw [List.pairwise_map]
    unfold set_bits
    apply List.Pairwise.filter
    exact (List.pairwise_lt_range 32).imp (fun h => by omega)
  · refine (List.pairwise_lt_range PCIE20_MSI_CTRL_MAX).imp ?_
    intro a b hab x hx y hy
    simp only [List.mem_map, set_bits_mem] at hx hy
    obtain ⟨j1, ⟨hj1, _⟩, rfl⟩ := hx
    obtain ⟨j2, ⟨_, _⟩, rfl⟩ := hy
    omega

/-- C8: on write-1-to-clear status registers of 32 bits with no new bit arriving,
`handle_msi_irq` ends (33 evaluations of the loop condition per bank are
enough), leaves each of the 8 status words zero, and the interrupts it
dispatches are, in this order, the mappings of the pending slots
`bit + 32 * bank`: the list `pending_slots`, which is strictly ascending (so
each slot occurs once, banks in ascending order and bits in ascending order
within a bank) and holds exactly the slots whose status bit was set. -/
theorem handle_msi_irq_w1c_scan (dev : msm_pcie_dev_t) (hw : Nat → Nat) (fuel : Nat)
    (h32 : ∀ i, i < PCIE20_MSI_CTRL_MAX → hw i < 2 ^ 32) (hfuel : 33 ≤ fuel) :
    ∃ hw1 evs, handle_msi_irq w1c_regs dev fuel hw = some (hw1, evs) ∧
      (∀ i, i < PCIE20_MSI_CTRL_MAX → hw1 i = 0) ∧
      (∀ i, PCIE20_MSI_CTRL_MAX ≤ i → hw1 i = hw i) ∧
      dispatched evs = (pending_slots hw).map (irq_find_mapping dev) ∧
      (pending_slots hw).Pairwise (fun a b => a < b) ∧
      (∀ s, s ∈ pending_slots hw ↔
        ∃ i j, i < PCIE20_MSI_CTRL_MAX ∧ j < 32 ∧ (hw i).testBit j = true ∧ s = j + 32 * i) := by
  obtain ⟨evs, hrun, hdisp⟩ := handle_msi_irq_for_w1c dev fuel hfuel PCIE20_MSI_CTRL_MAX 0 hw
    (fun b _ hb => h32 b (by omega))
  refine ⟨_, evs, hrun, ?_, ?_, ?_, pending_slots_sorted hw, pending_slots_mem hw⟩
  · intro i hi
    have : 0 ≤ i ∧ i < 0 + PCIE20_MSI_CTRL_MAX := by omega
    exact if_pos this
  · intro i hi
    have : ¬ (0 ≤ i ∧ i < 0 + PCIE20_MSI_CTRL_MAX) := by omega
    exact if_neg this
  · rw [hdisp, pending_slots, List.map_flatMap, List.range_eq_range']
    apply List.flatMap_congr
    intro b _
    simp [List.map_map, Function.comp_def]

/-- C8 on the status words with bits 3, 9 and 31 of bank 0 set: the interrupts
dispatched are those of slots 3, 9 and 31, in this order (the example device
maps slot `p` to interrupt `500 + p`). -/
theorem handle_msi_irq_w1c_scan_witness :
    (∀ i, i < PCIE20_MSI_CTRL_MAX → hw_3_9_31 i < 2 ^ 32) ∧ 33 ≤ 33 ∧
    ∃ hw1 evs, handle_msi_irq w1c_regs dev_init 33 hw_3_9_31 = some (hw1, evs) ∧
      (∀ i, i < PCIE20_MSI_CTRL_MAX → hw1 i = 0) ∧
      dispatched evs = [503, 509, 531] := by
  have h32 : ∀ i, i < PCIE20_MSI_CTRL_MAX → hw_3_9_31 i < 2 ^ 32 := by
    intro i _
    unfold hw_3_9_31
    split <;> norm_num
  obtain ⟨hw1, evs, hrun, hzero, _, hdisp, _, _⟩ :=
    handle_msi_irq_w1c_scan dev_init hw_3_9_31 33 h32 (le_refl 33)
  refine ⟨h32, le_refl 33, hw1, evs, hrun, hzero, ?_⟩
  rw [hdisp]
  decide

/-! ## The link-down interrupt -/

/-- C9 as stated fails at the initial state: a link-down interrupt taken while
the link is disabled and no flag is set does change the state, both
`linkdown_counter` and `handling_linkdown` go from 0 to 1. -/
theorem linkdown_irq_counts_while_disabled :
    dev_init.link_status = MSM_PCIE_LINK_DISABLED ∧
    (handle_linkdown_irq dev_init).1.linkdown_counter = 1 ∧
    (handle_linkdown_irq dev_init).1.handling_linkdown = 1 ∧
    ¬ ((handle_linkdown_irq dev_init).1.link_status = dev_init.link_status ∧
       (handle_linkdown_irq dev_init).1.shadow_en = dev_init.shadow_en ∧
       (handle_linkdown_irq dev_init).1.suspending = dev_init.suspending ∧
       (handle_linkdown_irq dev_init).1.user_suspend = dev_init.user_suspend ∧
       (handle_linkdown_irq dev_init).1.recovery_pending = dev_init.recovery_pending ∧
       (handle_linkdown_irq dev_init).1.linkdown_counter = dev_init.linkdown_counter ∧
       (handle_linkdown_irq dev_init).1.handling_linkdown = dev_init.handling_linkdown ∧
       (handle_linkdown_irq dev_init).2 = []) := by
  refine ⟨rfl, rfl, rfl, ?_⟩
  intro h
  exact absurd h.2.2.2.2.2.1 (by decide)

/-- C9 as amended: a link-down interrupt taken while `link_status` is Disabled,
whatever the flags, leaves `link_status`, `shadow_en`, the flags and every
other field as they were and makes no call (no deferred link-down work is
scheduled, the reset line is not driven); only `linkdown_counter` and
`handling_linkdown` change, each incremented by 1. -/
theorem handle_linkdown_irq_disabled (dev : msm_pcie_dev_t)
    (h : dev.link_status = MSM_PCIE_LINK_DISABLED) :
    (handle_linkdown_irq dev).1 =
      { dev with
        linkdown_counter := dev.linkdown_counter + 1
        handling_linkdown := dev.handling_linkdown + 1 } ∧
    (handle_linkdown_irq dev).2 = [] ∧
    (handle_linkdown_irq dev).1.link_status = dev.link_status ∧
    (handle_linkdown_irq dev).1.shadow_en = dev.shadow_en ∧
    (handle_linkdown_irq dev).1.suspending = dev.suspending ∧
    (handle_linkdown_irq dev).1.user_suspend = dev.user_suspend ∧
    (handle_linkdown_irq dev).1.recovery_pending = dev.recovery_pending ∧
    (handle_linkdown_irq dev).1.linkdown_counter = dev.linkdown_counter + 1 ∧
    (handle_linkdown_irq dev).1.handling_linkdown = dev.handling_linkdown + 1 := by
  have e : handle_linkdown_irq dev =
      ({ dev with
          linkdown_counter := dev.linkdown_counter + 1
          handling_linkdown := dev.handling_linkdown + 1 }, []) := by
    simp [handle_linkdown_irq, h]
  rw [e]
  exact ⟨rfl, rfl, rfl, rfl, rfl, rfl, rfl, rfl, rfl⟩

/-- C9 as amended, at the initial state. -/
theorem handle_linkdown_irq_disabled_witness :
    dev_init.link_status = MSM_PCIE_LINK_DISABLED ∧
    (handle_linkdown_irq dev_init).2 = [] ∧
    (handle_linkdown_irq dev_init).1.link_status = MSM_PCIE_LINK_DISABLED ∧
    (handle_linkdown_irq dev_init).1.linkdown_counter = dev_init.linkdown_counter + 1 ∧
    (handle_linkdown_irq dev_init).1.handling_linkdown = dev_init.handling_linkdown + 1 :=
  ⟨rfl, (handle_linkdown_irq_disabled dev_init rfl).2.1,
    (handle_linkdown_irq_disabled dev_init rfl).2.2.1,
    (handle_linkdown_irq_disabled dev_init rfl).2.2.2.2.2.2.2.1,
    (handle_linkdown_irq_disabled dev_init rfl).2.2.2.2.2.2.2.2⟩

/-- C10 as stated fails on a device whose link is enabled and not suspending
but which is not enumerated: the link stays enabled, the reset line is not
driven and no work is scheduled. -/
theorem handle_linkdown_irq_not_enumerated :
    dev_enabled_early.link_status = MSM_PCIE_LINK_ENABLED ∧
    dev_enabled_early.suspending = false ∧
    (handle_linkdown_irq dev_enabled_early).1.link_status = MSM_PCIE_LINK_ENABLED ∧
    (handle_linkdown_irq dev_enabled_early).2 = [] ∧
    ¬ ((handle_linkdown_irq dev_enabled_early).1.link_status = MSM_PCIE_LINK_DISABLED ∧
       (handle_linkdown_irq dev_enabled_early).2.count
          ext_call.schedule_handle_linkdown_work = 1) := by
  refine ⟨rfl, rfl, rfl, rfl, ?_⟩
  intro h
  exact absurd h.1 (by decide)

/-- C10 as amended: for every enumerated device with `link_status` Enabled and
`suspending` false, `handle_linkdown_irq` sets `link_status` to Disabled and
`shadow_en` to false, increments `linkdown_counter` and `handling_linkdown` by 1
each, leaves every other field as it was, drives the reset line to its
asserted value, and schedules the deferred link-down work exactly once. -/
theorem handle_linkdown_irq_enabled (dev : msm_pcie_dev_t)
    (henum : dev.enumerated = true) (hlink : dev.link_status = MSM_PCIE_LINK_ENABLED)
    (hsusp : dev.suspending = false) :
    (handle_linkdown_irq dev).1 =
      { dev with
        linkdown_counter := dev.linkdown_counter + 1
        handling_linkdown := dev.handling_linkdown + 1
        link_status := MSM_PCIE_LINK_DISABLED
        shadow_en := false } ∧
    (handle_linkdown_irq dev).2 =
      [ext_call.gpio_set_value dev.gpio_perst_num dev.gpio_perst_on,
       ext_call.PCIE_ERR pcie_err_msg.link_is_down,
       ext_call.schedule_handle_linkdown_work] ∧
    (handle_linkdown_irq dev).1.link_status = MSM_PCIE_LINK_DISABLED ∧
    (handle_linkdown_irq dev).1.shadow_en = false ∧
    (handle_linkdown_irq dev).1.linkdown_counter = dev.linkdown_counter + 1 ∧
    (handle_linkdown_irq dev).1.handling_linkdown = dev.handling_linkdown + 1 ∧
    (handle_linkdown_irq dev).2.count ext_call.schedule_handle_linkdown_work = 1 ∧
    (handle_linkdown_irq dev).2.count
      (ext_call.gpio_set_value dev.gpio_perst_num dev.gpio_perst_on) = 1 := by
  have e : handle_linkdown_irq dev =
      ({ dev with
          linkdown_counter := dev.linkdown_counter + 1
          handling_linkdown := dev.handling_linkdown + 1
          link_status := MSM_PCIE_LINK_DISABLED
          shadow_en := false },
       [ext_call.gpio_set_value dev.gpio_perst_num dev.gpio_perst_on,
        ext_call.PCIE_ERR pcie_err_msg.link_is_down,
        ext_call.schedule_handle_linkdown_work]) := by
    simp [handle_linkdown_irq, henum, hlink, hsusp]
  rw [e]
  refine ⟨rfl, rfl, rfl, rfl, rfl, rfl, ?_, ?_⟩
  · simp [List.count_cons]
  · simp [List.count_cons]

/-- C10 as amended, at an enumerated device with the link enabled. -/
theorem handle_linkdown_irq_enabled_witness :
    dev_enabled.enumerated = true ∧ dev_enabled.link_status = MSM_PCIE_LINK_ENABLED ∧
    dev_enabled.suspending = false ∧
    (handle_linkdown_irq dev_enabled).1.link_status = MSM_PCIE_LINK_DISABLED ∧
    (handle_linkdown_irq dev_enabled).1.shadow_en = false ∧
    (handle_linkdown_irq dev_enabled).1.linkdown_counter = dev_enabled.linkdown_counter + 1 ∧
    (handle_linkdown_irq dev_enabled).1.handling_linkdown =
      dev_enabled.handling_linkdown + 1 ∧
    (handle_linkdown_irq dev_enabled).2.count ext_call.schedule_handle_linkdown_work = 1 ∧
    (handle_linkdown_irq dev_enabled).2.count
      (ext_call.gpio_set_value dev_enabled.gpio_perst_num dev_enabled.gpio_perst_on) = 1 :=
  ⟨rfl, rfl, rfl, (handle_linkdown_irq_enabled dev_enabled rfl rfl rfl).2.2⟩

/-! ## The link-down notification protocol -/

open msm_pcie_event msm_pcie_config pm_flag

theorem event_callback_some (env : pcie_env) (event : msm_pcie_event)
    (reg : msm_pcie_register_event)
    (cb : msm_pcie_notify → msm_pcie_dev_t → msm_pcie_dev_t)
    (hreg : env.event_reg = some reg) (hcb : reg.callback = some cb)
    (hev : event ∈ reg.events) : event_callback env event = some (reg, cb) := by
  simp [event_callback, hreg, hcb, hev]

theorem event_callback_none_of_not_mem (env : pcie_env) (event : msm_pcie_event)
    (reg : msm_pcie_register_event) (hreg : env.event_reg = some reg)
    (hev : event ∉ reg.events) : event_callback env event = none := by
  simp only [event_callback, hreg]
  cases reg.callback <;> simp [hev]

theorem event_callback_eq_some_iff (env : pcie_env) (event : msm_pcie_event)
    (reg : msm_pcie_register_event)
    (cb : msm_pcie_notify → msm_pcie_dev_t → msm_pcie_dev_t) :
    event_callback env event = some (reg, cb) ↔
      env.event_reg = some reg ∧ reg.callback = some cb ∧ event ∈ reg.events := by
  constructor
  · intro h
    unfold event_callback at h
    cases hreg : env.event_reg with
    | none => simp [hreg] at h
    | some reg1 =>
      simp only [hreg] at h
      cases hcb : reg1.callback with
      | none => simp [hcb] at h
      | some cb1 =>
        simp only [hcb] at h
        by_cases hev : event ∈ reg1.events
        · simp only [if_pos hev, Option.some.injEq, Prod.mk.injEq] at h
          obtain ⟨h1, h2⟩ := h
          subst h1; subst h2
          exact ⟨rfl, hcb, hev⟩
        · simp [if_neg hev] at h
  · rintro ⟨hreg, hcb, hev⟩
    exact event_callback_some env event reg cb hreg hcb hev

/-- C11: with a subscriber registered for LinkDown, without the
client-owns-recovery option, whose callback leaves `link_status` Enabled,
`msm_pcie_notify_linkdown` delivers LinkDown, clears `recovery_pending`,
resynchronises the shadow for the root complex and then for the endpoint and
sets `shadow_en`; it does not call the power-down primitive; and it delivers
LinkUp, last, if and only if the subscription includes LinkUp.  The device
afterwards is the device so prepared (`recovery_pending` false, `shadow_en`
true), handed to the LinkUp callback when that one runs. -/
theorem msm_pcie_notify_linkdown_client_recovers (env : pcie_env) (dev : msm_pcie_dev_t)
    (reg : msm_pcie_register_event)
    (cb : msm_pcie_notify → msm_pcie_dev_t → msm_pcie_dev_t)
    (hreg : env.event_reg = some reg) (hcb : reg.callback = some cb)
    (hdown : MSM_PCIE_EVENT_LINKDOWN ∈ reg.events)
    (hopt : MSM_PCIE_CONFIG_NO_RECOVERY ∉ reg.options)
    (hen : (cb { event := MSM_PCIE_EVENT_LINKDOWN, user := reg.user } dev).link_status =
      MSM_PCIE_LINK_ENABLED) :
    (MSM_PCIE_EVENT_LINKUP ∈ reg.events →
      msm_pcie_notify_linkdown env dev =
        (cb { event := MSM_PCIE_EVENT_LINKUP, user := reg.user }
            { cb { event := MSM_PCIE_EVENT_LINKDOWN, user := reg.user } dev with
              recovery_pending := false
              shadow_en := true },
          [ext_call.callback MSM_PCIE_EVENT_LINKDOWN reg.user,
           ext_call.msm_pcie_cfg_recover true, ext_call.msm_pcie_cfg_recover false,
           ext_call.callback MSM_PCIE_EVENT_LINKUP reg.user])) ∧
    (MSM_PCIE_EVENT_LINKUP ∉ reg.events →
      msm_pcie_notify_linkdown env dev =
        ({ cb { event := MSM_PCIE_EVENT_LINKDOWN, user := reg.user } dev with
            recovery_pending := false
            shadow_en := true },
          [ext_call.callback MSM_PCIE_EVENT_LINKDOWN reg.user,
           ext_call.msm_pcie_cfg_recover true, ext_call.msm_pcie_cfg_recover false]) ∧
      (msm_pcie_notify_linkdown env dev).1.recovery_pending = false ∧
      (msm_pcie_notify_linkdown env dev).1.shadow_en = true) ∧
    (∀ flags, ext_call.msm_pcie_disable flags ∉ (msm_pcie_notify_linkdown env dev).2) ∧
    ((∃ user, ext_call.callback MSM_PCIE_EVENT_LINKUP user ∈
        (msm_pcie_notify_linkdown env dev).2) ↔ MSM_PCIE_EVENT_LINKUP ∈ reg.events) := by
  have hd := event_callback_some env MSM_PCIE_EVENT_LINKDOWN reg cb hreg hcb hdown
  have hne : ¬ (cb { event := MSM_PCIE_EVENT_LINKDOWN, user := reg.user } dev).link_status =
      MSM_PCIE_LINK_DISABLED := by rw [hen]; decide
  by_cases hup : MSM_PCIE_EVENT_LINKUP ∈ reg.events
  · have hu := event_callback_some env MSM_PCIE_EVENT_LINKUP reg cb hreg hcb hup
    have e : msm_pcie_notify_linkdown env dev =
        (cb { event := MSM_PCIE_EVENT_LINKUP, user := reg.user }
            { cb { event := MSM_PCIE_EVENT_LINKDOWN, user := reg.user } dev with
              recovery_pending := false
              shadow_en := true },
          [ext_call.callback MSM_PCIE_EVENT_LINKDOWN reg.user,
           ext_call.msm_pcie_cfg_recover true, ext_call.msm_pcie_cfg_recover false,
           ext_call.callback MSM_PCIE_EVENT_LINKUP reg.user]) := by
      simp [msm_pcie_notify_linkdown, hd, hu, hopt, hne, hen]
    refine ⟨fun _ => e, fun h => absurd hup h, ?_, ?_⟩
    · intro flags; rw [e]; simp
    · rw [e]; simp [hup]
  · have hu := event_callback_none_of_not_mem env MSM_PCIE_EVENT_LINKUP reg hreg hup
    have e : msm_pcie_notify_linkdown env dev =
        ({ cb { event := MSM_PCIE_EVENT_LINKDOWN, user := reg.user } dev with
            recovery_pending := false
            shadow_en := true },
          [ext_call.callback MSM_PCIE_EVENT_LINKDOWN reg.user,
           ext_call.msm_pcie_cfg_recover true, ext_call.msm_pcie_cfg_recover false]) := by
      simp [msm_pcie_notify_linkdown, hd, hu, hopt, hne, hen]
    refine ⟨fun h => absurd h hup, fun _ => ⟨e, by rw [e], by rw [e]⟩, ?_, ?_⟩
    · intro flags; rw [e]; simp
    · rw [e]; simp [hup]

/-- C11 with the callback that brings the link up, registered for all events:
LinkDown, the two resynchronisations and LinkUp, in this order. -/
theorem msm_pcie_notify_linkdown_client_recovers_witness :
    (env_example (some (reg_example cb_resume [])) 0).event_reg =
      some (reg_example cb_resume []) ∧
    (reg_example cb_resume []).callback = some cb_resume ∧
    MSM_PCIE_EVENT_LINKDOWN ∈ (reg_example cb_resume []).events ∧
    MSM_PCIE_CONFIG_NO_RECOVERY ∉ (reg_example cb_resume []).options ∧
    (cb_resume { event := MSM_PCIE_EVENT_LINKDOWN, user := (reg_example cb_resume []).user }
      dev_down).link_status = MSM_PCIE_LINK_ENABLED ∧
    (msm_pcie_notify_linkdown (env_example (some (reg_example cb_resume [])) 0) dev_down).2 =
      [ext_call.callback MSM_PCIE_EVENT_LINKDOWN 42,
       ext_call.msm_pcie_cfg_recover true, ext_call.msm_pcie_cfg_recover false,
       ext_call.callback MSM_PCIE_EVENT_LINKUP 42] :=
  ⟨rfl, rfl, by decide, by decide, rfl,
    congrArg Prod.snd
      ((msm_pcie_notify_linkdown_client_recovers
        (env_example (some (reg_example cb_resume [])) 0) dev_down
        (reg_example cb_resume []) cb_resume rfl rfl (by decide) (by decide) rfl).1
        (by decide))⟩

/-- C12: with a subscriber registered for LinkDown, without the
client-owns-recovery option, when `link_status` is still Disabled after the
LinkDown callback, `msm_pcie_notify_linkdown` sets `recovery_pending` and then
powers the link down by one call of `msm_pcie_disable` with the flags
`PM_EXPT | PM_PIPE_CLK | PM_CLK | PM_VREG`; the device afterwards is what that
primitive returns.  No shadow is resynchronised, `shadow_en` is not written
and no LinkUp notification is sent. -/
theorem msm_pcie_notify_linkdown_client_declines (env : pcie_env) (dev : msm_pcie_dev_t)
    (reg : msm_pcie_register_event)
    (cb : msm_pcie_notify → msm_pcie_dev_t → msm_pcie_dev_t)
    (hreg : env.event_reg = some reg) (hcb : reg.callback = some cb)
    (hdown : MSM_PCIE_EVENT_LINKDOWN ∈ reg.events)
    (hopt : MSM_PCIE_CONFIG_NO_RECOVERY ∉ reg.options)
    (hdis : (cb { event := MSM_PCIE_EVENT_LINKDOWN, user := reg.user } dev).link_status =
      MSM_PCIE_LINK_DISABLED) :
    msm_pcie_notify_linkdown env dev =
      (env.msm_pcie_disable [PM_EXPT, PM_PIPE_CLK, PM_CLK, PM_VREG]
          { cb { event := MSM_PCIE_EVENT_LINKDOWN, user := reg.user } dev with
            recovery_pending := true },
        [ext_call.callback MSM_PCIE_EVENT_LINKDOWN reg.user,
         ext_call.msm_pcie_disable [PM_EXPT, PM_PIPE_CLK, PM_CLK, PM_VREG]]) ∧
    ((msm_pcie_notify_linkdown env dev).2.filter
        (fun c => match c with
          | ext_call.msm_pcie_disable _ => true
          | _ => false)) =
      [ext_call.msm_pcie_disable [PM_EXPT, PM_PIPE_CLK, PM_CLK, PM_VREG]] ∧
    (∀ rc, ext_call.msm_pcie_cfg_recover rc ∉ (msm_pcie_notify_linkdown env dev).2) ∧
    (∀ user, ext_call.callback MSM_PCIE_EVENT_LINKUP user ∉
      (msm_pcie_notify_linkdown env dev).2) := by
  have hd := event_callback_some env MSM_PCIE_EVENT_LINKDOWN reg cb hreg hcb hdown
  have e : msm_pcie_notify_linkdown env dev =
      (env.msm_pcie_disable [PM_EXPT, PM_PIPE_CLK, PM_CLK, PM_VREG]
          { cb { event := MSM_PCIE_EVENT_LINKDOWN, user := reg.user } dev with
            recovery_pending := true },
        [ext_call.callback MSM_PCIE_EVENT_LINKDOWN reg.user,
         ext_call.msm_pcie_disable [PM_EXPT, PM_PIPE_CLK, PM_CLK, PM_VREG]]) := by
    simp [msm_pcie_notify_linkdown, hd, hopt, hdis]
  refine ⟨e, ?_, ?_, ?_⟩
  · rw [e]; rfl
  · intro rc; rw [e]; simp
  · intro user; rw [e]; simp

/-- C12 with a callback that leaves the device alone, on a device whose link
is down. -/
theorem msm_pcie_notify_linkdown_client_declines_witness :
    (env_example (some (reg_example cb_idle [])) 0).event_reg =
      some (reg_example cb_idle []) ∧
    (reg_example cb_idle []).callback = some cb_idle ∧
    MSM_PCIE_EVENT_LINKDOWN ∈ (reg_example cb_idle []).events ∧
    MSM_PCIE_CONFIG_NO_RECOVERY ∉ (reg_example cb_idle []).options ∧
    (cb_idle { event := MSM_PCIE_EVENT_LINKDOWN, user := (reg_example cb_idle []).user }
      dev_down).link_status = MSM_PCIE_LINK_DISABLED ∧
    (msm_pcie_notify_linkdown (env_example (some (reg_example cb_idle [])) 0) dev_down).2 =
      [ext_call.callback MSM_PCIE_EVENT_LINKDOWN 42,
       ext_call.msm_pcie_disable [PM_EXPT, PM_PIPE_CLK, PM_CLK, PM_VREG]] ∧
    (msm_pcie_notify_linkdown (env_example (some (reg_example cb_idle [])) 0)
      dev_down).1.recovery_pending = true :=
  ⟨rfl, rfl, by decide, by decide, rfl,
    congrArg Prod.snd
      (msm_pcie_notify_linkdown_client_declines
        (env_example (some (reg_example cb_idle [])) 0) dev_down
        (reg_example cb_idle []) cb_idle rfl rfl (by decide) (by decide) rfl).1,
    rfl⟩

/-- C13: when the subscription has the option `MSM_PCIE_CONFIG_NO_RECOVERY`,
`msm_pcie_notify_linkdown` delivers the LinkDown callback, sets `user_suspend`
and stops: the device afterwards is what the callback left, with `user_suspend`
set, whatever `link_status` is then; `recovery_pending` and `shadow_en` are not
written, the power-down primitive is not called, no shadow is resynchronised
and no LinkUp notification is sent. -/
theorem msm_pcie_notify_linkdown_no_recovery (env : pcie_env) (dev : msm_pcie_dev_t)
    (reg : msm_pcie_register_event)
    (cb : msm_pcie_notify → msm_pcie_dev_t → msm_pcie_dev_t)
    (hreg : env.event_reg = some reg) (hcb : reg.callback = some cb)
    (hdown : MSM_PCIE_EVENT_LINKDOWN ∈ reg.events)
    (hopt : MSM_PCIE_CONFIG_NO_RECOVERY ∈ reg.options) :
    msm_pcie_notify_linkdown env dev =
      ({ cb { event := MSM_PCIE_EVENT_LINKDOWN, user := reg.user } dev with
          user_suspend := true },
        [ext_call.callback MSM_PCIE_EVENT_LINKDOWN reg.user]) ∧
    (msm_pcie_notify_linkdown env dev).1.user_suspend = true ∧
    (msm_pcie_notify_linkdown env dev).1.link_status =
      (cb { event := MSM_PCIE_EVENT_LINKDOWN, user := reg.user } dev).link_status ∧
    (msm_pcie_notify_linkdown env dev).1.recovery_pending =
      (cb { event := MSM_PCIE_EVENT_LINKDOWN, user := reg.user } dev).recovery_pending ∧
    (msm_pcie_notify_linkdown env dev).1.shadow_en =
      (cb { event := MSM_PCIE_EVENT_LINKDOWN, user := reg.user } dev).shadow_en ∧
    (∀ flags, ext_call.msm_pcie_disable flags ∉ (msm_pcie_notify_linkdown env dev).2) ∧
    (∀ rc, ext_call.msm_pcie_cfg_recover rc ∉ (msm_pcie_notify_linkdown env dev).2) ∧
    (∀ user, ext_call.callback MSM_PCIE_EVENT_LINKUP user ∉
      (msm_pcie_notify_linkdown env dev).2) := by
  have hd := event_callback_some env MSM_PCIE_EVENT_LINKDOWN reg cb hreg hcb hdown
  have e : msm_pcie_notify_linkdown env dev =
      ({ cb { event := MSM_PCIE_EVENT_LINKDOWN, user := reg.user } dev with
          user_suspend := true },
        [ext_call.callback MSM_PCIE_EVENT_LINKDOWN reg.user]) := by
    simp [msm_pcie_notify_linkdown, hd, hopt]
  refine ⟨e, ?_, ?_, ?_, ?_, ?_, ?_, ?_⟩
  · rw [e]
  · rw [e]
  · rw [e]
  · rw [e]
  · intro flags; rw [e]; simp
  · intro rc; rw [e]; simp
  · intro user; rw [e]; simp

/-- C13 with the callback that brings the link up and with the one that leaves
the device alone, both registered with the option: one LinkDown callback and
nothing else in either case. -/
theorem msm_pcie_notify_linkdown_no_recovery_witness :
    (env_example (some (reg_example cb_resume [MSM_PCIE_CONFIG_NO_RECOVERY])) 0).event_reg =
      some (reg_example cb_resume [MSM_PCIE_CONFIG_NO_RECOVERY]) ∧
    MSM_PCIE_EVENT_LINKDOWN ∈ (reg_example cb_resume [MSM_PCIE_CONFIG_NO_RECOVERY]).events ∧
    MSM_PCIE_CONFIG_NO_RECOVERY ∈ (reg_example cb_resume [MSM_PCIE_CONFIG_NO_RECOVERY]).options ∧
    (msm_pcie_notify_linkdown
      (env_example (some (reg_example cb_resume [MSM_PCIE_CONFIG_NO_RECOVERY])) 0)
      dev_down).2 = [ext_call.callback MSM_PCIE_EVENT_LINKDOWN 42] ∧
    (msm_pcie_notify_linkdown
      (env_example (some (reg_example cb_idle [MSM_PCIE_CONFIG_NO_RECOVERY])) 0)
      dev_down).2 = [ext_call.callback MSM_PCIE_EVENT_LINKDOWN 42] :=
  ⟨rfl, by decide, by decide,
    congrArg Prod.snd
      (msm_pcie_notify_linkdown_no_recovery
        (env_example (some (reg_example cb_resume [MSM_PCIE_CONFIG_NO_RECOVERY])) 0) dev_down
        (reg_example cb_resume [MSM_PCIE_CONFIG_NO_RECOVERY]) cb_resume rfl rfl
        (by decide) (by decide)).1,
    congrArg Prod.snd
      (msm_pcie_notify_linkdown_no_recovery
        (env_example (some (reg_example cb_idle [MSM_PCIE_CONFIG_NO_RECOVERY])) 0) dev_down
        (reg_example cb_idle [MSM_PCIE_CONFIG_NO_RECOVERY]) cb_idle rfl rfl
        (by decide) (by decide)).1⟩

/-! ## The deferred link-down handler and link recovery -/

/-- C14: in `handle_linkdown_func`, when the forced probe
`msm_pcie_confirm_linkup(dev, true, true)` reports the link up, no callback
fires, and `link_status`, `recovery_pending`, `user_suspend`, `shadow_en` and
every other field but the counter are as they were; in both branches the
counter `handling_linkdown` is decremented by exactly 1 on exit, from the value
it has when the probe, resp. the notification protocol, is over. -/
theorem handle_linkdown_func_probe (env : pcie_env) (dev : msm_pcie_dev_t) :
    (env.msm_pcie_confirm_linkup dev true true = true →
      (handle_linkdown_func env dev).1 =
        { dev with handling_linkdown := dev.handling_linkdown - 1 } ∧
      (∀ event user, ext_call.callback event user ∉ (handle_linkdown_func env dev).2) ∧
      (handle_linkdown_func env dev).1.link_status = dev.link_status ∧
      (handle_linkdown_func env dev).1.recovery_pending = dev.recovery_pending ∧
      (handle_linkdown_func env dev).1.user_suspend = dev.user_suspend ∧
      (handle_linkdown_func env dev).1.shadow_en = dev.shadow_en ∧
      (handle_linkdown_func env dev).1.handling_linkdown = dev.handling_linkdown - 1) ∧
    (env.msm_pcie_confirm_linkup dev true true = false →
      (handle_linkdown_func env dev).1 =
        { (msm_pcie_notify_linkdown env dev).1 with
          handling_linkdown := (msm_pcie_notify_linkdown env dev).1.handling_linkdown - 1 } ∧
      (handle_linkdown_func env dev).1.handling_linkdown =
        (msm_pcie_notify_linkdown env dev).1.handling_linkdown - 1) := by
  constructor
  · intro hup
    have e1 : (handle_linkdown_func env dev).1 =
        { dev with handling_linkdown := dev.handling_linkdown - 1 } := by
      simp [handle_linkdown_func, hup]
    refine ⟨e1, ?_, ?_, ?_, ?_, ?_, ?_⟩
    · intro event user
      simp only [handle_linkdown_func, hup, if_true, List.append_nil]
      split <;> simp
    · rw [e1]
    · rw [e1]
    · rw [e1]
    · rw [e1]
    · rw [e1]
  · intro hdown
    have e1 : (handle_linkdown_func env dev).1 =
        { (msm_pcie_notify_linkdown env dev).1 with
          handling_linkdown := (msm_pcie_notify_linkdown env dev).1.handling_linkdown - 1 } := by
      simp [handle_linkdown_func, hdown]
    exact ⟨e1, by rw [e1]⟩

/-- C14 where the probe reports the link up (link enabled) and where it reports
it down (link disabled, no registration): the counter goes from 0 to -1 in
both, and no callback fires in the first. -/
theorem handle_linkdown_func_probe_witness :
    (env_example (some (reg_example cb_idle [])) 0).msm_pcie_confirm_linkup dev_enabled
      true true = true ∧
    (handle_linkdown_func (env_example (some (reg_example cb_idle [])) 0)
      dev_enabled).1.handling_linkdown = dev_enabled.handling_linkdown - 1 ∧
    (env_example none 0).msm_pcie_confirm_linkup dev_down true true = false ∧
    (handle_linkdown_func (env_example none 0) dev_down).1.handling_linkdown =
      (msm_pcie_notify_linkdown (env_example none 0) dev_down).1.handling_linkdown - 1 :=
  ⟨rfl,
    ((handle_linkdown_func_probe (env_example (some (reg_example cb_idle [])) 0)
      dev_enabled).1 rfl).2.2.2.2.2.2,
    rfl,
    ((handle_linkdown_func_probe (env_example none 0) dev_down).2 rfl).2⟩

/-- C15: `msm_pcie_recover_link` returns the result of the enable primitive
called with `PM_PIPE_CLK | PM_CLK | PM_VREG`.  When that fails nothing else
happens: the device is what the primitive left and the primitive is the only
call.  When it succeeds the shadow is resynchronised for the root complex and
then for the endpoint and `shadow_en` is set; then the LinkUp callback is
delivered, once and last, if and only if `link_status` is Enabled and a
callback is registered for LinkUp. -/
theorem msm_pcie_recover_link_result (env : pcie_env) (dev : msm_pcie_dev_t) :
    (msm_pcie_recover_link env dev).1 =
      (env.msm_pcie_enable [PM_PIPE_CLK, PM_CLK, PM_VREG] dev).1 ∧
    ((env.msm_pcie_enable [PM_PIPE_CLK, PM_CLK, PM_VREG] dev).1 ≠ 0 →
      msm_pcie_recover_link env dev =
        ((env.msm_pcie_enable [PM_PIPE_CLK, PM_CLK, PM_VREG] dev).1,
         (env.msm_pcie_enable [PM_PIPE_CLK, PM_CLK, PM_VREG] dev).2,
         [ext_call.msm_pcie_enable [PM_PIPE_CLK, PM_CLK, PM_VREG]])) ∧
    ((env.msm_pcie_enable [PM_PIPE_CLK, PM_CLK, PM_VREG] dev).1 = 0 →
      (∀ reg cb,
        (env.msm_pcie_enable [PM_PIPE_CLK, PM_CLK, PM_VREG] dev).2.link_status =
          MSM_PCIE_LINK_ENABLED →
        env.event_reg = some reg → reg.callback = some cb →
        MSM_PCIE_EVENT_LINKUP ∈ reg.events →
        msm_pcie_recover_link env dev =
          (0,
           cb { event := MSM_PCIE_EVENT_LINKUP, user := reg.user }
             { (env.msm_pcie_enable [PM_PIPE_CLK, PM_CLK, PM_VREG] dev).2 with
               shadow_en := true },
           [ext_call.msm_pcie_enable [PM_PIPE_CLK, PM_CLK, PM_VREG],
            ext_call.msm_pcie_cfg_recover true, ext_call.msm_pcie_cfg_recover false,
            ext_call.callback MSM_PCIE_EVENT_LINKUP reg.user])) ∧
      (¬ ((env.msm_pcie_enable [PM_PIPE_CLK, PM_CLK, PM_VREG] dev).2.link_status =
            MSM_PCIE_LINK_ENABLED ∧
          ∃ reg cb, env.event_reg = some reg ∧ reg.callback = some cb ∧
            MSM_PCIE_EVENT_LINKUP ∈ reg.events) →
        msm_pcie_recover_link env dev =
          (0,
           { (env.msm_pcie_enable [PM_PIPE_CLK, PM_CLK, PM_VREG] dev).2 with
             shadow_en := true },
           [ext_call.msm_pcie_enable [PM_PIPE_CLK, PM_CLK, PM_VREG],
            ext_call.msm_pcie_cfg_recover true, ext_call.msm_pcie_cfg_recover false]))) := by
  refine ⟨?_, ?_, ?_⟩
  · unfold msm_pcie_recover_link
    simp only
    split
    · split
      · split <;> rfl
      · rfl
    · rfl
  · intro hfail
    simp [msm_pcie_recover_link, hfail]
  · intro hok
    constructor
    · intro reg cb hen hreg hcb hup
      have hu := event_callback_some env MSM_PCIE_EVENT_LINKUP reg cb hreg hcb hup
      simp [msm_pcie_recover_link, hok, hen, hu]
    · intro hnot
      by_cases hen : (env.msm_pcie_enable [PM_PIPE_CLK, PM_CLK, PM_VREG] dev).2.link_status =
          MSM_PCIE_LINK_ENABLED
      · have hnone : event_callback env MSM_PCIE_EVENT_LINKUP = none := by
          cases hc : event_callback env MSM_PCIE_EVENT_LINKUP with
          | none => rfl
          | some rc =>
            exfalso
            obtain ⟨reg, cb⟩ := rc
            have := (event_callback_eq_some_iff env MSM_PCIE_EVENT_LINKUP reg cb).1 hc
            exact hnot ⟨hen, reg, cb, this⟩
        simp [msm_pcie_recover_link, hok, hen, hnone]
      · simp [msm_pcie_recover_link, hok, hen]

/-- C15 where the enable primitive fails with -5, and where it succeeds and
brings the link up for a client registered for LinkUp. -/
theorem msm_pcie_recover_link_result_witness :
    ((env_example (some (reg_example cb_idle [])) (-5)).msm_pcie_enable
      [PM_PIPE_CLK, PM_CLK, PM_VREG] dev_recovering).1 ≠ 0 ∧
    msm_pcie_recover_link (env_example (some (reg_example cb_idle [])) (-5)) dev_recovering =
      (-5, dev_recovering, [ext_call.msm_pcie_enable [PM_PIPE_CLK, PM_CLK, PM_VREG]]) ∧
    ((env_example (some (reg_example cb_idle [])) 0).msm_pcie_enable
      [PM_PIPE_CLK, PM_CLK, PM_VREG] dev_recovering).1 = 0 ∧
    (msm_pcie_recover_link (env_example (some (reg_example cb_idle [])) 0)
      dev_recovering).2.2 =
      [ext_call.msm_pcie_enable [PM_PIPE_CLK, PM_CLK, PM_VREG],
       ext_call.msm_pcie_cfg_recover true, ext_call.msm_pcie_cfg_recover false,
       ext_call.callback MSM_PCIE_EVENT_LINKUP 42] :=
  ⟨by decide,
    (msm_pcie_recover_link_result (env_example (some (reg_example cb_idle [])) (-5))
      dev_recovering).2.1 (by decide),
    rfl,
    congrArg (fun r => r.2.2)
      (((msm_pcie_recover_link_result (env_example (some (reg_example cb_idle [])) 0)
        dev_recovering).2.2 rfl).1 (reg_example cb_idle []) cb_idle rfl rfl rfl (by decide))⟩

/-! ## The wake handler -/

theorem handle_wake_func_wait_calls (env : pcie_env) (n : Nat) :
    ∀ (waiting_cycle : Nat) (dev : msm_pcie_dev_t),
      LINKDOWN_WAITING_COUNT - waiting_cycle = n →
      ∀ c, c ∈ (handle_wake_func_wait env waiting_cycle dev).2.2 →
        c = ext_call.usleep_range LINKDOWN_WAITING_US_MIN LINKDOWN_WAITING_US_MAX := by
  induction n with
  | zero =>
    intro wc dev hn c hc
    rw [handle_wake_func_wait] at hc
    have hwc : ¬ wc < LINKDOWN_WAITING_COUNT := by omega
    by_cases hl : dev.handling_linkdown > 0 <;> simp [hl, hwc] at hc
  | succ n ih =>
    intro wc dev hn c hc
    rw [handle_wake_func_wait] at hc
    by_cases hl : dev.handling_linkdown > 0
    · by_cases hwc : wc < LINKDOWN_WAITING_COUNT
      · simp only [hl, hwc, if_true, dite_true, List.mem_cons] at hc
        rcases hc with h | h
        · exact h
        · exact ih (wc + 1) _ (by omega) c h
      · simp [hl, hwc] at hc
    · simp [hl] at hc

theorem handle_wake_func_drain_calls (env : pcie_env) (dev : msm_pcie_dev_t) :
    ∀ c, c ∈ (handle_wake_func_drain env dev).2 →
      (∃ a b, c = ext_call.usleep_range a b) ∨
        c = ext_call.PCIE_ERR pcie_err_msg.linkdown_not_finished := by
  intro c hc
  simp only [handle_wake_func_drain, List.cons_append, List.mem_cons, List.mem_append] at hc
  rcases hc with h | h | h
  · exact Or.inl ⟨_, _, h⟩
  · exact Or.inl ⟨_, _, handle_wake_func_wait_calls env _ 0 _ rfl c h⟩
  · split at h
    · simp only [List.mem_singleton] at h; exact Or.inr h
    · simp at h

theorem handle_wake_func_drain_filter (env : pcie_env) (dev : msm_pcie_dev_t)
    (f : ext_call → Bool) (hsleep : ∀ a b, f (ext_call.usleep_range a b) = false)
    (herr : f (ext_call.PCIE_ERR pcie_err_msg.linkdown_not_finished) = false) :
    (handle_wake_func_drain env dev).2.filter f = [] := by
  rw [List.filter_eq_nil_iff]
  intro c hc
  rcases handle_wake_func_drain_calls env dev c hc with ⟨a, b, h⟩ | h
  · rw [h, hsleep]; simp
  · rw [h, herr]; simp

theorem handle_wake_func_enumerated (env : pcie_env) (dev : msm_pcie_dev_t) (retries : Nat)
    (henum : dev.enumerated = true) :
    handle_wake_func env dev retries =
      ((handle_wake_func_locked env (handle_wake_func_drain env dev).1 retries).1,
       (handle_wake_func_locked env (handle_wake_func_drain env dev).1 retries).2.1,
       (handle_wake_func_drain env dev).2 ++ [ext_call.mutex_lock_recovery_lock] ++
         (handle_wake_func_locked env (handle_wake_func_drain env dev).1 retries).2.2 ++
         [ext_call.mutex_unlock_recovery_lock]) := by
  simp [handle_wake_func, henum]

theorem msm_pcie_recover_link_enable_once (env : pcie_env) (dev : msm_pcie_dev_t) :
    (msm_pcie_recover_link env dev).2.2.filter is_msm_pcie_enable =
      [ext_call.msm_pcie_enable [PM_PIPE_CLK, PM_CLK, PM_VREG]] ∧
    (msm_pcie_recover_link env dev).2.2.count ext_call.mutex_lock_recovery_lock = 0 ∧
    (msm_pcie_recover_link env dev).2.2.count ext_call.mutex_unlock_recovery_lock = 0 := by
  unfold msm_pcie_recover_link
  simp only
  split
  · split
    · split <;> exact ⟨rfl, rfl, rfl⟩
    · exact ⟨rfl, rfl, rfl⟩
  · exact ⟨rfl, rfl, rfl⟩

theorem handle_wake_func_drain_count (env : pcie_env) (dev : msm_pcie_dev_t) (c : ext_call)
    (hsleep : ∀ a b, c ≠ ext_call.usleep_range a b)
    (herr : c ≠ ext_call.PCIE_ERR pcie_err_msg.linkdown_not_finished) :
    (handle_wake_func_drain env dev).2.count c = 0 := by
  rw [List.count_eq_zero]
  intro hc
  rcases handle_wake_func_drain_calls env dev c hc with ⟨a, b, h⟩ | h
  · exact hsleep a b h
  · exact herr h

theorem handle_wake_func_locked_recovery (env : pcie_env) (dev : msm_pcie_dev_t)
    (retries : Nat) (hdis : dev.link_status = MSM_PCIE_LINK_DISABLED)
    (hpend : dev.recovery_pending = true) :
    handle_wake_func_locked env dev retries =
      if (msm_pcie_recover_link env dev).1 ≠ 0 then
        ((msm_pcie_recover_link env dev).2.1, retries + 1,
          (msm_pcie_recover_link env dev).2.2 ++
            [ext_call.PCIE_ERR (pcie_err_msg.failed_to_enable_link retries)])
      else
        ({ (msm_pcie_recover_link env dev).2.1 with recovery_pending := false }, 1,
          (msm_pcie_recover_link env dev).2.2) := by
  have hne : ¬ dev.link_status = MSM_PCIE_LINK_ENABLED := by rw [hdis]; decide
  simp only [handle_wake_func_locked, if_neg hne, hpend, if_true]

/-- In a wake taken with the link down and a recovery pending, the enable
primitive is called exactly once, and the recovery lock is taken once and
released once, last. -/
theorem handle_wake_func_recovery_calls (env : pcie_env) (dev : msm_pcie_dev_t)
    (retries : Nat) (henum : dev.enumerated = true)
    (hdis : (handle_wake_func_drain env dev).1.link_status = MSM_PCIE_LINK_DISABLED)
    (hpend : (handle_wake_func_drain env dev).1.recovery_pending = true) :
    (handle_wake_func env dev retries).2.2.filter is_msm_pcie_enable =
      [ext_call.msm_pcie_enable [PM_PIPE_CLK, PM_CLK, PM_VREG]] ∧
    (handle_wake_func env dev retries).2.2.count ext_call.mutex_lock_recovery_lock = 1 ∧
    (handle_wake_func env dev retries).2.2.count ext_call.mutex_unlock_recovery_lock = 1 ∧
    (handle_wake_func env dev retries).2.2.getLast? =
      some ext_call.mutex_unlock_recovery_lock := by
  obtain ⟨hen, hlk, hul⟩ := msm_pcie_recover_link_enable_once env (handle_wake_func_drain env dev).1
  have hf := handle_wake_func_drain_filter env dev is_msm_pcie_enable (fun _ _ => rfl) rfl
  have hc1 := handle_wake_func_drain_count env dev ext_call.mutex_lock_recovery_lock
    (fun _ _ h => by cases h) (fun h => by cases h)
  have hc2 := handle_wake_func_drain_count env dev ext_call.mutex_unlock_recovery_lock
    (fun _ _ h => by cases h) (fun h => by cases h)
  rw [handle_wake_func_enumerated env dev retries henum,
    handle_wake_func_locked_recovery env _ retries hdis hpend]
  split
  · refine ⟨?_, ?_, ?_, ?_⟩
    · simp [List.filter_append, hf, hen, is_msm_pcie_enable]
    · simp [List.count_append, hc1, hlk, List.count_cons]
    · simp [List.count_append, hc2, hul, List.count_cons]
    · exact List.getLast?_concat _
  · refine ⟨?_, ?_, ?_, ?_⟩
    · simp [List.filter_append, hf, hen, is_msm_pcie_enable]
    · simp [List.count_append, hc1, hlk, List.count_cons]
    · simp [List.count_append, hc2, hul, List.count_cons]
    · exact List.getLast?_concat _

/-- C16: in `handle_wake_func` on an enumerated controller that finds, when it
holds the recovery lock, `link_status` Disabled and `recovery_pending` set, the
enable primitive is called exactly once.  When it succeeds `recovery_pending`
is cleared (and `retries` is reset to 1).  When it fails the device is left as
the primitive left it, so `recovery_pending` stays set and `link_status` stays
Disabled when the failing primitive does not write them; the failure is
reported, `retries` is incremented and nothing else is called.  In both cases
the recovery lock is taken once and released once, as the last call; and a
subsequent wake that finds the same situation calls the enable primitive
again. -/
theorem handle_wake_func_recovery (env : pcie_env) (dev : msm_pcie_dev_t) (retries : Nat)
    (henum : dev.enumerated = true)
    (hdis : (handle_wake_func_drain env dev).1.link_status = MSM_PCIE_LINK_DISABLED)
    (hpend : (handle_wake_func_drain env dev).1.recovery_pending = true) :
    (handle_wake_func env dev retries).2.2.filter is_msm_pcie_enable =
      [ext_call.msm_pcie_enable [PM_PIPE_CLK, PM_CLK, PM_VREG]] ∧
    (handle_wake_func env dev retries).2.2.count ext_call.mutex_lock_recovery_lock = 1 ∧
    (handle_wake_func env dev retries).2.2.count ext_call.mutex_unlock_recovery_lock = 1 ∧
    (handle_wake_func env dev retries).2.2.getLast? =
      some ext_call.mutex_unlock_recovery_lock ∧
    ((env.msm_pcie_enable [PM_PIPE_CLK, PM_CLK, PM_VREG]
        (handle_wake_func_drain env dev).1).1 = 0 →
      (handle_wake_func env dev retries).1 =
        { (msm_pcie_recover_link env (handle_wake_func_drain env dev).1).2.1 with
          recovery_pending := false } ∧
      (handle_wake_func env dev retries).1.recovery_pending = false ∧
      (handle_wake_func env dev retries).2.1 = 1) ∧
    ((env.msm_pcie_enable [PM_PIPE_CLK, PM_CLK, PM_VREG]
        (handle_wake_func_drain env dev).1).1 ≠ 0 →
      handle_wake_func env dev retries =
        ((env.msm_pcie_enable [PM_PIPE_CLK, PM_CLK, PM_VREG]
            (handle_wake_func_drain env dev).1).2,
         retries + 1,
         (handle_wake_func_drain env dev).2 ++
           [ext_call.mutex_lock_recovery_lock,
            ext_call.msm_pcie_enable [PM_PIPE_CLK, PM_CLK, PM_VREG],
            ext_call.PCIE_ERR (pcie_err_msg.failed_to_enable_link retries),
            ext_call.mutex_unlock_recovery_lock]) ∧
      ((env.msm_pcie_enable [PM_PIPE_CLK, PM_CLK, PM_VREG]
            (handle_wake_func_drain env dev).1).2.recovery_pending =
          (handle_wake_func_drain env dev).1.recovery_pending →
        (handle_wake_func env dev retries).1.recovery_pending = true) ∧
      ((env.msm_pcie_enable [PM_PIPE_CLK, PM_CLK, PM_VREG]
            (handle_wake_func_drain env dev).1).2.link_status =
          (handle_wake_func_drain env dev).1.link_status →
        (handle_wake_func env dev retries).1.link_status = MSM_PCIE_LINK_DISABLED) ∧
      ∀ retries1,
        (handle_wake_func env dev retries).1.enumerated = true →
        (handle_wake_func_drain env (handle_wake_func env dev retries).1).1.link_status =
          MSM_PCIE_LINK_DISABLED →
        (handle_wake_func_drain env (handle_wake_func env dev retries).1).1.recovery_pending =
          true →
        (handle_wake_func env (handle_wake_func env dev retries).1 retries1).2.2.filter
            is_msm_pcie_enable =
          [ext_call.msm_pcie_enable [PM_PIPE_CLK, PM_CLK, PM_VREG]]) := by
  obtain ⟨h1, h2, h3, h4⟩ := handle_wake_func_recovery_calls env dev retries henum hdis hpend
  have hret := (msm_pcie_recover_link_result env (handle_wake_func_drain env dev).1)
  refine ⟨h1, h2, h3, h4, ?_, ?_⟩
  · intro hok
    have hz : ¬ (msm_pcie_recover_link env (handle_wake_func_drain env dev).1).1 ≠ 0 := by
      rw [hret.1, hok]; simp
    have e : (handle_wake_func env dev retries) = _ :=
      handle_wake_func_enumerated env dev retries henum
    rw [handle_wake_func_locked_recovery env _ retries hdis hpend, if_neg hz] at e
    rw [e]
    exact ⟨rfl, rfl, rfl⟩
  · intro hfail
    have hnz : (msm_pcie_recover_link env (handle_wake_func_drain env dev).1).1 ≠ 0 := by
      rw [hret.1]; exact hfail
    have e : (handle_wake_func env dev retries) = _ :=
      handle_wake_func_enumerated env dev retries henum
    rw [handle_wake_func_locked_recovery env _ retries hdis hpend, if_pos hnz,
      hret.2.1 hfail] at e
    have e1 : handle_wake_func env dev retries =
        ((env.msm_pcie_enable [PM_PIPE_CLK, PM_CLK, PM_VREG]
            (handle_wake_func_drain env dev).1).2,
         retries + 1,
         (handle_wake_func_drain env dev).2 ++
           [ext_call.mutex_lock_recovery_lock,
            ext_call.msm_pcie_enable [PM_PIPE_CLK, PM_CLK, PM_VREG],
            ext_call.PCIE_ERR (pcie_err_msg.failed_to_enable_link retries),
            ext_call.mutex_unlock_recovery_lock]) := by
      rw [e]; simp
    refine ⟨e1, ?_, ?_, ?_⟩
    · intro hk; rw [e1]; simp only; rw [hk, hpend]
    · intro hk; rw [e1]; simp only; rw [hk, hdis]
    · intro retries1 hen1 hdis1 hpend1
      exact (handle_wake_func_recovery_calls env _ retries1 hen1 hdis1 hpend1).1

/-- C16 on the enumerated example device with the link down and a recovery
pending: with an enable primitive that fails with -5 the wake calls it once,
reports the failure, releases the lock and leaves the device as it was, and the
next wake calls it again; with one that succeeds `recovery_pending` is
cleared. -/
theorem handle_wake_func_recovery_witness :
    dev_recovering.enumerated = true ∧
    (handle_wake_func_drain (env_example none (-5)) dev_recovering).1.link_status =
      MSM_PCIE_LINK_DISABLED ∧
    (handle_wake_func_drain (env_example none (-5)) dev_recovering).1.recovery_pending =
      true ∧
    (handle_wake_func (env_example none (-5)) dev_recovering 1).2.2.filter
        is_msm_pcie_enable = [ext_call.msm_pcie_enable [PM_PIPE_CLK, PM_CLK, PM_VREG]] ∧
    (handle_wake_func (env_example none (-5)) dev_recovering 1).2.2.getLast? =
      some ext_call.mutex_unlock_recovery_lock := by
  have hdrain : (handle_wake_func_drain (env_example none (-5)) dev_recovering).1 =
      dev_recovering := by
    simp [handle_wake_func_drain, handle_wake_func_wait, env_example, dev_recovering,
      dev_down, dev_init]
  have hdis : (handle_wake_func_drain (env_example none (-5)) dev_recovering).1.link_status =
      MSM_PCIE_LINK_DISABLED := by rw [hdrain]; rfl
  have hpend : (handle_wake_func_drain (env_example none (-5))
      dev_recovering).1.recovery_pending = true := by rw [hdrain]; rfl
  have h := handle_wake_func_recovery (env_example none (-5)) dev_recovering 1 rfl hdis hpend
  exact ⟨rfl, hdis, hpend, h.1, h.2.2.2.1⟩

/-- C17: in `handle_wake_func` on an enumerated controller that finds, when it
holds the recovery lock, `link_status` Disabled and `recovery_pending` clear:
with `user_suspend` set, the Wakeup callback is delivered, once, when a
callback is registered for Wakeup, and nothing is delivered (the lack is
reported) when none is; the handler writes no field of the device, which
afterwards is as the wait, resp. the callback, left it, and it calls neither
the enable nor the power-down primitive.  With `user_suspend` clear the wake is
ignored: no callback, no call but the lock and its release, device as the wait
left it. -/
theorem handle_wake_func_user_suspended (env : pcie_env) (dev : msm_pcie_dev_t)
    (retries : Nat) (henum : dev.enumerated = true)
    (hdis : (handle_wake_func_drain env dev).1.link_status = MSM_PCIE_LINK_DISABLED)
    (hpend : (handle_wake_func_drain env dev).1.recovery_pending = false) :
    ((handle_wake_func_drain env dev).1.user_suspend = true →
      (∀ reg cb, env.event_reg = some reg → reg.callback = some cb →
        MSM_PCIE_EVENT_WAKEUP ∈ reg.events →
        handle_wake_func env dev retries =
          (cb { event := MSM_PCIE_EVENT_WAKEUP, user := reg.user }
              (handle_wake_func_drain env dev).1,
            retries,
            (handle_wake_func_drain env dev).2 ++
              [ext_call.mutex_lock_recovery_lock,
               ext_call.callback MSM_PCIE_EVENT_WAKEUP reg.user,
               ext_call.mutex_unlock_recovery_lock]) ∧
        (handle_wake_func env dev retries).2.2.filter is_callback =
          [ext_call.callback MSM_PCIE_EVENT_WAKEUP reg.user]) ∧
      (event_callback env MSM_PCIE_EVENT_WAKEUP = none →
        handle_wake_func env dev retries =
          ((handle_wake_func_drain env dev).1, retries,
            (handle_wake_func_drain env dev).2 ++
              [ext_call.mutex_lock_recovery_lock,
               ext_call.PCIE_ERR pcie_err_msg.no_wake_callback,
               ext_call.mutex_unlock_recovery_lock]) ∧
        (handle_wake_func env dev retries).2.2.filter is_callback = []) ∧
      (handle_wake_func env dev retries).2.2.filter is_msm_pcie_enable = [] ∧
      (handle_wake_func env dev retries).2.2.filter is_msm_pcie_disable = []) ∧
    ((handle_wake_func_drain env dev).1.user_suspend = false →
      handle_wake_func env dev retries =
        ((handle_wake_func_drain env dev).1, retries,
          (handle_wake_func_drain env dev).2 ++
            [ext_call.mutex_lock_recovery_lock, ext_call.mutex_unlock_recovery_lock]) ∧
      (handle_wake_func env dev retries).2.2.filter is_callback = []) := by
  have hne : ¬ (handle_wake_func_drain env dev).1.link_status = MSM_PCIE_LINK_ENABLED := by
    rw [hdis]; decide
  have hcb := handle_wake_func_drain_filter env dev is_callback (fun _ _ => rfl) rfl
  have hen := handle_wake_func_drain_filter env dev is_msm_pcie_enable (fun _ _ => rfl) rfl
  have hdi := handle_wake_func_drain_filter env dev is_msm_pcie_disable (fun _ _ => rfl) rfl
  have e := handle_wake_func_enumerated env dev retries henum
  constructor
  · intro hus
    have hsome : ∀ reg cb, env.event_reg = some reg → reg.callback = some cb →
        MSM_PCIE_EVENT_WAKEUP ∈ reg.events →
        handle_wake_func env dev retries =
          (cb { event := MSM_PCIE_EVENT_WAKEUP, user := reg.user }
              (handle_wake_func_drain env dev).1,
            retries,
            (handle_wake_func_drain env dev).2 ++
              [ext_call.mutex_lock_recovery_lock,
               ext_call.callback MSM_PCIE_EVENT_WAKEUP reg.user,
               ext_call.mutex_unlock_recovery_lock]) := by
      intro reg cb hreg hcb1 hmem
      have hw := event_callback_some env MSM_PCIE_EVENT_WAKEUP reg cb hreg hcb1 hmem
      rw [e]
      simp [handle_wake_func_locked, hne, hpend, hus, hw]
    have hnone : event_callback env MSM_PCIE_EVENT_WAKEUP = none →
        handle_wake_func env dev retries =
          ((handle_wake_func_drain env dev).1, retries,
            (handle_wake_func_drain env dev).2 ++
              [ext_call.mutex_lock_recovery_lock,
               ext_call.PCIE_ERR pcie_err_msg.no_wake_callback,
               ext_call.mutex_unlock_recovery_lock]) := by
      intro hw
      rw [e]
      simp [handle_wake_func_locked, hne, hpend, hus, hw]
    refine ⟨?_, ?_, ?_, ?_⟩
    · intro reg cb hreg hcb1 hmem
      refine ⟨hsome reg cb hreg hcb1 hmem, ?_⟩
      rw [hsome reg cb hreg hcb1 hmem]
      simp [List.filter_append, hcb, is_callback]
    · intro hw
      refine ⟨hnone hw, ?_⟩
      rw [hnone hw]
      simp [List.filter_append, hcb, is_callback]
    · cases hw : event_callback env MSM_PCIE_EVENT_WAKEUP with
      | none =>
        rw [hnone hw]
        simp [List.filter_append, hen, is_msm_pcie_enable]
      | some rc =>
        obtain ⟨reg, cb⟩ := rc
        obtain ⟨h1, h2, h3⟩ := (event_callback_eq_some_iff env _ reg cb).1 hw
        rw [hsome reg cb h1 h2 h3]
        simp [List.filter_append, hen, is_msm_pcie_enable]
    · cases hw : event_callback env MSM_PCIE_EVENT_WAKEUP with
      | none =>
        rw [hnone hw]
        simp [List.filter_append, hdi, is_msm_pcie_disable]
      | some rc =>
        obtain ⟨reg, cb⟩ := rc
        obtain ⟨h1, h2, h3⟩ := (event_callback_eq_some_iff env _ reg cb).1 hw
        rw [hsome reg cb h1 h2 h3]
        simp [List.filter_append, hdi, is_msm_pcie_disable]
  · intro hus
    have e1 : handle_wake_func env dev retries =
        ((handle_wake_func_drain env dev).1, retries,
          (handle_wake_func_drain env dev).2 ++
            [ext_call.mutex_lock_recovery_lock, ext_call.mutex_unlock_recovery_lock]) := by
      rw [e]
      simp [handle_wake_func_locked, hne, hpend, hus]
    refine ⟨e1, ?_⟩
    rw [e1]
    simp [List.filter_append, hcb, is_callback]

/-- C17 on the enumerated example device with the link down: suspended by the
client, with a client registered for Wakeup, the one callback is the Wakeup
notification; with no flag set the wake is ignored. -/
theorem handle_wake_func_user_suspended_witness :
    dev_user_suspended.enumerated = true ∧
    (handle_wake_func_drain (env_example (some (reg_example cb_idle [])) 0)
      dev_user_suspended).1.link_status = MSM_PCIE_LINK_DISABLED ∧
    (handle_wake_func_drain (env_example (some (reg_example cb_idle [])) 0)
      dev_user_suspended).1.recovery_pending = false ∧
    (handle_wake_func_drain (env_example (some (reg_example cb_idle [])) 0)
      dev_user_suspended).1.user_suspend = true ∧
    (handle_wake_func (env_example (some (reg_example cb_idle [])) 0)
      dev_user_suspended 1).2.2.filter is_callback =
      [ext_call.callback MSM_PCIE_EVENT_WAKEUP 42] ∧
    (handle_wake_func_drain (env_example (some (reg_example cb_idle [])) 0)
      dev_down).1.user_suspend = false ∧
    (handle_wake_func (env_example (some (reg_example cb_idle [])) 0)
      dev_down 1).2.2.filter is_callback = [] := by
  have hd1 : (handle_wake_func_drain (env_example (some (reg_example cb_idle [])) 0)
      dev_user_suspended).1 = dev_user_suspended := by
    simp [handle_wake_func_drain, handle_wake_func_wait, env_example, dev_user_suspended,
      dev_down, dev_init]
  have hd2 : (handle_wake_func_drain (env_example (some (reg_example cb_idle [])) 0)
      dev_down).1 = dev_down := by
    simp [handle_wake_func_drain, handle_wake_func_wait, env_example, dev_down, dev_init]
  have h1 := handle_wake_func_user_suspended (env_example (some (reg_example cb_idle [])) 0)
    dev_user_suspended 1 rfl (by rw [hd1]; rfl) (by rw [hd1]; rfl)
  have h2 := handle_wake_func_user_suspended (env_example (some (reg_example cb_idle [])) 0)
    dev_down 1 rfl (by rw [hd2]; rfl) (by rw [hd2]; rfl)
  refine ⟨rfl, by rw [hd1]; rfl, by rw [hd1]; rfl, by rw [hd1]; rfl, ?_, by rw [hd2]; rfl, ?_⟩
  · exact ((h1.1 (by rw [hd1]; rfl)).1 (reg_example cb_idle []) cb_idle rfl rfl
      (by decide)).2
  · exact (h2.2 (by rw [hd2]; rfl)).2

/-! ## The bounded wait of the wake handler -/

/-- The wait when `handling_linkdown` stays positive through every sleep: the
loop makes all the sleeps that are left and ends with `waiting_cycle` one
above `LINKDOWN_WAITING_COUNT`. -/
theorem handle_wake_func_wait_busy (env : pcie_env)
    (hkeep : ∀ k d, 0 < d.handling_linkdown → 0 < (env.usleep_range k d).handling_linkdown)
    (n : Nat) :
    ∀ (waiting_cycle : Nat) (dev : msm_pcie_dev_t),
      LINKDOWN_WAITING_COUNT - waiting_cycle = n → waiting_cycle ≤ LINKDOWN_WAITING_COUNT →
      0 < dev.handling_linkdown →
      (handle_wake_func_wait env waiting_cycle dev).1 = LINKDOWN_WAITING_COUNT + 1 ∧
      (handle_wake_func_wait env waiting_cycle dev).2.2 =
        List.replicate (LINKDOWN_WAITING_COUNT - waiting_cycle)
          (ext_call.usleep_range LINKDOWN_WAITING_US_MIN LINKDOWN_WAITING_US_MAX) ∧
      0 < (handle_wake_func_wait env waiting_cycle dev).2.1.handling_linkdown := by
  induction n with
  | zero =>
    intro wc dev hn hle hl
    have hwc : ¬ wc < LINKDOWN_WAITING_COUNT := by omega
    have heq : wc = LINKDOWN_WAITING_COUNT := by omega
    have e : handle_wake_func_wait env wc dev = (wc + 1, dev, []) := by
      rw [handle_wake_func_wait]
      simp [hl, hwc]
    rw [e]
    refine ⟨by simp only; omega, ?_, hl⟩
    rw [hn]; rfl
  | succ n ih =>
    intro wc dev hn hle hl
    have hwc : wc < LINKDOWN_WAITING_COUNT := by omega
    obtain ⟨h1, h2, h3⟩ := ih (wc + 1) (env.usleep_range (wc + 1) dev) (by omega) (by omega)
      (hkeep _ _ hl)
    have e : handle_wake_func_wait env wc dev =
        ((handle_wake_func_wait env (wc + 1) (env.usleep_range (wc + 1) dev)).1,
         (handle_wake_func_wait env (wc + 1) (env.usleep_range (wc + 1) dev)).2.1,
         ext_call.usleep_range LINKDOWN_WAITING_US_MIN LINKDOWN_WAITING_US_MAX ::
           (handle_wake_func_wait env (wc + 1) (env.usleep_range (wc + 1) dev)).2.2) := by
      rw [handle_wake_func_wait]
      simp [hl, hwc]
    rw [e]
    refine ⟨h1, ?_, h3⟩
    simp only
    rw [h2, hn, show LINKDOWN_WAITING_COUNT - (wc + 1) = n by omega]
    rfl

/-- The wait when the handling in flight ends during the 200th long sleep. -/
theorem handle_wake_func_wait_late (n : Nat) :
    ∀ (waiting_cycle : Nat) (dev : msm_pcie_dev_t),
      LINKDOWN_WAITING_COUNT - waiting_cycle = n + 1 → dev.handling_linkdown = 1 →
      (handle_wake_func_wait env_late waiting_cycle dev).1 = LINKDOWN_WAITING_COUNT ∧
      (handle_wake_func_wait env_late waiting_cycle dev).2.1.handling_linkdown = 0 := by
  induction n with
  | zero =>
    intro wc dev hn hl
    have hwc : wc < LINKDOWN_WAITING_COUNT := by omega
    have h200 : wc + 1 = 200 := by
      have : LINKDOWN_WAITING_COUNT = 200 := rfl
      omega
    rw [handle_wake_func_wait]
    simp only [gt_iff_lt, hl, zero_lt_one, if_true, hwc, dite_true]
    have e : env_late.usleep_range (wc + 1) dev = { dev with handling_linkdown := 0 } := by
      simp [env_late, h200]
    rw [e, handle_wake_func_wait]
    simp only [gt_iff_lt, lt_self_iff_false, if_false]
    exact ⟨by have : LINKDOWN_WAITING_COUNT = 200 := rfl
              omega, trivial⟩
  | succ n ih =>
    intro wc dev hn hl
    have hwc : wc < LINKDOWN_WAITING_COUNT := by omega
    have h200 : ¬ wc + 1 = 200 := by
      have : LINKDOWN_WAITING_COUNT = 200 := rfl
      omega
    rw [handle_wake_func_wait]
    simp only [gt_iff_lt, hl, zero_lt_one, if_true, hwc, dite_true]
    have e : env_late.usleep_range (wc + 1) dev = dev := by
      simp [env_late, h200]
    rw [e]
    exact ih (wc + 1) dev (by omega) hl

/-- C18, the code at two failing inputs, on an enumerated device.  When
`handling_linkdown` is 1 and stays 1 through the whole wait, the handler makes
the short sleep and then exactly 200 long sleeps and goes on to take the
recovery lock, but it does not report the time-out: `waiting_cycle` is 201
after the loop, not `LINKDOWN_WAITING_COUNT`.  When `handling_linkdown` drops to
0 during the 200th long sleep, so that the handling is over when the wait
ends, the time-out is reported. -/
theorem handle_wake_func_timeout_report :
    (handle_wake_func_wait (env_example none 0) 0 dev_busy).1 = 201 ∧
    (handle_wake_func_drain (env_example none 0) dev_busy).2 =
      ext_call.usleep_range LINKDOWN_INIT_WAITING_US_MIN LINKDOWN_INIT_WAITING_US_MAX ::
        List.replicate 200
          (ext_call.usleep_range LINKDOWN_WAITING_US_MIN LINKDOWN_WAITING_US_MAX) ∧
    0 < (handle_wake_func_drain (env_example none 0) dev_busy).1.handling_linkdown ∧
    ext_call.PCIE_ERR pcie_err_msg.linkdown_not_finished ∉
      (handle_wake_func (env_example none 0) dev_busy 1).2.2 ∧
    ext_call.mutex_lock_recovery_lock ∈
      (handle_wake_func (env_example none 0) dev_busy 1).2.2 ∧
    (handle_wake_func_wait env_late 0 (env_late.usleep_range 0 dev_busy)).1 = 200 ∧
    (handle_wake_func_drain env_late dev_busy).1.handling_linkdown = 0 ∧
    ext_call.PCIE_ERR pcie_err_msg.linkdown_not_finished ∈
      (handle_wake_func env_late dev_busy 1).2.2 := by
  have hkeep : ∀ k d, 0 < d.handling_linkdown →
      0 < ((env_example none 0).usleep_range k d).handling_linkdown := fun _ _ h => h
  obtain ⟨b1, b2, b3⟩ := handle_wake_func_wait_busy (env_example none 0) hkeep
    LINKDOWN_WAITING_COUNT 0 dev_busy rfl (Nat.zero_le _) (by decide)
  obtain ⟨l1, l2⟩ := handle_wake_func_wait_late 199 0 dev_busy rfl rfl
  have hsleep0 : (env_example none 0).usleep_range 0 dev_busy = dev_busy := rfl
  have hsleep1 : env_late.usleep_range 0 dev_busy = dev_busy := rfl
  have hdrain : (handle_wake_func_drain (env_example none 0) dev_busy).2 =
      ext_call.usleep_range LINKDOWN_INIT_WAITING_US_MIN LINKDOWN_INIT_WAITING_US_MAX ::
        List.replicate 200
          (ext_call.usleep_range LINKDOWN_WAITING_US_MIN LINKDOWN_WAITING_US_MAX) := by
    simp only [handle_wake_func_drain, hsleep0, b1, b2]
    simp [LINKDOWN_WAITING_COUNT]
  have hdev : (handle_wake_func_drain (env_example none 0) dev_busy).1 =
      (handle_wake_func_wait (env_example none 0) 0 dev_busy).2.1 := by
    simp only [handle_wake_func_drain, hsleep0]
  have hlocked : handle_wake_func_locked (env_example none 0)
      (handle_wake_func_drain (env_example none 0) dev_busy).1 1 =
      ((handle_wake_func_drain (env_example none 0) dev_busy).1, 1, []) := by
    have hw : ∀ d, d.handling_linkdown > 0 →
        (handle_wake_func_wait (env_example none 0) 0 d).2.1 = d := by
      intro d _
      have : ∀ n wc (d : msm_pcie_dev_t), LINKDOWN_WAITING_COUNT - wc = n →
          (handle_wake_func_wait (env_example none 0) wc d).2.1 = d := by
        intro n
        induction n with
        | zero =>
          intro wc d hn
          have hwc : ¬ wc < LINKDOWN_WAITING_COUNT := by omega
          rw [handle_wake_func_wait]
          by_cases hl : d.handling_linkdown > 0 <;> simp [hl, hwc]
        | succ n ih =>
          intro wc d hn
          rw [handle_wake_func_wait]
          by_cases hl : d.handling_linkdown > 0
          · by_cases hwc : wc < LINKDOWN_WAITING_COUNT
            · simp only [hl, hwc, if_true, dite_true]
              exact ih (wc + 1) d (by omega)
            · simp [hl, hwc]
          · simp [hl]
      exact this _ 0 d rfl
    rw [hdev, hw dev_busy (by decide)]
    rfl
  refine ⟨b1, hdrain, ?_, ?_, ?_, ?_, ?_, ?_⟩
  · rw [hdev]; exact b3
  · rw [handle_wake_func_enumerated _ _ _ rfl, hlocked]
    intro h
    simp only [List.append_nil, List.mem_append, List.mem_singleton] at h
    rcases h with (h | h) | h
    · rw [hdrain] at h
      rcases List.mem_cons.1 h with h | h
      · cases h
      · cases (List.mem_replicate.1 h).2
    · cases h
    · cases h
  · rw [handle_wake_func_enumerated _ _ _ rfl]
    simp
  · rw [hsleep1]; exact l1
  · simp only [handle_wake_func_drain, hsleep1]
    exact l2
  · rw [handle_wake_func_enumerated _ _ _ rfl]
    simp only [handle_wake_func_drain, hsleep1, l1]
    simp

theorem handle_linkdown_func_probe_counter (env : pcie_env) (dev : msm_pcie_dev_t) :
    (handle_linkdown_func env dev).1.handling_linkdown =
      (if env.msm_pcie_confirm_linkup dev true true then dev
       else (msm_pcie_notify_linkdown env dev).1).handling_linkdown - 1 := by
  unfold handle_linkdown_func
  cases env.msm_pcie_confirm_linkup dev true true <;> rfl

theorem handle_linkdown_func_calls (env : pcie_env) (dev : msm_pcie_dev_t) :
    (handle_linkdown_func env dev).2 =
      [ext_call.mutex_lock_recovery_lock, ext_call.msm_pcie_confirm_linkup true true] ++
      (if env.msm_pcie_confirm_linkup dev true true then []
       else (msm_pcie_notify_linkdown env dev).2) ++
      (if (handle_linkdown_func env dev).1.handling_linkdown < 0 then
        [ext_call.PCIE_ERR (pcie_err_msg.handling_linkdown_negative
          (handle_linkdown_func env dev).1.handling_linkdown)]
       else []) ++
      [ext_call.mutex_unlock_recovery_lock] := by
  unfold handle_linkdown_func
  cases env.msm_pcie_confirm_linkup dev true true <;> rfl

theorem handle_linkdown_func_report (env : pcie_env) (dev : msm_pcie_dev_t) (v : Int)
    (h : ext_call.PCIE_ERR (pcie_err_msg.handling_linkdown_negative v) ∈
      (handle_linkdown_func env dev).2)
    (hnotify : ∀ d w, ext_call.PCIE_ERR (pcie_err_msg.handling_linkdown_negative w) ∉
      (msm_pcie_notify_linkdown env d).2) :
    (handle_linkdown_func env dev).1.handling_linkdown < 0 := by
  rw [handle_linkdown_func_calls] at h
  simp only [List.mem_append, List.mem_singleton] at h
  rcases h with ((h | h) | h) | h
  · simp at h
  · exfalso
    split at h
    · simp at h
    · exact hnotify _ _ h
  · by_contra hge
    rw [if_neg hge] at h
    simp at h
  · cases h

theorem msm_pcie_notify_linkdown_no_counter_report (env : pcie_env) (d : msm_pcie_dev_t)
    (w : Int) :
    ext_call.PCIE_ERR (pcie_err_msg.handling_linkdown_negative w) ∉
      (msm_pcie_notify_linkdown env d).2 := by
  unfold msm_pcie_notify_linkdown
  split
  · simp only
    split
    · simp
    · split
      · simp
      · split
        · split <;> simp
        · simp
  · simp

/-! ## The counter of link-down handlings in flight -/

theorem msm_pcie_notify_linkdown_keeps_counter (env : pcie_env)
    (hkeep : env_keeps_handling_linkdown env) (dev : msm_pcie_dev_t) :
    (msm_pcie_notify_linkdown env dev).1.handling_linkdown = dev.handling_linkdown := by
  obtain ⟨hdis, hcb⟩ := hkeep
  unfold msm_pcie_notify_linkdown
  cases hd : event_callback env MSM_PCIE_EVENT_LINKDOWN with
  | none => rfl
  | some rc =>
    obtain ⟨reg, cb⟩ := rc
    obtain ⟨h1, h2, _⟩ := (event_callback_eq_some_iff env _ reg cb).1 hd
    have hk := hcb reg cb h1 h2
    simp only
    split
    · simp only; exact hk _ _
    · split
      · rw [hdis]; simp only; exact hk _ _
      · split
        · cases hu : event_callback env MSM_PCIE_EVENT_LINKUP with
          | none => simp only; exact hk _ _
          | some rc1 =>
            obtain ⟨reg1, cb1⟩ := rc1
            obtain ⟨g1, g2, _⟩ := (event_callback_eq_some_iff env _ reg1 cb1).1 hu
            simp only
            rw [hcb reg1 cb1 g1 g2]
            simp only; exact hk _ _
        · simp only; exact hk _ _

theorem handle_linkdown_func_counter (env : pcie_env)
    (hkeep : env_keeps_handling_linkdown env) (dev : msm_pcie_dev_t) :
    (handle_linkdown_func env dev).1.handling_linkdown = dev.handling_linkdown - 1 := by
  have h := handle_linkdown_func_probe_counter env dev
  cases hp : env.msm_pcie_confirm_linkup dev true true with
  | true => rw [h, hp]; simp
  | false =>
    rw [h, hp]
    simp [msm_pcie_notify_linkdown_keeps_counter env hkeep dev]

theorem handle_linkdown_irq_counter (dev : msm_pcie_dev_t) :
    (handle_linkdown_irq dev).1.handling_linkdown = dev.handling_linkdown + 1 ∧
    (handle_linkdown_irq dev).2.count ext_call.schedule_handle_linkdown_work ≤ 1 := by
  unfold handle_linkdown_irq
  simp only
  split
  · exact ⟨rfl, by simp⟩
  · split
    · exact ⟨rfl, by simp⟩
    · exact ⟨rfl, by simp [List.count_cons]⟩

/-- In every step of the system the counter stays at or above the number of
pending runs of the work. -/
theorem linkdown_sys_step_inv (env : pcie_env) (hkeep : env_keeps_handling_linkdown env)
    (s s1 : linkdown_sys) (step : linkdown_step)
    (hinv : (s.pending : Int) ≤ s.dev.handling_linkdown)
    (hstep : linkdown_sys_step env s step = some s1) :
    (s1.pending : Int) ≤ s1.dev.handling_linkdown := by
  cases step with
  | irq =>
    simp only [linkdown_sys_step, Option.some.injEq] at hstep
    subst hstep
    obtain ⟨h1, h2⟩ := handle_linkdown_irq_counter s.dev
    simp only
    rw [h1]
    push_cast
    omega
  | work =>
    simp only [linkdown_sys_step] at hstep
    by_cases hp : s.pending = 0
    · simp [hp] at hstep
    · simp only [if_neg hp, Option.some.injEq] at hstep
      subst hstep
      simp only
      rw [handle_linkdown_func_counter env hkeep]
      omega
  | other f =>
    simp only [linkdown_sys_step] at hstep
    by_cases hf : (f s.dev).handling_linkdown = s.dev.handling_linkdown
    · simp only [if_pos hf, Option.some.injEq] at hstep
      subst hstep
      simp only
      rw [hf]; exact hinv
    · simp [if_neg hf] at hstep

theorem linkdown_sys_run_inv (env : pcie_env) (hkeep : env_keeps_handling_linkdown env)
    (steps : List linkdown_step) :
    ∀ (s s1 : linkdown_sys), (s.pending : Int) ≤ s.dev.handling_linkdown →
      linkdown_sys_run env steps s = some s1 →
      (s1.pending : Int) ≤ s1.dev.handling_linkdown := by
  induction steps with
  | nil =>
    intro s s1 hinv hrun
    simp only [linkdown_sys_run, Option.some.injEq] at hrun
    subst hrun; exact hinv
  | cons step steps ih =>
    intro s s1 hinv hrun
    simp only [linkdown_sys_run] at hrun
    cases hstep : linkdown_sys_step env s step with
    | none => simp [hstep] at hrun
    | some s2 =>
      simp only [hstep] at hrun
      exact ih s2 s1 (linkdown_sys_step_inv env hkeep s s2 step hinv hstep) hrun

/-- C19: in every state reached from a state with `handling_linkdown` 0 and no
work pending by link-down interrupts, runs of the deferred link-down work (each
run taking one pending schedule) and other activity that does not write the
counter, in any order, `handling_linkdown` is at least the number of pending
runs, hence never negative; and a run of the work that is pending leaves it
non-negative and does not report `handling_linkdown < 0`.  The power-down
primitive and the callback of the client are taken not to write the counter. -/
theorem handling_linkdown_never_negative (env : pcie_env)
    (hkeep : env_keeps_handling_linkdown env) (dev0 : msm_pcie_dev_t)
    (h0 : dev0.handling_linkdown = 0) (steps : List linkdown_step) (s : linkdown_sys)
    (hrun : linkdown_sys_run env steps { dev := dev0, pending := 0 } = some s) :
    0 ≤ s.dev.handling_linkdown ∧
    (s.pending : Int) ≤ s.dev.handling_linkdown ∧
    (0 < s.pending →
      0 ≤ (handle_linkdown_func env s.dev).1.handling_linkdown ∧
      ∀ v, ext_call.PCIE_ERR (pcie_err_msg.handling_linkdown_negative v) ∉
        (handle_linkdown_func env s.dev).2) := by
  have hinv := linkdown_sys_run_inv env hkeep steps { dev := dev0, pending := 0 } s
    (by simp [h0]) hrun
  have hnn : 0 ≤ s.dev.handling_linkdown := le_trans (Int.ofNat_nonneg _) hinv
  refine ⟨hnn, hinv, ?_⟩
  intro hp
  have hc := handle_linkdown_func_counter env hkeep s.dev
  have hge : 0 ≤ (handle_linkdown_func env s.dev).1.handling_linkdown := by
    rw [hc]; omega
  refine ⟨hge, ?_⟩
  intro v hv
  have := handle_linkdown_func_report env s.dev v hv
    (fun d w => msm_pcie_notify_linkdown_no_counter_report env d w)
  omega

/-- C19 on a run from the enumerated example device with the link up, with a
client that brings the link up again in its LinkDown callback: interrupt, work,
two interrupts, work. -/
theorem handling_linkdown_never_negative_witness :
    env_keeps_handling_linkdown (env_example (some (reg_example cb_resume [])) 0) ∧
    dev_enabled.handling_linkdown = 0 ∧
    ∃ s, linkdown_sys_run (env_example (some (reg_example cb_resume [])) 0)
        [linkdown_step.irq, linkdown_step.work, linkdown_step.irq, linkdown_step.irq,
         linkdown_step.work]
        { dev := dev_enabled, pending := 0 } = some s ∧
      s.dev.handling_linkdown = 1 ∧ s.pending = 0 ∧
      0 ≤ s.dev.handling_linkdown := by
  have hkeep : env_keeps_handling_linkdown (env_example (some (reg_example cb_resume [])) 0) := by
    constructor
    · intro flags d; rfl
    · intro reg cb hreg hcb n d
      have hreg1 : reg_example cb_resume [] = reg := by
        simpa [env_example] using hreg
      subst hreg1
      have hcb1 : cb_resume = cb := by simpa [reg_example] using hcb
      subst hcb1
      unfold cb_resume
      cases n.event <;> rfl
  refine ⟨hkeep, rfl, ?_⟩
  refine ⟨_, rfl, rfl, rfl, ?_⟩
  exact (handling_linkdown_never_negative (env_example (some (reg_example cb_resume [])) 0)
    hkeep dev_enabled rfl
    [linkdown_step.irq, linkdown_step.work, linkdown_step.irq, linkdown_step.irq,
     linkdown_step.work] _ rfl).1

/-! ## The order of acknowledgement and dispatch in the MSI scanner -/

/-- A scan that ends within the fuel emits the events of its trace. -/
theorem handle_msi_irq_while_trace_eq {H : Type} (io : msi_regs H) (dev : msm_pcie_dev_t)
    (i : Nat) (fuel : Nat) :
    ∀ (val : Nat) (hw hw1 : H) (evs : List msi_event),
      handle_msi_irq_while io dev i fuel val hw = some (hw1, evs) →
      handle_msi_irq_while_trace io dev i fuel val hw = (some hw1, evs) := by
  induction fuel with
  | zero => intro val hw hw1 evs h; simp [handle_msi_irq_while] at h
  | succ fuel ih =>
    intro val hw hw1 evs h
    simp only [handle_msi_irq_while] at h
    simp only [handle_msi_irq_while_trace]
    by_cases hz : val = 0
    · simp only [if_pos hz, Option.some.injEq, Prod.mk.injEq] at h
      simp only [if_pos hz]
      rw [h.1, h.2]
    · simp only [if_neg hz] at h ⊢
      cases hrec : handle_msi_irq_while io dev i fuel
          ((io.readl_relaxed (io.writel_relaxed (BIT (find_first_bit val 32)) hw i) i).1 %
            4294967296)
          (io.readl_relaxed (io.writel_relaxed (BIT (find_first_bit val 32)) hw i) i).2 with
      | none => simp [hrec] at h
      | some r =>
        obtain ⟨hw2, evs2⟩ := r
        simp only [hrec, Option.some.injEq, Prod.mk.injEq] at h
        rw [ih _ _ _ _ hrec]
        simp only
        rw [← h.1, ← h.2]

theorem handle_msi_irq_for_trace_eq {H : Type} (io : msi_regs H) (dev : msm_pcie_dev_t)
    (fuel : Nat) (n : Nat) :
    ∀ (i : Nat) (hw hw1 : H) (evs : List msi_event),
      handle_msi_irq_for io dev fuel n i hw = some (hw1, evs) →
      handle_msi_irq_for_trace io dev fuel n i hw = (some hw1, evs) := by
  induction n with
  | zero =>
    intro i hw hw1 evs h
    simp only [handle_msi_irq_for, Option.some.injEq, Prod.mk.injEq] at h
    simp only [handle_msi_irq_for_trace]
    rw [h.1, h.2]
  | succ n ih =>
    intro i hw hw1 evs h
    simp only [handle_msi_irq_for] at h
    simp only [handle_msi_irq_for_trace]
    cases hw_ : handle_msi_irq_while io dev i fuel ((io.readl_relaxed hw i).1 % 4294967296)
        (io.readl_relaxed hw i).2 with
    | none => simp [hw_] at h
    | some r =>
      obtain ⟨hw2, evs2⟩ := r
      simp only [hw_] at h
      cases hf : handle_msi_irq_for io dev fuel n (i + 1) hw2 with
      | none => simp [hf] at h
      | some r2 =>
        obtain ⟨hw3, evs3⟩ := r2
        simp only [hf, Option.some.injEq, Prod.mk.injEq] at h
        rw [handle_msi_irq_while_trace_eq io dev i fuel _ _ _ _ hw_]
        simp only
        rw [ih _ _ _ _ hf]
        simp only
        rw [← h.1, ← h.2]

theorem scan_run_append (dev : msm_pcie_dev_t) (l1 l2 : List msi_event) :
    ∀ s, scan_run dev s (l1 ++ l2) =
      (scan_run dev s l1).bind (fun s1 => scan_run dev s1 l2) := by
  induction l1 with
  | nil => intro s; rfl
  | cons e l1 ih =>
    intro s
    simp only [List.cons_append, scan_run]
    cases scan_next dev s e with
    | none => rfl
    | some s1 => exact ih s1

theorem scan_run_append_some (dev : msm_pcie_dev_t) (l1 l2 : List msi_event)
    (s sf : scan_state) (h : scan_run dev s (l1 ++ l2) = some sf) :
    ∃ s1, scan_run dev s l1 = some s1 ∧ scan_run dev s1 l2 = some sf := by
  rw [scan_run_append] at h
  cases h1 : scan_run dev s l1 with
  | none => simp [h1] at h
  | some s1 => exact ⟨s1, rfl, by simpa [h1] using h⟩

theorem scan_run_cons_some (dev : msm_pcie_dev_t) (e : msi_event) (l : List msi_event)
    (s sf : scan_state) (h : scan_run dev s (e :: l) = some sf) :
    ∃ s1, scan_next dev s e = some s1 ∧ scan_run dev s1 l = some sf := by
  simp only [scan_run] at h
  cases h1 : scan_next dev s e with
  | none => simp [h1] at h
  | some s1 => exact ⟨s1, rfl, by simpa [h1] using h⟩

theorem scan_next_readl_inv (dev : msm_pcie_dev_t) (s s2 : scan_state) (b v : Nat)
    (h : scan_next dev s (msi_event.readl b v) = some s2) :
    (s = scan_state.start b ∨ s = scan_state.dispatched b) ∧ b < PCIE20_MSI_CTRL_MAX ∧
      v < 4294967296 ∧ s2 = scan_after_read b v := by
  cases s with
  | start i =>
    simp only [scan_next] at h
    split at h
    · rename_i hc
      obtain ⟨h1, h2, h3⟩ := hc
      subst h1
      exact ⟨Or.inl rfl, h2, h3, (Option.some.inj h).symm⟩
    · cases h
  | dispatched i =>
    simp only [scan_next] at h
    split at h
    · rename_i hc
      obtain ⟨h1, h2, h3⟩ := hc
      subst h1
      exact ⟨Or.inr rfl, h2, h3, (Option.some.inj h).symm⟩
    · cases h
  | read i w => simp [scan_next] at h
  | acked i j => simp [scan_next] at h

theorem scan_next_writel_inv (dev : msm_pcie_dev_t) (s s2 : scan_state) (val b : Nat)
    (h : scan_next dev s (msi_event.writel val b) = some s2) :
    ∃ v, s = scan_state.read b v ∧ val = BIT (find_first_bit v 32) ∧
      s2 = scan_state.acked b (find_first_bit v 32) := by
  cases s with
  | read i w =>
    simp only [scan_next] at h
    split at h
    · rename_i hc
      obtain ⟨h1, h2⟩ := hc
      subst h1
      exact ⟨w, rfl, h2, (Option.some.inj h).symm⟩
    · cases h
  | start i => simp [scan_next] at h
  | dispatched i => simp [scan_next] at h
  | acked i j => simp [scan_next] at h

theorem scan_next_dispatch_inv (dev : msm_pcie_dev_t) (s s2 : scan_state) (irq : Nat)
    (h : scan_next dev s (msi_event.generic_handle_irq irq) = some s2) :
    ∃ i j, s = scan_state.acked i j ∧ irq = irq_find_mapping dev (j + 32 * i) ∧
      s2 = scan_state.dispatched i := by
  cases s with
  | acked i j =>
    simp only [scan_next] at h
    split at h
    · rename_i hc
      exact ⟨i, j, rfl, hc, (Option.some.inj h).symm⟩
    · cases h
  | start i => simp [scan_next] at h
  | dispatched i => simp [scan_next] at h
  | read i w => simp [scan_next] at h

/-- The last event before a state that is not the initial one. -/
theorem scan_run_last (dev : msm_pcie_dev_t) (l : List msi_event) (s sf : scan_state)
    (h : scan_run dev s l = some sf) (hne : sf ≠ s) :
    ∃ l0 e s1, l = l0 ++ [e] ∧ scan_run dev s l0 = some s1 ∧ scan_next dev s1 e = some sf := by
  rcases List.eq_nil_or_concat l with hl | ⟨l0, e, hl⟩
  · subst hl
    simp only [scan_run, Option.some.injEq] at h
    exact absurd h.symm hne
  · rw [List.concat_eq_append] at hl
    subst hl
    obtain ⟨s1, h1, h2⟩ := scan_run_append_some dev l0 [e] s sf h
    obtain ⟨s2, h3, h4⟩ := scan_run_cons_some dev e [] s1 sf h2
    simp only [scan_run, Option.some.injEq] at h4
    subst h4
    exact ⟨l0, e, s1, rfl, h1, h3⟩

/-- The scanner has read a non-zero word from bank `i` only right after a read
of that word. -/
theorem scan_run_to_read (dev : msm_pcie_dev_t) (l : List msi_event) (k i v : Nat)
    (h : scan_run dev (scan_state.start k) l = some (scan_state.read i v)) :
    ∃ l0, l = l0 ++ [msi_event.readl i v] ∧ v ≠ 0 ∧ v < 4294967296 ∧
      i < PCIE20_MSI_CTRL_MAX := by
  obtain ⟨l0, e, s1, hl, _, hnext⟩ := scan_run_last dev l _ _ h (by simp)
  cases e with
  | readl b w =>
    obtain ⟨_, hb, hw, hs⟩ := scan_next_readl_inv dev s1 _ b w hnext
    unfold scan_after_read at hs
    split at hs
    · cases hs
    · rename_i hw0
      simp only [scan_state.read.injEq] at hs
      obtain ⟨h1, h2⟩ := hs
      subst h1; subst h2
      exact ⟨l0, hl, hw0, hw, hb⟩
  | writel val b =>
    obtain ⟨_, _, _, hs⟩ := scan_next_writel_inv dev s1 _ val b hnext
    cases hs
  | generic_handle_irq irq =>
    obtain ⟨_, _, _, _, hs⟩ := scan_next_dispatch_inv dev s1 _ irq hnext
    cases hs

/-- The scanner has written bit `j` back to bank `i` only right after a read of
a non-zero word from that bank, of which `j` is the lowest set bit. -/
theorem scan_run_to_acked (dev : msm_pcie_dev_t) (l : List msi_event) (k i j : Nat)
    (h : scan_run dev (scan_state.start k) l = some (scan_state.acked i j)) :
    ∃ l0 v, l = l0 ++ [msi_event.readl i v, msi_event.writel (BIT j) i] ∧ v ≠ 0 ∧
      v < 4294967296 ∧ i < PCIE20_MSI_CTRL_MAX ∧ j = find_first_bit v 32 := by
  obtain ⟨l1, e, s1, hl, hrun, hnext⟩ := scan_run_last dev l _ _ h (by simp)
  cases e with
  | writel val b =>
    obtain ⟨v, hs1, hval, hs⟩ := scan_next_writel_inv dev s1 _ val b hnext
    simp only [scan_state.acked.injEq] at hs
    obtain ⟨h1, h2⟩ := hs
    subst h1
    rw [hs1] at hrun
    obtain ⟨l0, hl0, hv0, hv32, hi⟩ := scan_run_to_read dev l1 k i v hrun
    refine ⟨l0, v, ?_, hv0, hv32, hi, h2⟩
    rw [hl, hl0, hval, h2]
    simp
  | readl b w =>
    obtain ⟨_, _, _, hs⟩ := scan_next_readl_inv dev s1 _ b w hnext
    unfold scan_after_read at hs
    split at hs <;> cases hs
  | generic_handle_irq irq =>
    obtain ⟨_, _, _, _, hs⟩ := scan_next_dispatch_inv dev s1 _ irq hnext
    cases hs

/-- The events of the `while` loop keep the discipline, from the state after
the read that gave `val`; when the loop has ended the scanner stands at the
next bank. -/
theorem handle_msi_irq_while_trace_ok {H : Type} (io : msi_regs H) (dev : msm_pcie_dev_t)
    (i : Nat) (hi : i < PCIE20_MSI_CTRL_MAX) (fuel : Nat) :
    ∀ (val : Nat) (hw : H),
      ∃ s1, scan_run dev (scan_after_read i val)
          (handle_msi_irq_while_trace io dev i fuel val hw).2 = some s1 ∧
        ((handle_msi_irq_while_trace io dev i fuel val hw).1 ≠ none →
          s1 = scan_state.start (i + 1)) := by
  induction fuel with
  | zero =>
    intro val hw
    exact ⟨_, rfl, fun h => absurd rfl h⟩
  | succ fuel ih =>
    intro val hw
    simp only [handle_msi_irq_while_trace]
    by_cases hz : val = 0
    · simp only [if_pos hz]
      refine ⟨_, rfl, fun _ => ?_⟩
      simp [scan_after_read, hz]
    · simp only [if_neg hz]
      obtain ⟨s1, h1, h2⟩ := ih
        ((io.readl_relaxed (io.writel_relaxed (BIT (find_first_bit val 32)) hw i) i).1 %
          4294967296)
        (io.readl_relaxed (io.writel_relaxed (BIT (find_first_bit val 32)) hw i) i).2
      refine ⟨s1, ?_, h2⟩
      have hlt : (io.readl_relaxed (io.writel_relaxed (BIT (find_first_bit val 32)) hw i) i).1 %
          4294967296 < 4294967296 := Nat.mod_lt _ (by decide)
      simp only [scan_run, scan_after_read, if_neg hz, scan_next, true_and, and_self, if_true,
        hi, hlt]
      exact h1

/-- The events of the `for` loop keep the discipline. -/
theorem handle_msi_irq_for_trace_ok {H : Type} (io : msi_regs H) (dev : msm_pcie_dev_t)
    (fuel : Nat) (n : Nat) :
    ∀ (i : Nat) (hw : H), i + n ≤ PCIE20_MSI_CTRL_MAX →
      ∃ s1, scan_run dev (scan_state.start i)
        (handle_msi_irq_for_trace io dev fuel n i hw).2 = some s1 := by
  induction n with
  | zero => intro i hw _; exact ⟨_, rfl⟩
  | succ n ih =>
    intro i hw hin
    have hi : i < PCIE20_MSI_CTRL_MAX := by omega
    have hlt : (io.readl_relaxed hw i).1 % 4294967296 < 4294967296 :=
      Nat.mod_lt _ (by decide)
    obtain ⟨s1, h1, h2⟩ := handle_msi_irq_while_trace_ok io dev i hi fuel
      ((io.readl_relaxed hw i).1 % 4294967296) (io.readl_relaxed hw i).2
    simp only [handle_msi_irq_for_trace]
    cases ht : (handle_msi_irq_while_trace io dev i fuel
        ((io.readl_relaxed hw i).1 % 4294967296) (io.readl_relaxed hw i).2).1 with
    | none =>
      refine ⟨s1, ?_⟩
      simp only [scan_run, scan_next, true_and, hi, hlt, if_true]
      exact h1
    | some hw1 =>
      have hs1 := h2 (by rw [ht]; simp)
      obtain ⟨s2, h3⟩ := ih (i + 1) hw1 (by omega)
      refine ⟨s2, ?_⟩
      simp only [scan_run, scan_next, true_and, hi, hlt, if_true, List.append_eq]
      rw [scan_run_append, h1, hs1]
      exact h3

/-- C20: in the events of `handle_msi_irq`, over any hardware (new status bits
may arrive between reads) and whether or not the scan has ended within the
fuel: every dispatch comes right after the write of a single bit `BIT j` to a
bank `i`, itself right after a read of bank `i` whose word has `j` as its lowest
set bit; the interrupt dispatched is the mapping of slot `s = j + 32 * i`, so
`i` is `s / 32` and `j` is `s % 32`; and the event after the dispatch, if any,
is the next read of bank `i`.  Every write is of the lowest set bit of the word
just read from the same bank.  A read is followed by a read only when the word
read is zero, and then of the next bank: the loop leaves a bank only after
reading it as zero.  A scan that ends emits exactly these events. -/
theorem handle_msi_irq_ack_then_dispatch {H : Type} (io : msi_regs H)
    (dev : msm_pcie_dev_t) (fuel : Nat) (hw : H) :
    (∀ pre irq post,
      (handle_msi_irq_trace io dev fuel hw).2 =
        pre ++ msi_event.generic_handle_irq irq :: post →
      ∃ pre0 i j v,
        pre = pre0 ++ [msi_event.readl i v, msi_event.writel (BIT j) i] ∧
        i < PCIE20_MSI_CTRL_MAX ∧ j < 32 ∧ v.testBit j = true ∧
        (∀ k, k < j → v.testBit k = false) ∧
        irq = irq_find_mapping dev (j + 32 * i) ∧
        (j + 32 * i) / 32 = i ∧ (j + 32 * i) % 32 = j ∧
        (post = [] ∨ ∃ v1 post1, post = msi_event.readl i v1 :: post1)) ∧
    (∀ pre val b post,
      (handle_msi_irq_trace io dev fuel hw).2 = pre ++ msi_event.writel val b :: post →
      ∃ pre0 v,
        pre = pre0 ++ [msi_event.readl b v] ∧ v ≠ 0 ∧
        val = BIT (find_first_bit v 32) ∧ find_first_bit v 32 < 32 ∧
        v.testBit (find_first_bit v 32) = true ∧
        (∀ k, k < find_first_bit v 32 → v.testBit k = false)) ∧
    (∀ pre i v i1 v1 post,
      (handle_msi_irq_trace io dev fuel hw).2 =
        pre ++ msi_event.readl i v :: msi_event.readl i1 v1 :: post →
      v = 0 ∧ i1 = i + 1) ∧
    (∀ hw1 evs, handle_msi_irq io dev fuel hw = some (hw1, evs) →
      handle_msi_irq_trace io dev fuel hw = (some hw1, evs)) := by
  obtain ⟨sf, hok⟩ := handle_msi_irq_for_trace_ok io dev fuel PCIE20_MSI_CTRL_MAX 0 hw
    (by omega)
  have hok1 : scan_run dev (scan_state.start 0) (handle_msi_irq_trace io dev fuel hw).2 =
      some sf := hok
  refine ⟨?_, ?_, ?_, ?_⟩
  · intro pre irq post hev
    rw [hev] at hok1
    obtain ⟨s1, hpre, hrest⟩ := scan_run_append_some dev pre _ _ sf hok1
    obtain ⟨s2, hnext, hpost⟩ := scan_run_cons_some dev _ post s1 sf hrest
    obtain ⟨i, j, hs1, hirq, hs2⟩ := scan_next_dispatch_inv dev s1 s2 irq hnext
    subst hs1; subst hs2
    obtain ⟨pre0, v, hpre0, hv0, hv32, hi, hj⟩ := scan_run_to_acked dev pre 0 i j hpre
    obtain ⟨hj32, hbit, hlow⟩ := find_first_bit_spec v hv0 hv32
    refine ⟨pre0, i, j, v, hpre0, hi, ?_, ?_, ?_, hirq, ?_, ?_, ?_⟩
    · rw [hj]; exact hj32
    · rw [hj]; exact hbit
    · rw [hj]; exact hlow
    · have : j < 32 := by rw [hj]; exact hj32
      omega
    · have : j < 32 := by rw [hj]; exact hj32
      omega
    · cases post with
      | nil => exact Or.inl rfl
      | cons e post1 =>
        right
        obtain ⟨s3, hn3, _⟩ := scan_run_cons_some dev e post1 _ sf hpost
        cases e with
        | readl b w =>
          obtain ⟨hs, _, _, _⟩ := scan_next_readl_inv dev _ s3 b w hn3
          rcases hs with hs | hs
          · cases hs
          · simp only [scan_state.dispatched.injEq] at hs
            subst hs
            exact ⟨w, post1, rfl⟩
        | writel val b =>
          obtain ⟨_, hs, _, _⟩ := scan_next_writel_inv dev _ s3 val b hn3
          cases hs
        | generic_handle_irq irq1 =>
          obtain ⟨_, _, hs, _, _⟩ := scan_next_dispatch_inv dev _ s3 irq1 hn3
          cases hs
  · intro pre val b post hev
    rw [hev] at hok1
    obtain ⟨s1, hpre, hrest⟩ := scan_run_append_some dev pre _ _ sf hok1
    obtain ⟨s2, hnext, _⟩ := scan_run_cons_some dev _ post s1 sf hrest
    obtain ⟨v, hs1, hval, _⟩ := scan_next_writel_inv dev s1 s2 val b hnext
    subst hs1
    obtain ⟨pre0, hpre0, hv0, hv32, _⟩ := scan_run_to_read dev pre 0 b v hpre
    obtain ⟨hj32, hbit, hlow⟩ := find_first_bit_spec v hv0 hv32
    exact ⟨pre0, v, hpre0, hv0, hval, hj32, hbit, hlow⟩
  · intro pre i v i1 v1 post hev
    rw [hev] at hok1
    obtain ⟨s1, _, hrest⟩ := scan_run_append_some dev pre _ _ sf hok1
    obtain ⟨s2, hn1, hrest2⟩ := scan_run_cons_some dev _ _ s1 sf hrest
    obtain ⟨s3, hn2, _⟩ := scan_run_cons_some dev _ _ s2 sf hrest2
    obtain ⟨_, _, _, hs2⟩ := scan_next_readl_inv dev s1 s2 i v hn1
    obtain ⟨hs, _, _, _⟩ := scan_next_readl_inv dev s2 s3 i1 v1 hn2
    rw [hs2] at hs
    unfold scan_after_read at hs
    by_cases hv : v = 0
    · simp only [if_pos hv] at hs
      rcases hs with hs | hs
      · simp only [scan_state.start.injEq] at hs
        exact ⟨hv, hs.symm⟩
      · cases hs
    · simp only [if_neg hv] at hs
      rcases hs with hs | hs <;> cases hs
  · intro hw1 evs h
    exact handle_msi_irq_for_trace_eq io dev fuel PCIE20_MSI_CTRL_MAX 0 hw hw1 evs h

/-- C20 on registers where bit 9 of bank 0 arrives after bit 3 has been
acknowledged: the events of the scan, and the claim at the dispatch of the
interrupt of slot 9. -/
theorem handle_msi_irq_ack_then_dispatch_witness :
    (handle_msi_irq_trace scripted_regs dev_init 3 [8, 512]).2 =
      [msi_event.readl 0 8, msi_event.writel 8 0, msi_event.generic_handle_irq 503,
       msi_event.readl 0 512, msi_event.writel 512 0, msi_event.generic_handle_irq 509,
       msi_event.readl 0 0, msi_event.readl 1 0, msi_event.readl 2 0, msi_event.readl 3 0,
       msi_event.readl 4 0, msi_event.readl 5 0, msi_event.readl 6 0, msi_event.readl 7 0] ∧
    ∃ pre0 i j v,
      [msi_event.readl 0 8, msi_event.writel 8 0, msi_event.generic_handle_irq 503,
       msi_event.readl 0 512, msi_event.writel 512 0] =
        pre0 ++ [msi_event.readl i v, msi_event.writel (BIT j) i] ∧
      i < PCIE20_MSI_CTRL_MAX ∧ j < 32 ∧ v.testBit j = true ∧
      (∀ k, k < j → v.testBit k = false) ∧
      509 = irq_find_mapping dev_init (j + 32 * i) ∧
      (j + 32 * i) / 32 = i ∧ (j + 32 * i) % 32 = j ∧
      ([msi_event.readl 0 0, msi_event.readl 1 0, msi_event.readl 2 0, msi_event.readl 3 0,
        msi_event.readl 4 0, msi_event.readl 5 0, msi_event.readl 6 0,
        msi_event.readl 7 0] = [] ∨
       ∃ v1 post1,
        [msi_event.readl 0 0, msi_event.readl 1 0, msi_event.readl 2 0, msi_event.readl 3 0,
         msi_event.readl 4 0, msi_event.readl 5 0, msi_event.readl 6 0,
         msi_event.readl 7 0] = msi_event.readl i v1 :: post1) :=
  ⟨rfl,
    (handle_msi_irq_ack_then_dispatch scripted_regs dev_init 3 [8, 512]).1
      [msi_event.readl 0 8, msi_event.writel 8 0, msi_event.generic_handle_irq 503,
       msi_event.readl 0 512, msi_event.writel 512 0]
      509
      [msi_event.readl 0 0, msi_event.readl 1 0, msi_event.readl 2 0, msi_event.readl 3 0,
       msi_event.readl 4 0, msi_event.readl 5 0, msi_event.readl 6 0, msi_event.readl 7 0]
      rfl⟩

/-! ## The recovery mutex -/

/-! ### The handlers step by step make the calls of the handlers -/

theorem steps_calls_append (a b : List lock_event) :
    steps_calls (a ++ b) = steps_calls a ++ steps_calls b := by
  simp [steps_calls, List.filterMap_append]

theorem handle_linkdown_irq_steps_eq (dev : msm_pcie_dev_t) :
    (handle_linkdown_irq_steps dev).1 = (handle_linkdown_irq dev).1 ∧
    steps_calls (handle_linkdown_irq_steps dev).2 = (handle_linkdown_irq dev).2 := by
  unfold handle_linkdown_irq_steps handle_linkdown_irq
  simp only
  split
  · exact ⟨rfl, rfl⟩
  · split <;> exact ⟨rfl, rfl⟩

theorem msm_pcie_recover_link_steps_eq (env : pcie_env) (dev : msm_pcie_dev_t) :
    (msm_pcie_recover_link_steps env dev).1 = (msm_pcie_recover_link env dev).1 ∧
    (msm_pcie_recover_link_steps env dev).2.1 = (msm_pcie_recover_link env dev).2.1 ∧
    steps_calls (msm_pcie_recover_link_steps env dev).2.2 =
      (msm_pcie_recover_link env dev).2.2 := by
  unfold msm_pcie_recover_link_steps msm_pcie_recover_link
  simp only
  split
  · split
    · split <;> exact ⟨rfl, rfl, rfl⟩
    · exact ⟨rfl, rfl, rfl⟩
  · exact ⟨rfl, rfl, rfl⟩

theorem msm_pcie_notify_linkdown_steps_eq (env : pcie_env) (dev : msm_pcie_dev_t) :
    (msm_pcie_notify_linkdown_steps env dev).1 = (msm_pcie_notify_linkdown env dev).1 ∧
    steps_calls (msm_pcie_notify_linkdown_steps env dev).2 =
      (msm_pcie_notify_linkdown env dev).2 := by
  unfold msm_pcie_notify_linkdown_steps msm_pcie_notify_linkdown
  split
  · simp only
    split
    · exact ⟨rfl, rfl⟩
    · split
      · exact ⟨rfl, rfl⟩
      · split
        · split <;> exact ⟨rfl, rfl⟩
        · exact ⟨rfl, rfl⟩
  · exact ⟨rfl, rfl⟩

theorem msm_pcie_notify_linkdown_no_mutex (env : pcie_env) (dev : msm_pcie_dev_t) :
    (msm_pcie_notify_linkdown env dev).2.filter is_mutex_call = [] := by
  unfold msm_pcie_notify_linkdown
  split
  · simp only
    split
    · rfl
    · split
      · rfl
      · split
        · split <;> rfl
        · rfl
  · rfl

theorem msm_pcie_recover_link_no_mutex (env : pcie_env) (dev : msm_pcie_dev_t) :
    (msm_pcie_recover_link env dev).2.2.filter is_mutex_call = [] := by
  unfold msm_pcie_recover_link
  simp only
  split
  · split
    · split <;> rfl
    · rfl
  · rfl

theorem handle_wake_func_locked_no_mutex (env : pcie_env) (dev : msm_pcie_dev_t)
    (retries : Nat) :
    (handle_wake_func_locked env dev retries).2.2.filter is_mutex_call = [] := by
  unfold handle_wake_func_locked
  split
  · split
    · rfl
    · simp only [List.filter_append, msm_pcie_notify_linkdown_no_mutex]
      rfl
  · split
    · simp only
      split
      · simp only [List.filter_append, msm_pcie_recover_link_no_mutex]
        rfl
      · exact msm_pcie_recover_link_no_mutex env dev
    · split
      · split <;> rfl
      · rfl

theorem handle_linkdown_func_mutex (env : pcie_env) (dev : msm_pcie_dev_t) :
    (handle_linkdown_func env dev).2.filter is_mutex_call =
      [ext_call.mutex_lock_recovery_lock, ext_call.mutex_unlock_recovery_lock] ∧
    (handle_linkdown_func env dev).2.head? = some ext_call.mutex_lock_recovery_lock ∧
    (handle_linkdown_func env dev).2.getLast? = some ext_call.mutex_unlock_recovery_lock := by
  rw [handle_linkdown_func_calls]
  refine ⟨?_, rfl, List.getLast?_concat _⟩
  simp only [List.filter_append]
  have h1 : (if env.msm_pcie_confirm_linkup dev true true then []
      else (msm_pcie_notify_linkdown env dev).2).filter is_mutex_call = [] := by
    split
    · rfl
    · exact msm_pcie_notify_linkdown_no_mutex env dev
  rw [h1]
  split <;> rfl

theorem handle_wake_func_mutex (env : pcie_env) (dev : msm_pcie_dev_t) (retries : Nat) :
    (handle_wake_func env dev retries).2.2.filter is_mutex_call =
      [ext_call.mutex_lock_recovery_lock, ext_call.mutex_unlock_recovery_lock] := by
  by_cases henum : dev.enumerated = true
  · rw [handle_wake_func_enumerated env dev retries henum]
    simp only [List.filter_append, handle_wake_func_locked_no_mutex,
      handle_wake_func_drain_filter env dev is_mutex_call (fun _ _ => rfl) rfl]
    rfl
  · have hf : dev.enumerated = false := by simpa using henum
    unfold handle_wake_func
    simp only [hf, Bool.not_false, if_true]
    split
    · rfl
    · split
      · split <;> rfl
      · rfl

theorem handle_linkdown_irq_no_mutex (dev : msm_pcie_dev_t) :
    (handle_linkdown_irq dev).2.filter is_mutex_call = [] := by
  unfold handle_linkdown_irq
  simp only
  split
  · rfl
  · split <;> rfl

theorem steps_calls_call (c : ext_call) (d : msm_pcie_dev_t) (evs : List lock_event) :
    steps_calls (lock_event.call c d :: evs) = c :: steps_calls evs := rfl

theorem steps_calls_assign (d : msm_pcie_dev_t) (evs : List lock_event) :
    steps_calls (lock_event.assign d :: evs) = steps_calls evs := rfl

theorem steps_calls_nil : steps_calls [] = [] := rfl

theorem handle_linkdown_func_steps_eq (env : pcie_env) (dev : msm_pcie_dev_t) :
    (handle_linkdown_func_steps env dev).1 = (handle_linkdown_func env dev).1 ∧
    steps_calls (handle_linkdown_func_steps env dev).2 = (handle_linkdown_func env dev).2 := by
  have hn := msm_pcie_notify_linkdown_steps_eq env dev
  unfold handle_linkdown_func_steps handle_linkdown_func
  cases hp : env.msm_pcie_confirm_linkup dev true true
  · simp only [Bool.false_eq_true, if_false, hn.1, steps_calls_append, hn.2, steps_calls_call,
      steps_calls_assign, steps_calls_nil, true_and, List.append_nil]
    split <;> simp [steps_calls_call, steps_calls_nil]
  · simp only [if_true, steps_calls_append, steps_calls_call,
      steps_calls_assign, steps_calls_nil, true_and, List.append_nil]
    split <;> simp [steps_calls_call, steps_calls_nil]

theorem handle_wake_func_wait_steps_eq (env : pcie_env) (n : Nat) :
    ∀ (waiting_cycle : Nat) (dev : msm_pcie_dev_t),
      LINKDOWN_WAITING_COUNT - waiting_cycle = n →
      (handle_wake_func_wait_steps env waiting_cycle dev).1 =
        (handle_wake_func_wait env waiting_cycle dev).1 ∧
      (handle_wake_func_wait_steps env waiting_cycle dev).2.1 =
        (handle_wake_func_wait env waiting_cycle dev).2.1 ∧
      steps_calls (handle_wake_func_wait_steps env waiting_cycle dev).2.2 =
        (handle_wake_func_wait env waiting_cycle dev).2.2 := by
  induction n with
  | zero =>
    intro wc dev hn
    have hwc : ¬ wc < LINKDOWN_WAITING_COUNT := by omega
    rw [handle_wake_func_wait_steps, handle_wake_func_wait]
    by_cases hl : dev.handling_linkdown > 0
    · simp [hl, hwc, steps_calls_nil]
    · simp [hl, steps_calls_nil]
  | succ n ih =>
    intro wc dev hn
    have hwc : wc < LINKDOWN_WAITING_COUNT := by omega
    rw [handle_wake_func_wait_steps, handle_wake_func_wait]
    by_cases hl : dev.handling_linkdown > 0
    · have h := ih (wc + 1) (env.usleep_range (wc + 1) dev) (by omega)
      simp only [hl, if_true, hwc, dite_true, steps_calls_call]
      exact ⟨h.1, h.2.1, congrArg _ h.2.2⟩
    · simp [hl, steps_calls_nil]

theorem handle_wake_func_drain_steps_eq (env : pcie_env) (dev : msm_pcie_dev_t) :
    (handle_wake_func_drain_steps env dev).1 = (handle_wake_func_drain env dev).1 ∧
    steps_calls (handle_wake_func_drain_steps env dev).2 = (handle_wake_func_drain env dev).2 := by
  have h := handle_wake_func_wait_steps_eq env _ 0 (env.usleep_range 0 dev) rfl
  unfold handle_wake_func_drain_steps handle_wake_func_drain
  simp only [h.1, h.2.1, steps_calls_call, steps_calls_append, h.2.2, true_and]
  split <;> simp [steps_calls_call, steps_calls_nil]

theorem handle_wake_func_locked_steps_eq (env : pcie_env) (dev : msm_pcie_dev_t)
    (retries : Nat) :
    (handle_wake_func_locked_steps env dev retries).1 =
      (handle_wake_func_locked env dev retries).1 ∧
    (handle_wake_func_locked_steps env dev retries).2.1 =
      (handle_wake_func_locked env dev retries).2.1 ∧
    steps_calls (handle_wake_func_locked_steps env dev retries).2.2 =
      (handle_wake_func_locked env dev retries).2.2 := by
  have hr := msm_pcie_recover_link_steps_eq env dev
  unfold handle_wake_func_locked_steps handle_wake_func_locked
  split
  · split
    · exact ⟨rfl, rfl, rfl⟩
    · have hn := msm_pcie_notify_linkdown_steps_eq env
        { { dev with link_status := MSM_PCIE_LINK_DISABLED } with shadow_en := false }
      refine ⟨hn.1, rfl, ?_⟩
      simp only [steps_calls_append, steps_calls_call, steps_calls_assign, steps_calls_nil]
      exact congrArg _ hn.2
  · split
    · simp only [hr.1, hr.2.1]
      split
      · refine ⟨rfl, rfl, ?_⟩
        simp only [steps_calls_append, steps_calls_call, steps_calls_nil, hr.2.2]
      · refine ⟨rfl, rfl, ?_⟩
        simp only [steps_calls_append, steps_calls_assign, steps_calls_nil, hr.2.2,
          List.append_nil]
    · split
      · split <;> exact ⟨rfl, rfl, rfl⟩
      · exact ⟨rfl, rfl, rfl⟩

theorem handle_wake_func_steps_eq (env : pcie_env) (dev : msm_pcie_dev_t) (retries : Nat) :
    (handle_wake_func_steps env dev retries).1 = (handle_wake_func env dev retries).1 ∧
    (handle_wake_func_steps env dev retries).2.1 = (handle_wake_func env dev retries).2.1 ∧
    steps_calls (handle_wake_func_steps env dev retries).2.2 =
      (handle_wake_func env dev retries).2.2 := by
  have hd := handle_wake_func_drain_steps_eq env dev
  have hl := handle_wake_func_locked_steps_eq env (handle_wake_func_drain env dev).1 retries
  unfold handle_wake_func_steps handle_wake_func
  split
  · simp only
    split
    · exact ⟨rfl, rfl, rfl⟩
    · split
      · split <;> exact ⟨rfl, rfl, rfl⟩
      · exact ⟨rfl, rfl, rfl⟩
  · simp only [hd.1, hl.1, hl.2.1, steps_calls_append, steps_calls_call, steps_calls_nil,
      hd.2, hl.2.2, and_self]

/-! ### The flag along the steps -/

theorem lock_sys_run_append (a b : List lock_event) :
    ∀ s, lock_sys_run s (a ++ b) = (lock_sys_run s a).bind (fun s1 => lock_sys_run s1 b) := by
  induction a with
  | nil => intro s; rfl
  | cons e a ih =>
    intro s
    simp only [List.cons_append, lock_sys_run]
    cases lock_sys_step s e with
    | none => rfl
    | some s1 => exact ih s1

theorem lock_sys_step_held (s : lock_sys) (hheld : s.held = true) (e : lock_event)
    (hnm : ∀ c, e.called = some c → is_mutex_call c = false) :
    ∃ d, lock_sys_step s e = some { dev := d, held := true } := by
  cases e with
  | assign d => exact ⟨d, by simp [lock_sys_step, lock_sys_write, hheld]⟩
  | call c d =>
    have hc := hnm c rfl
    refine ⟨d, ?_⟩
    cases c <;> simp [lock_sys_step, lock_sys_write, hheld, is_mutex_call] at hc ⊢

theorem lock_sys_run_held (evs : List lock_event) :
    ∀ s, s.held = true → (steps_calls evs).filter is_mutex_call = [] →
      ∃ d, lock_sys_run s evs = some { dev := d, held := true } := by
  induction evs with
  | nil =>
    intro s hheld _
    refine ⟨s.dev, ?_⟩
    cases s
    simp only at hheld
    simp [lock_sys_run, hheld]
  | cons e evs ih =>
    intro s hheld hnm
    have hstep : ∀ c, e.called = some c → is_mutex_call c = false := by
      intro c hc
      cases e with
      | assign d => simp [lock_event.called] at hc
      | call c1 d =>
        simp only [lock_event.called, Option.some.injEq] at hc
        subst hc
        rw [steps_calls_call, List.filter_eq_nil_iff] at hnm
        simpa using hnm c1 (List.mem_cons_self _ _)
    have hrest : (steps_calls evs).filter is_mutex_call = [] := by
      cases e with
      | assign d => simpa [steps_calls_assign] using hnm
      | call c1 d =>
        rw [steps_calls_call, List.filter_eq_nil_iff] at hnm
        rw [List.filter_eq_nil_iff]
        intro c hc
        exact hnm c (List.mem_cons_of_mem _ hc)
    obtain ⟨d, hd⟩ := lock_sys_step_held s hheld e hstep
    simp only [lock_sys_run, hd]
    exact ih _ rfl hrest

theorem handle_wake_func_wait_steps_run (env : pcie_env) (n : Nat) :
    ∀ (waiting_cycle : Nat) (dev : msm_pcie_dev_t),
      LINKDOWN_WAITING_COUNT - waiting_cycle = n →
      lock_sys_run { dev := dev, held := false }
        (handle_wake_func_wait_steps env waiting_cycle dev).2.2 =
      some { dev := (handle_wake_func_wait_steps env waiting_cycle dev).2.1, held := false } := by
  induction n with
  | zero =>
    intro wc dev hn
    have hwc : ¬ wc < LINKDOWN_WAITING_COUNT := by omega
    rw [handle_wake_func_wait_steps]
    by_cases hl : dev.handling_linkdown > 0
    · simp [hl, hwc, lock_sys_run]
    · simp [hl, lock_sys_run]
  | succ n ih =>
    intro wc dev hn
    have hwc : wc < LINKDOWN_WAITING_COUNT := by omega
    rw [handle_wake_func_wait_steps]
    by_cases hl : dev.handling_linkdown > 0
    · have h := ih (wc + 1) (env.usleep_range (wc + 1) dev) (by omega)
      simp only [hl, if_true, hwc, dite_true, lock_sys_run, lock_sys_step]
      simpa using h
    · simp [hl, lock_sys_run]

theorem handle_wake_func_drain_steps_run (env : pcie_env) (dev : msm_pcie_dev_t) :
    lock_sys_run { dev := dev, held := false } (handle_wake_func_drain_steps env dev).2 =
      some { dev := (handle_wake_func_drain_steps env dev).1, held := false } := by
  have h := handle_wake_func_wait_steps_run env _ 0 (env.usleep_range 0 dev) rfl
  unfold handle_wake_func_drain_steps
  simp only [lock_sys_run, lock_sys_step]
  simp only [reduceCtorEq, if_false, List.append_eq]
  split
  · rw [lock_sys_run_append, h]
    simp [lock_sys_run, lock_sys_step, lock_sys_write]
  · rw [List.append_nil]
    exact h

theorem handle_linkdown_func_steps_run (env : pcie_env) (dev : msm_pcie_dev_t) :
    lock_sys_run { dev := dev, held := false } (handle_linkdown_func_steps env dev).2 =
      some { dev := (handle_linkdown_func_steps env dev).1, held := false } := by
  have hnm : (steps_calls
      (if env.msm_pcie_confirm_linkup dev true true then (dev, ([] : List lock_event))
       else msm_pcie_notify_linkdown_steps env dev).2).filter is_mutex_call = [] := by
    split
    · rfl
    · rw [(msm_pcie_notify_linkdown_steps_eq env dev).2]
      exact msm_pcie_notify_linkdown_no_mutex env dev
  unfold handle_linkdown_func_steps
  simp only []
  generalize (if env.msm_pcie_confirm_linkup dev true true then (dev, ([] : List lock_event))
    else msm_pcie_notify_linkdown_steps env dev) = r at hnm ⊢
  obtain ⟨d, hd⟩ := lock_sys_run_held r.2 { dev := dev, held := true } rfl hnm
  have h1 : lock_sys_run { dev := dev, held := false }
      [lock_event.call ext_call.mutex_lock_recovery_lock dev,
       lock_event.call (ext_call.msm_pcie_confirm_linkup true true) dev] =
      some { dev := dev, held := true } := by
    simp [lock_sys_run, lock_sys_step, lock_sys_write]
  rw [lock_sys_run_append, lock_sys_run_append, lock_sys_run_append, lock_sys_run_append, h1]
  simp only [Option.some_bind, hd]
  split <;> simp [lock_sys_run, lock_sys_step, lock_sys_write]

theorem handle_linkdown_irq_steps_run (dev : msm_pcie_dev_t) :
    lock_sys_run { dev := dev, held := false } (handle_linkdown_irq_steps dev).2 =
      if (handle_linkdown_irq_steps dev).1.link_status = dev.link_status then
        some { dev := (handle_linkdown_irq_steps dev).1, held := false }
      else none := by
  unfold handle_linkdown_irq_steps
  simp only
  split
  · simp [lock_sys_run, lock_sys_step, lock_sys_write]
  · split
    · simp [lock_sys_run, lock_sys_step, lock_sys_write]
    · rename_i h _
      have hl : dev.link_status = MSM_PCIE_LINK_ENABLED := by
        simp only [Bool.or_eq_true, not_or] at h
        simpa using h.2
      simp [lock_sys_run, lock_sys_step, lock_sys_write, hl]

theorem handle_wake_func_steps_run (env : pcie_env) (dev : msm_pcie_dev_t) (retries : Nat) :
    lock_sys_run { dev := dev, held := false } (handle_wake_func_steps env dev retries).2.2 =
      if dev.enumerated = true ∨
          (handle_wake_func_steps env dev retries).1.link_status =
            (env.msm_pcie_enumerate dev).2.link_status then
        some { dev := (handle_wake_func_steps env dev retries).1, held := false }
      else none := by
  by_cases henum : dev.enumerated = true
  · rw [if_pos (Or.inl henum)]
    have hnm : (steps_calls (handle_wake_func_locked_steps env
        (handle_wake_func_drain_steps env dev).1 retries).2.2).filter is_mutex_call = [] := by
      rw [(handle_wake_func_locked_steps_eq env _ retries).2.2]
      exact handle_wake_func_locked_no_mutex env _ retries
    obtain ⟨d, hd⟩ := lock_sys_run_held _
      { dev := (handle_wake_func_drain_steps env dev).1, held := true } rfl hnm
    unfold handle_wake_func_steps
    simp only [henum, Bool.not_true, Bool.false_eq_true, if_false]
    rw [lock_sys_run_append, lock_sys_run_append, lock_sys_run_append,
      handle_wake_func_drain_steps_run]
    simp only [Option.some_bind]
    have h1 : lock_sys_run { dev := (handle_wake_func_drain_steps env dev).1, held := false }
        [lock_event.call ext_call.mutex_lock_recovery_lock
          (handle_wake_func_drain_steps env dev).1] =
        some { dev := (handle_wake_func_drain_steps env dev).1, held := true } := by
      simp [lock_sys_run, lock_sys_step, lock_sys_write]
    rw [h1]
    simp only [Option.some_bind, hd]
    simp [lock_sys_run, lock_sys_step]
  · have hf : dev.enumerated = false := by simpa using henum
    unfold handle_wake_func_steps
    simp only [hf, Bool.not_false, if_true, Bool.false_eq_true, false_or]
    split
    · simp [lock_sys_run, lock_sys_step, lock_sys_write]
    · split
      · split
        · simp only [lock_sys_run, lock_sys_step, lock_sys_write, reduceCtorEq, if_false,
            if_true, Bool.false_eq_true, or_false, or_true, List.cons_append, List.nil_append]
          split
          · rename_i hq
            exact hq.symm
          · rename_i hq
            exact hq.symm
        · simp [lock_sys_run, lock_sys_step, lock_sys_write]
      · simp [lock_sys_run, lock_sys_step, lock_sys_write]

/-! ### The discipline of the recovery mutex -/

/-- C21, the claim as stated fails, in two places.  On the enumerated example
device with the link up, `handle_linkdown_irq` changes `link_status` from
Enabled to Disabled and makes no call on the recovery mutex.  On the example
device before enumeration, with a client whose LinkUp callback takes the link
down again, `handle_wake_func` delivers that callback after `mutex_unlock`, so
`link_status` changes while the mutex is not held. -/
theorem link_status_written_unlocked :
    dev_enabled.link_status = MSM_PCIE_LINK_ENABLED ∧
    (handle_linkdown_irq dev_enabled).1.link_status = MSM_PCIE_LINK_DISABLED ∧
    (handle_linkdown_irq dev_enabled).2.filter is_mutex_call = [] ∧
    lock_sys_run { dev := dev_enabled, held := false }
      (handle_linkdown_irq_steps dev_enabled).2 = none ∧
    dev_init.enumerated = false ∧
    (handle_wake_func (env_example (some (reg_example cb_suspend [])) 0) dev_init 0).2.2 =
      [ext_call.mutex_lock_recovery_lock, ext_call.msm_pcie_enumerate,
       ext_call.mutex_unlock_recovery_lock, ext_call.callback MSM_PCIE_EVENT_LINKUP 42] ∧
    ((env_example (some (reg_example cb_suspend [])) 0).msm_pcie_enumerate dev_init).2.link_status =
      MSM_PCIE_LINK_ENABLED ∧
    (handle_wake_func (env_example (some (reg_example cb_suspend [])) 0)
      dev_init 0).1.link_status = MSM_PCIE_LINK_DISABLED ∧
    lock_sys_run { dev := dev_init, held := false }
      (handle_wake_func_steps (env_example (some (reg_example cb_suspend [])) 0)
        dev_init 0).2.2 = none :=
  ⟨rfl, rfl, rfl, rfl, rfl, rfl, rfl, rfl, rfl⟩

/-- C21, amended: with the recovery mutex as a flag, not held when a handler
starts, and the handlers run step by step (their calls are those of the
handlers).  Every run of `handle_linkdown_func` and of `handle_wake_func` takes
the mutex once and then releases it once; `handle_linkdown_irq` makes no call
on it.  `handle_linkdown_func` changes `link_status` only while it holds the
mutex, and so does `handle_wake_func` on an enumerated controller.  On a
controller not enumerated `handle_wake_func` keeps to this exactly when the
LinkUp callback, delivered after the release, leaves `link_status` as the
enumeration left it.  `handle_linkdown_irq` keeps to it exactly when it does not
take the link down. -/
theorem recovery_lock_held_in_work (env : pcie_env) (dev : msm_pcie_dev_t) (retries : Nat) :
    (handle_linkdown_func env dev).2.filter is_mutex_call =
      [ext_call.mutex_lock_recovery_lock, ext_call.mutex_unlock_recovery_lock] ∧
    (handle_wake_func env dev retries).2.2.filter is_mutex_call =
      [ext_call.mutex_lock_recovery_lock, ext_call.mutex_unlock_recovery_lock] ∧
    (handle_linkdown_irq dev).2.filter is_mutex_call = [] ∧
    steps_calls (handle_linkdown_func_steps env dev).2 = (handle_linkdown_func env dev).2 ∧
    steps_calls (handle_wake_func_steps env dev retries).2.2 =
      (handle_wake_func env dev retries).2.2 ∧
    steps_calls (handle_linkdown_irq_steps dev).2 = (handle_linkdown_irq dev).2 ∧
    lock_sys_run { dev := dev, held := false } (handle_linkdown_func_steps env dev).2 =
      some { dev := (handle_linkdown_func env dev).1, held := false } ∧
    lock_sys_run { dev := dev, held := false } (handle_wake_func_steps env dev retries).2.2 =
      (if dev.enumerated = true ∨
          (handle_wake_func env dev retries).1.link_status =
            (env.msm_pcie_enumerate dev).2.link_status then
        some { dev := (handle_wake_func env dev retries).1, held := false }
      else none) ∧
    lock_sys_run { dev := dev, held := false } (handle_linkdown_irq_steps dev).2 =
      (if (handle_linkdown_irq dev).1.link_status = dev.link_status then
        some { dev := (handle_linkdown_irq dev).1, held := false }
      else none) := by
  refine ⟨(handle_linkdown_func_mutex env dev).1, handle_wake_func_mutex env dev retries,
    handle_linkdown_irq_no_mutex dev, (handle_linkdown_func_steps_eq env dev).2,
    (handle_wake_func_steps_eq env dev retries).2.2, (handle_linkdown_irq_steps_eq dev).2,
    ?_, ?_, ?_⟩
  · rw [← (handle_linkdown_func_steps_eq env dev).1]
    exact handle_linkdown_func_steps_run env dev
  · rw [← (handle_wake_func_steps_eq env dev retries).1]
    exact handle_wake_func_steps_run env dev retries
  · rw [← (handle_linkdown_irq_steps_eq dev).1]
    exact handle_linkdown_irq_steps_run dev

/-- C21 on the example device that waits for recovery: the wake work takes the
mutex, the link comes up while it is held, and the mutex is released. -/
theorem recovery_lock_held_in_work_witness :
    dev_recovering.link_status = MSM_PCIE_LINK_DISABLED ∧
    (handle_wake_func (env_example (some (reg_example cb_resume [])) 0)
      dev_recovering 0).1.link_status = MSM_PCIE_LINK_ENABLED ∧
    lock_sys_run { dev := dev_recovering, held := false }
      (handle_wake_func_steps (env_example (some (reg_example cb_resume [])) 0)
        dev_recovering 0).2.2 =
      some { dev := (handle_wake_func (env_example (some (reg_example cb_resume [])) 0)
        dev_recovering 0).1, held := false } := by
  have h := (recovery_lock_held_in_work (env_example (some (reg_example cb_resume [])) 0)
    dev_recovering 0).2.2.2.2.2.2.2.1
  have hc : dev_recovering.enumerated = true ∨
      (handle_wake_func (env_example (some (reg_example cb_resume [])) 0)
        dev_recovering 0).1.link_status =
      ((env_example (some (reg_example cb_resume [])) 0).msm_pcie_enumerate
        dev_recovering).2.link_status := Or.inl rfl
  rw [if_pos hc] at h
  refine ⟨rfl, ?_, h⟩
  rw [handle_wake_func_enumerated _ _ _ rfl]
  simp [handle_wake_func_drain, handle_wake_func_wait, handle_wake_func_locked,
    msm_pcie_recover_link, env_example, dev_recovering, dev_down, dev_init, reg_example,
    event_callback, cb_resume]

/-! ## A domain that does not number the slots consecutively -/

/-- C7, the claim as stated fails: on the device whose domain gives slot 0 the
interrupt 500 and slot 1 the interrupt 502, with slots 0, 1 and 2 allocated,
`msm_pcie_destroy_irq` on the interrupt of slot 1 computes the position
`502 - 500 = 2`: it clears bit 2 and leaves bit 1 set. -/
theorem msm_pcie_destroy_irq_wrong_slot :
    dev_gap_three.msi_gicm_addr = 0 ∧
    slot_irq dev_gap_three 1 = 502 ∧
    dev_gap_three.msi_irq_in_use 1 = true ∧
    dev_gap_three.msi_irq_in_use 2 = true ∧
    ∃ dev1, msm_pcie_destroy_irq (slot_irq dev_gap_three 1) dev_gap_three = some dev1 ∧
      dev1.msi_irq_in_use 1 = true ∧ dev1.msi_irq_in_use 2 = false :=
  ⟨rfl, rfl, rfl, rfl, _, rfl, rfl, rfl⟩

/-- C3, the claim as stated fails: on the device whose domain gives the slots
0, 1, 2 the interrupts 500, 502, 503, from the empty bitmap, three allocations
return 500, 502 and 503; the free of 502 clears bit 2 instead of bit 1; the
next allocation takes slot 2 and returns 503, which is still live. -/
theorem msi_alloc_returns_live :
    ∃ s r, msi_run 1 [msi_op.alloc, msi_op.alloc, msi_op.alloc, msi_op.free 502]
        { dev := dev_gap, live := [], returned := [] } = some s ∧
      s.live = [503, 500] ∧
      msm_pcie_alloc 1 s.dev = some r ∧
      r.1 = 503 ∧ r.1.toNat ∈ s.live :=
  ⟨_, _, rfl, rfl, rfl, rfl, by decide⟩

end PcieIrq
